import Mathlib

/-!
# Verification of the Demongeon simulation engine

A shallow embedding of `src/demongeon.py`.  Python objects are flattened into a
single `World` state: situation objects live in a heap `sits` indexed by
`SitId`, entity objects live in a heap `ents` indexed by `EId`, and the
`World.situations` dictionary is an association list `dict` from coordinates to
situation identities.  Python exceptions (KeyError on a dictionary lookup,
ValueError from `list.remove`, AttributeError on a missing attribute) are
modelled by `Option`-valued operations returning `none`.  Randomness (`randint`)
is modelled by an oracle stream `rand : Nat -> Nat` together with a cursor `rk`;
each call to the generator reads the stream at the cursor and advances it.
-/

/-- 3D integer coordinate, as the Python tuples `(x, y, z)`. -/
abbrev Coord := Int × Int × Int

/-- Identity of a situation object.  `loc c` is the `Room` object created for
coordinate `c` during initialization; `term n` is the `n`-th dynamically
allocated terminal situation (`Death` / `Victory`). -/
inductive SitId where
  | loc : Coord → SitId
  | term : Nat → SitId
deriving DecidableEq, Repr

/-- Identity of an entity object (position in `Entity.entities`). -/
abbrev EId := Nat

/-- The variant tag of a situation, standing in for the Python class together
with the class-specific attributes (`location_type`, `reason`). -/
inductive SitKind where
  | plain : SitKind
  | room : String → SitKind
  | death : String → SitKind
  | victory : String → SitKind
deriving DecidableEq, Repr

/-- A `Situation` object: its `contents` list and class data.  `coordinate` is
`some c` exactly for `Location` subclasses (which own a coordinate attribute)
and `none` for the base class and for `Death`/`Victory`. -/
structure Sit where
  contents : List EId
  kind : SitKind
  coordinate : Option Coord
deriving DecidableEq, Repr

/-- The exact Python class of an entity (`contains_type` compares classes
exactly, so a plain tag is faithful). -/
inductive EKind where
  | hero : EKind
  | treasure : EKind
  | deathBall : EKind
  | genericItem : EKind
deriving DecidableEq, Repr

/-- An `Entity` object with the attributes used by the engine. -/
structure Entity where
  kind : EKind
  situation : Option SitId
  acted : Bool
  color : String
  name : String
  weight : Int
  strength : Int
  inventory : List EId
deriving DecidableEq, Repr

/-- Association-list lookup with decidable equality, modelling a Python
dictionary access `d[k]` (callers wrap a missing key as `none` = KeyError). -/
def dictLookup (m : List (Coord × SitId)) (k : Coord) : Option SitId :=
  match m with
  | [] => none
  | (a, v) :: rest => if k = a then some v else dictLookup rest k

/-- Python dictionary assignment `d[k] = v`: overwrite the value if the key is
present, otherwise append a new key. -/
def dictSet (m : List (Coord × SitId)) (k : Coord) (v : SitId) : List (Coord × SitId) :=
  match m with
  | [] => [(k, v)]
  | (a, w) :: rest => if a = k then (a, v) :: rest else (a, w) :: dictSet rest k v

/-- The whole mutable state of the program: both object heaps, the `World`
attributes, the global `Entity.entities` registry, an allocation counter for
terminal situations, and the random oracle. -/
structure World where
  size : Nat
  dict : List (Coord × SitId)
  sits : SitId → Sit
  ents : EId → Entity
  registry : List EId
  heroId : EId
  treasureId : EId
  nextSit : Nat
  rand : Nat → Nat
  rk : Nat

/-- Replace the `contents` list of the situation object `s`. -/
def World.setContents (w : World) (s : SitId) (cs : List EId) : World :=
  { w with sits := fun t => if t = s then { w.sits t with contents := cs } else w.sits t }

/-- Assign `entity.situation = v`. -/
def World.setEntSit (w : World) (e : EId) (v : Option SitId) : World :=
  { w with ents := fun x => if x = e then { w.ents x with situation := v } else w.ents x }

/-- Assign `entity.acted = b`. -/
def World.setActed (w : World) (e : EId) (b : Bool) : World :=
  { w with ents := fun x => if x = e then { w.ents x with acted := b } else w.ents x }

/-- Assign `lifeform.inventory = l`. -/
def World.setInv (w : World) (e : EId) (l : List EId) : World :=
  { w with ents := fun x => if x = e then { w.ents x with inventory := l } else w.ents x }

/-- One draw from the random generator: the value at the cursor, and the world
with the cursor advanced. -/
def World.draw (w : World) : Nat × World :=
  (w.rand w.rk, { w with rk := w.rk + 1 })

/-- `Situation.contains`: membership test in the contents list. -/
def Situation.contains (w : World) (s : SitId) (e : EId) : Bool :=
  e ∈ (w.sits s).contents

/-- `Situation.contains_type`: is some entity of exactly the given class in the
contents list? -/
def Situation.contains_type (w : World) (s : SitId) (k : EKind) : Bool :=
  (w.sits s).contents.any (fun e => (w.ents e).kind = k)

/-- `Situation.get_entities`: all entities in the contents list of exactly the
given class, in list order. -/
def Situation.get_entities (w : World) (s : SitId) (k : EKind) : List EId :=
  (w.sits s).contents.filter (fun e => (w.ents e).kind = k)

/-- `Situation.remove`: `self.contents.remove(entity)`.  Python's
`list.remove` removes the first occurrence and raises `ValueError` when the
entity is absent, modelled by `none`. -/
def Situation.removeEnt (w : World) (s : SitId) (e : EId) : Option World :=
  if e ∈ (w.sits s).contents then
    some (w.setContents s (((w.sits s).contents).erase e))
  else
    none

/-- `Situation.add`: detach the entity from its current situation (if any),
append it to this situation's contents, and point `entity.situation` here. -/
def Situation.add (w : World) (s : SitId) (e : EId) : Option World := do
  let w1 ← match (w.ents e).situation with
    | some s0 => Situation.removeEnt w s0 e
    | none => some w
  let w2 := w1.setContents s (((w1.sits s).contents) ++ [e])
  some (w2.setEntSit e (some s))

/-- `Entity.get_location`: the coordinate of the current situation when it is a
`Location`, the sentinel `(-1, -1, -1)` otherwise (including when the
situation is `None`). -/
def Entity.get_location (w : World) (e : EId) : Coord :=
  match (w.ents e).situation with
  | some s =>
    match (w.sits s).coordinate with
    | some c => c
    | none => (-1, -1, -1)
  | none => (-1, -1, -1)

/-- Allocate a fresh terminal situation object (`Situation.__init__` gives it
an empty contents list; `Death`/`Victory` add only the reason, carried here in
the kind tag). -/
def World.allocTerm (w : World) (k : SitKind) : SitId × World :=
  let sid := SitId.term w.nextSit
  (sid,
    { w with
      sits := fun t => if t = sid then { contents := [], kind := k, coordinate := none }
        else w.sits t
      nextSit := w.nextSit + 1 })

/-- Allocate a fresh `Death(reason)` object. -/
def World.newDeath (w : World) (reason : String) : SitId × World :=
  w.allocTerm (SitKind.death reason)

/-- Allocate a fresh `Victory(reason)` object. -/
def World.newVictory (w : World) (reason : String) : SitId × World :=
  w.allocTerm (SitKind.victory reason)

/-- The kill text built at both kill sites (`World.update` and
`DeathBall.move` contain the identical f-string). -/
def killReason (color : String) : String :=
  "A blazing " ++ color ++ " death ball hurls itself toward you, killing you on impact."

/-- The code duplicated verbatim at the two kill sites: build a `Death` with a
reason naming the ball's color, move the hero into it, and store it in the
dictionary under the sentinel key. -/
def World.killHero (w : World) (color : String) : Option World := do
  let (death, wa) := w.newDeath (killReason color)
  let wb ← Situation.add wa death wa.heroId
  some { wb with dict := dictSet wb.dict (-1, -1, -1) death }

/-- `Victory.achieved`: the room stored at `(0, 0, 0)` contains an entity of
class `Hero`, and the world's treasure is in the hero's inventory.  `none`
models the KeyError when `(0, 0, 0)` is not a key. -/
def Victory.achieved (w : World) : Option Bool :=
  match dictLookup w.dict (0, 0, 0) with
  | none => none
  | some s =>
    if Situation.contains_type w s EKind.hero then
      some (decide (w.treasureId ∈ (w.ents w.heroId).inventory))
    else
      some false

/-- Membership of a coordinate in the open cube `[0, n)` on every axis. -/
def inCube (n : Nat) (c : Coord) : Prop :=
  0 ≤ c.1 ∧ c.1 < (n : Int) ∧ 0 ≤ c.2.1 ∧ c.2.1 < (n : Int) ∧ 0 ≤ c.2.2 ∧ c.2.2 < (n : Int)

instance (n : Nat) (c : Coord) : Decidable (inCube n c) := by
  unfold inCube; infer_instance

/-- The coordinates visited by the triple loop `for x ... for y ... for z`,
in loop order. -/
def cubeCoords (n : Nat) : List Coord :=
  (List.range n).flatMap fun x =>
    (List.range n).flatMap fun y =>
      (List.range n).map fun (z : Nat) => ((x : Int), (y : Int), (z : Int))

/-- `Hero.go_north`: `y -= 1`, move when `y >= 0`, otherwise report and leave
the state unchanged. -/
def Hero.go_north (w : World) : Option World :=
  let (x, y, z) := Entity.get_location w w.heroId
  let y := y - 1
  if 0 ≤ y then
    match dictLookup w.dict (x, y, z) with
    | some s => Situation.add w s w.heroId
    | none => none
  else
    some w

/-- `Hero.go_east`: `x += 1`, move when `x < world.size`. -/
def Hero.go_east (w : World) : Option World :=
  let (x, y, z) := Entity.get_location w w.heroId
  let x := x + 1
  if x < (w.size : Int) then
    match dictLookup w.dict (x, y, z) with
    | some s => Situation.add w s w.heroId
    | none => none
  else
    some w

/-- `Hero.go_south`: `y += 1`, move when `y < world.size`. -/
def Hero.go_south (w : World) : Option World :=
  let (x, y, z) := Entity.get_location w w.heroId
  let y := y + 1
  if y < (w.size : Int) then
    match dictLookup w.dict (x, y, z) with
    | some s => Situation.add w s w.heroId
    | none => none
  else
    some w

/-- `Hero.go_west`: `x -= 1`, move when `x >= 0`. -/
def Hero.go_west (w : World) : Option World :=
  let (x, y, z) := Entity.get_location w w.heroId
  let x := x - 1
  if 0 ≤ x then
    match dictLookup w.dict (x, y, z) with
    | some s => Situation.add w s w.heroId
    | none => none
  else
    some w

/-- `Hero.go_down`: `z += 1`, move when `z < world.size`. -/
def Hero.go_down (w : World) : Option World :=
  let (x, y, z) := Entity.get_location w w.heroId
  let z := z + 1
  if z < (w.size : Int) then
    match dictLookup w.dict (x, y, z) with
    | some s => Situation.add w s w.heroId
    | none => none
  else
    some w

/-- `Hero.go_up`: `z -= 1`, move when `z >= 0`. -/
def Hero.go_up (w : World) : Option World :=
  let (x, y, z) := Entity.get_location w w.heroId
  let z := z - 1
  if 0 ≤ z then
    match dictLookup w.dict (x, y, z) with
    | some s => Situation.add w s w.heroId
    | none => none
  else
    some w

/-- `Hero.take`: when the item is in the hero's current situation, detach it
from that container and append it to the inventory; otherwise report and
change nothing.  `none` models the attribute error on a `None` situation. -/
def Hero.take (w : World) (item : EId) : Option World :=
  match (w.ents w.heroId).situation with
  | none => none
  | some s =>
    if Situation.contains w s item then
      let w1 := w.setContents s (((w.sits s).contents).erase item)
      some (w1.setInv w1.heroId (((w1.ents w1.heroId).inventory) ++ [item]))
    else
      some w

/-- `World._random_coordinate`: three independent `randint(0, size - 1)`
draws.  (The modulus models the generator's range; it needs `0 < size`, as in
Python where `randint(0, -1)` raises.) -/
def World.randomCoordinate (w : World) : Coord × World :=
  let (rx, w1) := w.draw
  let (ry, w2) := w1.draw
  let (rz, w3) := w2.draw
  (((rx % w.size : Nat) : Int), ((ry % w.size : Nat) : Int), ((rz % w.size : Nat) : Int)) |>
    fun c => (c, w3)

/-- `Situation.handle_hero_action`, dispatched on the class of the hero's
current situation.  Only `TeleporterRoom` (the rooms with `location_type ==
"teleporter"`) overrides the handler with a state change; `Death` intercepts
every action with a message; every other situation returns `False`. -/
def Situation.handle_hero_action (w : World) (action : String) : Option (Bool × World) :=
  match (w.ents w.heroId).situation with
  | none => none
  | some s =>
    match (w.sits s).kind with
    | SitKind.death _ => some (true, w)
    | SitKind.room lt =>
      if lt = "teleporter" ∧ action = "teleport" then
        let (c, w1) := w.randomCoordinate
        match dictLookup w1.dict c with
        | some s2 => (Situation.add w1 s2 w1.heroId).map (fun w2 => (true, w2))
        | none => none
      else
        some (false, w)
    | _ => some (false, w)

/-- `DeathBall.move`: kill a co-located hero, otherwise draw one of six
directions and take a single bounded step (an out-of-range step is discarded
and the ball stays put). -/
def DeathBall.move (w : World) (db : EId) : Option World := do
  let room ← (w.ents db).situation
  if Situation.contains w room w.heroId then
    World.killHero w ((w.ents db).color)
  else
    let (x, y, z) := Entity.get_location w db
    let (r, w1) := w.draw
    let direction := r % 6
    if direction = 0 then
      if 1 ≤ y then
        match dictLookup w1.dict (x, y - 1, z) with
        | some s => Situation.add w1 s db
        | none => none
      else some w1
    else if direction = 1 then
      if x < (w1.size : Int) - 1 then
        match dictLookup w1.dict (x + 1, y, z) with
        | some s => Situation.add w1 s db
        | none => none
      else some w1
    else if direction = 2 then
      if y < (w1.size : Int) - 1 then
        match dictLookup w1.dict (x, y + 1, z) with
        | some s => Situation.add w1 s db
        | none => none
      else some w1
    else if direction = 3 then
      if 1 ≤ x then
        match dictLookup w1.dict (x - 1, y, z) with
        | some s => Situation.add w1 s db
        | none => none
      else some w1
    else if direction = 4 then
      if z < (w1.size : Int) - 1 then
        match dictLookup w1.dict (x, y, z + 1) with
        | some s => Situation.add w1 s db
        | none => none
      else some w1
    else
      if 1 ≤ z then
        match dictLookup w1.dict (x, y, z - 1) with
        | some s => Situation.add w1 s db
        | none => none
      else some w1

/-- `DeathBall.act`: move once, then set the per-turn `acted` flag; a second
call in the same turn is a no-op. -/
def DeathBall.act (w : World) (db : EId) : Option World :=
  if (w.ents db).acted then
    some w
  else do
    let w1 ← DeathBall.move w db
    some (w1.setActed db true)

/-- The body of `for entity in room.contents: if isinstance(entity, Enemy):
entity.act()`, iterating the live list by index exactly as CPython does (a
removal during iteration shifts later elements down and the loop does not
revisit them).  `fuel` bounds the number of iterations; the caller passes the
entry length of the list, which suffices because an acting ball only ever
removes itself from this list or leaves it unchanged. -/
def World.actLoop (w : World) (s : SitId) (i : Nat) : Nat → Option World
  | 0 => some w
  | fuel + 1 =>
    let cs := (w.sits s).contents
    if h : i < cs.length then
      let e := cs.get ⟨i, h⟩
      if (w.ents e).kind = EKind.deathBall then
        match DeathBall.act w e with
        | some w1 => World.actLoop w1 s (i + 1) fuel
        | none => none
      else
        World.actLoop w s (i + 1) fuel
    else
      some w

/-- `World.move_deathballs`: visit every room of the cube in loop order and
let each enemy in it act.  A missing dictionary key is a KeyError (`none`). -/
def World.move_deathballs (w : World) : Option World :=
  (cubeCoords w.size).foldlM
    (fun acc c =>
      match dictLookup acc.dict c with
      | some room => World.actLoop acc room 0 (((acc.sits room).contents).length)
      | none => none)
    w

/-- Step 3 of `World.update`: `for item in self.hero.inventory:
item.situation = self.hero.situation`. -/
def World.resyncInventory (w : World) : World :=
  ((w.ents w.heroId).inventory).foldl
    (fun acc it => acc.setEntSit it ((acc.ents acc.heroId).situation)) w

/-- Step 5 of `World.update`: clear the `acted` flag of every registered
entity. -/
def World.resetActed (w : World) : World :=
  w.registry.foldl (fun acc e => acc.setActed e false) w

/-- Steps 4 and 5 of `World.update`: the victory check (building the
`Victory` object, storing it under the sentinel key, and relocating the hero
into it) followed by the `acted`-flag reset. -/
def World.updateTail (w3 : World) : Option World := do
  let vic ← Victory.achieved w3
  let w4 ← if vic then do
      let (victory, wa) := w3.newVictory "You escaped with the treasure."
      let wb := { wa with dict := dictSet wa.dict (-1, -1, -1) victory }
      Situation.add wb victory wb.heroId
    else some w3
  some w4.resetActed

/-- `World.update`, in source order: co-location death check, hazard
movement, inventory re-synchronization, then `updateTail` (victory check and
flag reset). -/
def World.update (w : World) : Option World := do
  let sid ← (w.ents w.heroId).situation
  let loc ← (w.sits sid).coordinate
  let situation ← dictLookup w.dict loc
  let deathballs := Situation.get_entities w situation EKind.deathBall
  let w1 ← match deathballs with
    | [] => some w
    | d :: _ => World.killHero w ((w.ents d).color)
  let w2 ← World.move_deathballs w1
  World.updateTail (World.resyncInventory w2)

/-- The state-changing intents of the game loop (the thin CLI translation
layer is out of scope; each constructor is one of the engine calls the loop
can make). -/
inductive Op where
  | goNorth : Op
  | goEast : Op
  | goSouth : Op
  | goWest : Op
  | goUp : Op
  | goDown : Op
  | takeTreasure : Op
  | teleport : Op
  | update : Op
deriving DecidableEq, Repr

/-- Apply one engine operation. -/
def applyOp (w : World) : Op → Option World
  | Op.goNorth => Hero.go_north w
  | Op.goEast => Hero.go_east w
  | Op.goSouth => Hero.go_south w
  | Op.goWest => Hero.go_west w
  | Op.goUp => Hero.go_up w
  | Op.goDown => Hero.go_down w
  | Op.takeTreasure => Hero.take w w.treasureId
  | Op.teleport => (Situation.handle_hero_action w "teleport").map Prod.snd
  | Op.update => World.update w

/-- Run a sequence of engine operations. -/
def runOps (w : World) : List Op → Option World
  | [] => some w
  | op :: ops => (applyOp w op).bind (fun w1 => runOps w1 ops)

/-- The six scan directions (the Python code uses the one-letter strings
`n e s w u d`). -/
inductive Dir where
  | n : Dir
  | e : Dir
  | s : Dir
  | w : Dir
  | u : Dir
  | d : Dir
deriving DecidableEq, Repr

/-- `dir2axis` composed with `axis2index`: the index of the coordinate axis a
direction moves along. -/
def Dir.axisIndex : Dir → Nat
  | Dir.n => 1
  | Dir.s => 1
  | Dir.e => 0
  | Dir.w => 0
  | Dir.u => 2
  | Dir.d => 2

/-- `dir2desc`: the phrase interpolated into a percept line. -/
def Dir.phrase : Dir → String
  | Dir.n => "the north"
  | Dir.s => "the south"
  | Dir.e => "the east"
  | Dir.w => "the west"
  | Dir.u => "above"
  | Dir.d => "below"

/-- The sign flip `if direction in ['n', 'w', 'u']: distance *= -1`. -/
def Dir.signedDistance (dir : Dir) (distance : Int) : Int :=
  if dir = Dir.n ∨ dir = Dir.w ∨ dir = Dir.u then -distance else distance

/-- Read one component of a coordinate by axis index (`coord[index]`). -/
def coordGet (c : Coord) (index : Nat) : Int :=
  if index = 0 then c.1 else if index = 1 then c.2.1 else c.2.2

/-- `percept_coord = list(location); percept_coord[index] += distance`. -/
def perceptCoord (location : Coord) (dir : Dir) (distance : Int) : Coord :=
  let d := dir.signedDistance distance
  let index := dir.axisIndex
  if index = 0 then (location.1 + d, location.2.1, location.2.2)
  else if index = 1 then (location.1, location.2.1 + d, location.2.2)
  else (location.1, location.2.1, location.2.2 + d)

/-- A rendered percept line
`f"A {adjective} {color} glow emanates from {direction}."`. -/
def glowLine (adjective : String) (color : String) (dir : Dir) : String :=
  "A " ++ adjective ++ " " ++ color ++ " glow emanates from " ++ dir.phrase ++ "."

/-- The treasure adjective table `[("", ""), ("bright", "strong"),
("pale", "faint")]` indexed by distance, with the `randint(0, 1)` pick given
by the oracle value `r`. -/
def treasureAdjective (distance : Int) (r : Nat) : String :=
  let choice := [("", ""), ("bright", "strong"), ("pale", "faint")].getD distance.toNat ("", "")
  if r % 2 = 0 then choice.1 else choice.2

/-- `Room._describe_treasure_at`: one direction/distance probe of the treasure
scan, with the adjective draw `r` made explicit.  The `try`/`except` around
the dictionary lookup becomes the `none` case, and the `percept_coord[index]
>= 0` guard is the lower-bound check. -/
def Room.describe_treasure_at (w : World) (r : Nat) (location : Coord) (dir : Dir)
    (distance : Int) : List String :=
  let adjective := treasureAdjective distance r
  let pc := perceptCoord location dir distance
  match dictLookup w.dict pc with
  | none => []
  | some room =>
    let treasures := Situation.get_entities w room EKind.treasure
    if treasures ≠ [] ∧ 0 ≤ coordGet pc dir.axisIndex then
      treasures.map (fun t => glowLine adjective ((w.ents t).color) dir)
    else
      []

/-- The deathball adjective table `["", "strong", "pale"]` indexed by
distance (no random pick). -/
def deathballAdjective (distance : Int) : String :=
  ["", "strong", "pale"].getD distance.toNat ""

/-- `Room._describe_deathballs_at`: one direction/distance probe of the hazard
scan. -/
def Room.describe_deathballs_at (w : World) (location : Coord) (dir : Dir)
    (distance : Int) : List String :=
  let adjective := deathballAdjective distance
  let pc := perceptCoord location dir distance
  match dictLookup w.dict pc with
  | none => []
  | some room =>
    let deathballs := Situation.get_entities w room EKind.deathBall
    if deathballs ≠ [] ∧ 0 ≤ coordGet pc dir.axisIndex then
      deathballs.map (fun b => glowLine adjective ((w.ents b).color) dir)
    else
      []

/-- The `(distance, direction)` pairs visited by the scan loops of
`describe_treasure` / `describe_deathballs`, in loop order. -/
def scanPairs : List (Int × Dir) :=
  [(1 : Int), 2].flatMap fun dist =>
    [Dir.n, Dir.e, Dir.s, Dir.w, Dir.u, Dir.d].map fun dir => (dist, dir)

/-- The distance scan of `Room.describe_treasure` from a given room
coordinate; the `k`-th probe consumes the oracle value at cursor offset `k`
(one `randint` per probe). -/
def Room.treasureScanFrom (w : World) (location : Coord) : List String :=
  scanPairs.enum.flatMap fun p =>
    Room.describe_treasure_at w (w.rand (w.rk + p.1)) location p.2.2 p.2.1

/-- `Room.describe_treasure`: the in-room message suppresses the distance
scan; `none` models the attribute error on a coordinate-less situation. -/
def Room.describe_treasure (w : World) (s : SitId) : Option (List String) :=
  if Situation.contains w s w.treasureId then
    some ["The forbidden treasure is here."]
  else
    ((w.sits s).coordinate).map (fun loc => Room.treasureScanFrom w loc)

/-- The distance scan of `Room.describe_deathballs` from a given room
coordinate. -/
def Room.deathballScanFrom (w : World) (location : Coord) : List String :=
  scanPairs.flatMap fun p => Room.describe_deathballs_at w location p.2 p.1

/-- `Room.describe_deathballs`: an in-room hazard suppresses the distance
scan. -/
def Room.describe_deathballs (w : World) (s : SitId) : Option (List String) :=
  if Situation.contains_type w s EKind.deathBall then
    some ["A deadly death ball is here to kill you!"]
  else
    ((w.sits s).coordinate).map (fun loc => Room.deathballScanFrom w loc)

/-- The spec's placement-exclusivity property for one entity: the entity
occurs exactly once in the container its `situation` reference names and in
no other container; an entity with no situation is in no container. -/
def ExclusivelyPlaced (w : World) (e : EId) : Prop :=
  (∀ s, (w.ents e).situation = some s →
    ((w.sits s).contents).count e = 1 ∧ ∀ t, t ≠ s → ((w.sits t).contents).count e = 0) ∧
  ((w.ents e).situation = none → ∀ t, ((w.sits t).contents).count e = 0)

/-- The state invariant established by `World.__init__` and maintained by
every engine operation; hypotheses of the general theorems quantify over
states satisfying it. -/
structure GInv (w : World) : Prop where
  sizePos : 0 < w.size
  cubeKeys : ∀ c, inCube w.size c → ∃ s lt, dictLookup w.dict c = some s ∧
      (w.sits s).coordinate = some c ∧ (w.sits s).kind = SitKind.room lt
  dictLocOK : ∀ c s c2, dictLookup w.dict c = some s → (w.sits s).coordinate = some c2 →
      inCube w.size c2
  dictFresh : ∀ c n, dictLookup w.dict c = some (SitId.term n) → n < w.nextSit
  entFresh : ∀ e n, (w.ents e).situation = some (SitId.term n) → n < w.nextSit
  heroKind : (w.ents w.heroId).kind = EKind.hero
  heroUnique : ∀ e, (w.ents e).kind = EKind.hero → e = w.heroId
  treasureKind : (w.ents w.treasureId).kind = EKind.treasure
  heroSync : ExclusivelyPlaced w w.heroId
  dbSync : ∀ e, (w.ents e).kind = EKind.deathBall → ExclusivelyPlaced w e
  heroLoc : ∀ s c, (w.ents w.heroId).situation = some s → (w.sits s).coordinate = some c →
      inCube w.size c
  dbLoc : ∀ e s, (w.ents e).kind = EKind.deathBall → (w.ents e).situation = some s →
      ∃ c, (w.sits s).coordinate = some c ∧ inCube w.size c
  invKinds : ∀ e, e ∈ (w.ents w.heroId).inventory →
      (w.ents e).kind ≠ EKind.hero ∧ (w.ents e).kind ≠ EKind.deathBall

/-- The key set of the coordinate dictionary. -/
def dictKeys (w : World) : List Coord :=
  w.dict.map Prod.fst

/-- The two-sided key-set relation the engine actually maintains: no key is
ever removed, and the only key ever added is the sentinel `(-1, -1, -1)`. -/
def KeysExtendBySentinel (w0 w : World) : Prop :=
  (∀ k, k ∈ dictKeys w0 → k ∈ dictKeys w) ∧
  (∀ k, k ∈ dictKeys w → k ∈ dictKeys w0 ∨ k = (-1, -1, -1))

/-- The fully initialized dictionary: one room per cube coordinate. -/
def cubeDict (n : Nat) : List (Coord × SitId) :=
  (cubeCoords n).map fun c => (c, SitId.loc c)

/-- A fresh entity with the `Entity.__init__` defaults. -/
def defaultEntity : Entity :=
  { kind := EKind.genericItem, situation := none, acted := false,
    color := "gray", name := "thing", weight := 0, strength := 1, inventory := [] }

/-- A situation with the bare `Situation.__init__` state. -/
def emptySit : Sit :=
  { contents := [], kind := SitKind.plain, coordinate := none }

/-- A generic dungeon room at a coordinate with given contents. -/
def plainRoom (c : Coord) (cs : List EId) : Sit :=
  { contents := cs, kind := SitKind.room "dungeon room", coordinate := some c }

/-- A hero entity in the given situation carrying the given inventory. -/
def heroEnt (s : Option SitId) (inv : List EId) : Entity :=
  { kind := EKind.hero, situation := s, acted := false, color := "pink", name := "hero",
    weight := 150, strength := 1, inventory := inv }

/-- Concrete state A: a 1-cube world in which a death ball shares the single
room with the hero, and the hero carries the treasure (entity 2), whose
`situation` still points at the room it was taken from. -/
def WA : World :=
  { size := 1
    dict := cubeDict 1
    sits := fun t => if t = SitId.loc (0, 0, 0) then plainRoom (0, 0, 0) [0, 1] else emptySit
    ents := fun e =>
      if e = 0 then heroEnt (some (SitId.loc (0, 0, 0))) [2]
      else if e = 1 then
        { defaultEntity with
          kind := EKind.deathBall
          color := "purple"
          situation := some (SitId.loc (0, 0, 0)) }
      else if e = 2 then
        { defaultEntity with
          kind := EKind.treasure
          color := "golden"
          name := "treasure"
          weight := 25
          situation := some (SitId.loc (0, 0, 0)) }
      else defaultEntity
    registry := [0, 1, 2]
    heroId := 0
    treasureId := 2
    nextSit := 0
    rand := fun _ => 3
    rk := 0 }

/-- Concrete state B: a 2-cube world, hero (entity 0) in the room at
`(1, 0, 0)` together with the treasure (entity 2), a death ball (entity 1)
in the room at `(0, 0, 0)`; the oracle always draws direction 3 (west). -/
def WB : World :=
  { size := 2
    dict := cubeDict 2
    sits := fun t =>
      if t = SitId.loc (0, 0, 0) then plainRoom (0, 0, 0) [1]
      else if t = SitId.loc (1, 0, 0) then plainRoom (1, 0, 0) [0, 2]
      else match t with
        | SitId.loc c => if inCube 2 c then plainRoom c [] else emptySit
        | SitId.term _ => emptySit
    ents := fun e =>
      if e = 0 then heroEnt (some (SitId.loc (1, 0, 0))) []
      else if e = 1 then
        { defaultEntity with
          kind := EKind.deathBall
          color := "purple"
          situation := some (SitId.loc (0, 0, 0)) }
      else if e = 2 then
        { defaultEntity with
          kind := EKind.treasure
          color := "golden"
          name := "treasure"
          weight := 25
          situation := some (SitId.loc (1, 0, 0)) }
      else defaultEntity
    registry := [0, 1, 2]
    heroId := 0
    treasureId := 2
    nextSit := 0
    rand := fun _ => 3
    rk := 0 }

/-- Concrete state C: a 1-cube world, hero alone in the room at the origin
carrying the treasure; no death balls exist. -/
def WC : World :=
  { size := 1
    dict := cubeDict 1
    sits := fun t => if t = SitId.loc (0, 0, 0) then plainRoom (0, 0, 0) [0] else emptySit
    ents := fun e =>
      if e = 0 then heroEnt (some (SitId.loc (0, 0, 0))) [2]
      else if e = 2 then
        { defaultEntity with
          kind := EKind.treasure
          color := "golden"
          name := "treasure"
          weight := 25
          situation := some (SitId.loc (0, 0, 0)) }
      else defaultEntity
    registry := [0, 2]
    heroId := 0
    treasureId := 2
    nextSit := 0
    rand := fun _ => 0
    rk := 0 }

/-- Concrete state D: a 2-cube world with the hero at the origin and the
treasure in the room directly below, at `(0, 0, 1)`. -/
def WD : World :=
  { size := 2
    dict := cubeDict 2
    sits := fun t =>
      if t = SitId.loc (0, 0, 0) then plainRoom (0, 0, 0) [0]
      else if t = SitId.loc (0, 0, 1) then plainRoom (0, 0, 1) [2]
      else match t with
        | SitId.loc c => if inCube 2 c then plainRoom c [] else emptySit
        | SitId.term _ => emptySit
    ents := fun e =>
      if e = 0 then heroEnt (some (SitId.loc (0, 0, 0))) []
      else if e = 2 then
        { defaultEntity with
          kind := EKind.treasure
          color := "golden"
          name := "treasure"
          weight := 25
          situation := some (SitId.loc (0, 0, 1)) }
      else defaultEntity
    registry := [0, 2]
    heroId := 0
    treasureId := 2
    nextSit := 0
    rand := fun _ => 0
    rk := 0 }

/-- Concrete state E: like `WB` but with no death ball — hero (entity 0) and
treasure (entity 2) share the room at `(1, 0, 0)` of a 2-cube world. -/
def WE : World :=
  { size := 2
    dict := cubeDict 2
    sits := fun t =>
      if t = SitId.loc (1, 0, 0) then plainRoom (1, 0, 0) [0, 2]
      else match t with
        | SitId.loc c => if inCube 2 c then plainRoom c [] else emptySit
        | SitId.term _ => emptySit
    ents := fun e =>
      if e = 0 then heroEnt (some (SitId.loc (1, 0, 0))) []
      else if e = 2 then
        { defaultEntity with
          kind := EKind.treasure
          color := "golden"
          name := "treasure"
          weight := 25
          situation := some (SitId.loc (1, 0, 0)) }
      else defaultEntity
    registry := [0, 2]
    heroId := 0
    treasureId := 2
    nextSit := 0
    rand := fun _ => 0
    rk := 0 }

/-- A sequence of `place` calls for the same entity: fold `Situation.add`
over a list of target situations. -/
def addSeq (w : World) (e : EId) : List SitId → Option World
  | [] => some w
  | s :: rest => (Situation.add w s e).bind (fun w1 => addSeq w1 e rest)

/-! ## Frame lemmas for the state setters -/

@[simp] theorem World.setContents_sits (w : World) (s : SitId) (cs : List EId) (t : SitId) :
    (w.setContents s cs).sits t =
      if t = s then { w.sits t with contents := cs } else w.sits t := rfl

@[simp] theorem World.setContents_ents (w : World) (s : SitId) (cs : List EId) :
    (w.setContents s cs).ents = w.ents := rfl

@[simp] theorem World.setContents_dict (w : World) (s : SitId) (cs : List EId) :
    (w.setContents s cs).dict = w.dict := rfl

@[simp] theorem World.setContents_size (w : World) (s : SitId) (cs : List EId) :
    (w.setContents s cs).size = w.size := rfl

@[simp] theorem World.setContents_heroId (w : World) (s : SitId) (cs : List EId) :
    (w.setContents s cs).heroId = w.heroId := rfl

@[simp] theorem World.setContents_treasureId (w : World) (s : SitId) (cs : List EId) :
    (w.setContents s cs).treasureId = w.treasureId := rfl

@[simp] theorem World.setContents_registry (w : World) (s : SitId) (cs : List EId) :
    (w.setContents s cs).registry = w.registry := rfl

@[simp] theorem World.setContents_nextSit (w : World) (s : SitId) (cs : List EId) :
    (w.setContents s cs).nextSit = w.nextSit := rfl

@[simp] theorem World.setContents_rand (w : World) (s : SitId) (cs : List EId) :
    (w.setContents s cs).rand = w.rand := rfl

@[simp] theorem World.setContents_rk (w : World) (s : SitId) (cs : List EId) :
    (w.setContents s cs).rk = w.rk := rfl

@[simp] theorem World.setEntSit_ents (w : World) (e : EId) (v : Option SitId) (x : EId) :
    (w.setEntSit e v).ents x =
      if x = e then { w.ents x with situation := v } else w.ents x := rfl

@[simp] theorem World.setEntSit_sits (w : World) (e : EId) (v : Option SitId) :
    (w.setEntSit e v).sits = w.sits := rfl

@[simp] theorem World.setEntSit_dict (w : World) (e : EId) (v : Option SitId) :
    (w.setEntSit e v).dict = w.dict := rfl

@[simp] theorem World.setEntSit_size (w : World) (e : EId) (v : Option SitId) :
    (w.setEntSit e v).size = w.size := rfl

@[simp] theorem World.setEntSit_heroId (w : World) (e : EId) (v : Option SitId) :
    (w.setEntSit e v).heroId = w.heroId := rfl

@[simp] theorem World.setEntSit_treasureId (w : World) (e : EId) (v : Option SitId) :
    (w.setEntSit e v).treasureId = w.treasureId := rfl

@[simp] theorem World.setEntSit_registry (w : World) (e : EId) (v : Option SitId) :
    (w.setEntSit e v).registry = w.registry := rfl

@[simp] theorem World.setEntSit_nextSit (w : World) (e : EId) (v : Option SitId) :
    (w.setEntSit e v).nextSit = w.nextSit := rfl

@[simp] theorem World.setEntSit_rand (w : World) (e : EId) (v : Option SitId) :
    (w.setEntSit e v).rand = w.rand := rfl

@[simp] theorem World.setEntSit_rk (w : World) (e : EId) (v : Option SitId) :
    (w.setEntSit e v).rk = w.rk := rfl

@[simp] theorem World.setActed_ents (w : World) (e : EId) (b : Bool) (x : EId) :
    (w.setActed e b).ents x =
      if x = e then { w.ents x with acted := b } else w.ents x := rfl

@[simp] theorem World.setActed_sits (w : World) (e : EId) (b : Bool) :
    (w.setActed e b).sits = w.sits := rfl

@[simp] theorem World.setActed_dict (w : World) (e : EId) (b : Bool) :
    (w.setActed e b).dict = w.dict := rfl

@[simp] theorem World.setActed_size (w : World) (e : EId) (b : Bool) :
    (w.setActed e b).size = w.size := rfl

@[simp] theorem World.setActed_heroId (w : World) (e : EId) (b : Bool) :
    (w.setActed e b).heroId = w.heroId := rfl

@[simp] theorem World.setActed_treasureId (w : World) (e : EId) (b : Bool) :
    (w.setActed e b).treasureId = w.treasureId := rfl

@[simp] theorem World.setActed_registry (w : World) (e : EId) (b : Bool) :
    (w.setActed e b).registry = w.registry := rfl

@[simp] theorem World.setActed_nextSit (w : World) (e : EId) (b : Bool) :
    (w.setActed e b).nextSit = w.nextSit := rfl

@[simp] theorem World.setActed_rand (w : World) (e : EId) (b : Bool) :
    (w.setActed e b).rand = w.rand := rfl

@[simp] theorem World.setActed_rk (w : World) (e : EId) (b : Bool) :
    (w.setActed e b).rk = w.rk := rfl

@[simp] theorem World.setInv_ents (w : World) (e : EId) (l : List EId) (x : EId) :
    (w.setInv e l).ents x =
      if x = e then { w.ents x with inventory := l } else w.ents x := rfl

@[simp] theorem World.setInv_sits (w : World) (e : EId) (l : List EId) :
    (w.setInv e l).sits = w.sits := rfl

@[simp] theorem World.setInv_dict (w : World) (e : EId) (l : List EId) :
    (w.setInv e l).dict = w.dict := rfl

@[simp] theorem World.setInv_size (w : World) (e : EId) (l : List EId) :
    (w.setInv e l).size = w.size := rfl

@[simp] theorem World.setInv_heroId (w : World) (e : EId) (l : List EId) :
    (w.setInv e l).heroId = w.heroId := rfl

@[simp] theorem World.setInv_treasureId (w : World) (e : EId) (l : List EId) :
    (w.setInv e l).treasureId = w.treasureId := rfl

@[simp] theorem World.setInv_registry (w : World) (e : EId) (l : List EId) :
    (w.setInv e l).registry = w.registry := rfl

@[simp] theorem World.setInv_nextSit (w : World) (e : EId) (l : List EId) :
    (w.setInv e l).nextSit = w.nextSit := rfl

@[simp] theorem World.setInv_rand (w : World) (e : EId) (l : List EId) :
    (w.setInv e l).rand = w.rand := rfl

@[simp] theorem World.setInv_rk (w : World) (e : EId) (l : List EId) :
    (w.setInv e l).rk = w.rk := rfl

@[simp] theorem World.draw_fst (w : World) : w.draw.1 = w.rand w.rk := rfl

@[simp] theorem World.draw_snd_ents (w : World) : w.draw.2.ents = w.ents := rfl

@[simp] theorem World.draw_snd_sits (w : World) : w.draw.2.sits = w.sits := rfl

@[simp] theorem World.draw_snd_dict (w : World) : w.draw.2.dict = w.dict := rfl

@[simp] theorem World.draw_snd_size (w : World) : w.draw.2.size = w.size := rfl

@[simp] theorem World.draw_snd_heroId (w : World) : w.draw.2.heroId = w.heroId := rfl

@[simp] theorem World.draw_snd_treasureId (w : World) : w.draw.2.treasureId = w.treasureId := rfl

@[simp] theorem World.draw_snd_registry (w : World) : w.draw.2.registry = w.registry := rfl

@[simp] theorem World.draw_snd_nextSit (w : World) : w.draw.2.nextSit = w.nextSit := rfl

@[simp] theorem World.draw_snd_rand (w : World) : w.draw.2.rand = w.rand := rfl

@[simp] theorem World.draw_snd_rk (w : World) : w.draw.2.rk = w.rk + 1 := rfl

@[simp] theorem World.newDeath_fst (w : World) (reason : String) :
    (w.newDeath reason).1 = SitId.term w.nextSit := rfl

@[simp] theorem World.newDeath_sits (w : World) (reason : String) (t : SitId) :
    (w.newDeath reason).2.sits t =
      if t = SitId.term w.nextSit then
        { contents := [], kind := SitKind.death reason, coordinate := none }
      else w.sits t := rfl

@[simp] theorem World.newDeath_ents (w : World) (reason : String) :
    (w.newDeath reason).2.ents = w.ents := rfl

@[simp] theorem World.newDeath_dict (w : World) (reason : String) :
    (w.newDeath reason).2.dict = w.dict := rfl

@[simp] theorem World.newDeath_size (w : World) (reason : String) :
    (w.newDeath reason).2.size = w.size := rfl

@[simp] theorem World.newDeath_heroId (w : World) (reason : String) :
    (w.newDeath reason).2.heroId = w.heroId := rfl

@[simp] theorem World.newDeath_treasureId (w : World) (reason : String) :
    (w.newDeath reason).2.treasureId = w.treasureId := rfl

@[simp] theorem World.newDeath_registry (w : World) (reason : String) :
    (w.newDeath reason).2.registry = w.registry := rfl

@[simp] theorem World.newDeath_nextSit (w : World) (reason : String) :
    (w.newDeath reason).2.nextSit = w.nextSit + 1 := rfl

@[simp] theorem World.newVictory_fst (w : World) (reason : String) :
    (w.newVictory reason).1 = SitId.term w.nextSit := rfl

@[simp] theorem World.newVictory_sits (w : World) (reason : String) (t : SitId) :
    (w.newVictory reason).2.sits t =
      if t = SitId.term w.nextSit then
        { contents := [], kind := SitKind.victory reason, coordinate := none }
      else w.sits t := rfl

@[simp] theorem World.newVictory_ents (w : World) (reason : String) :
    (w.newVictory reason).2.ents = w.ents := rfl

@[simp] theorem World.newVictory_dict (w : World) (reason : String) :
    (w.newVictory reason).2.dict = w.dict := rfl

@[simp] theorem World.newVictory_size (w : World) (reason : String) :
    (w.newVictory reason).2.size = w.size := rfl

@[simp] theorem World.newVictory_heroId (w : World) (reason : String) :
    (w.newVictory reason).2.heroId = w.heroId := rfl

@[simp] theorem World.newVictory_treasureId (w : World) (reason : String) :
    (w.newVictory reason).2.treasureId = w.treasureId := rfl

@[simp] theorem World.newVictory_registry (w : World) (reason : String) :
    (w.newVictory reason).2.registry = w.registry := rfl

@[simp] theorem World.newVictory_nextSit (w : World) (reason : String) :
    (w.newVictory reason).2.nextSit = w.nextSit + 1 := rfl

/-! ## Dictionary lemmas -/

theorem dictLookup_dictSet (m : List (Coord × SitId)) (k k2 : Coord) (v : SitId) :
    dictLookup (dictSet m k v) k2 = if k2 = k then some v else dictLookup m k2 := by
  induction m with
  | nil => simp [dictSet, dictLookup]
  | cons p rest ih =>
    obtain ⟨a, w⟩ := p
    by_cases hak : a = k
    · subst hak
      by_cases hk2 : k2 = a <;> simp [dictSet, dictLookup, hk2]
    · by_cases hk2 : k2 = a
      · subst hk2
        simp [dictSet, dictLookup, hak, Ne.symm hak]
      · simp [dictSet, dictLookup, hak, hk2, ih]

theorem mem_keys_dictSet (m : List (Coord × SitId)) (k k2 : Coord) (v : SitId) :
    k2 ∈ (dictSet m k v).map Prod.fst ↔ k2 ∈ m.map Prod.fst ∨ k2 = k := by
  induction m with
  | nil => simp [dictSet]
  | cons p rest ih =>
    obtain ⟨a, w⟩ := p
    by_cases hak : a = k
    · subst hak
      simp [dictSet]
      tauto
    · simp [dictSet, hak, ih]
      tauto

theorem dictLookup_isSome_iff_mem_keys (m : List (Coord × SitId)) (k : Coord) :
    (dictLookup m k).isSome ↔ k ∈ m.map Prod.fst := by
  induction m with
  | nil => simp [dictLookup]
  | cons p rest ih =>
    obtain ⟨a, v⟩ := p
    by_cases hk : k = a <;> simp [dictLookup, hk, ih]

theorem mem_cubeCoords (n : Nat) (c : Coord) : c ∈ cubeCoords n ↔ inCube n c := by
  obtain ⟨x, y, z⟩ := c
  constructor
  · intro h
    simp only [cubeCoords, List.mem_flatMap, List.mem_map, List.mem_range] at h
    obtain ⟨a, ha, b, hb, m, hm, h⟩ := h
    simp only [Prod.mk.injEq] at h
    obtain ⟨rfl, rfl, rfl⟩ := h
    simp only [inCube]
    omega
  · intro h
    simp only [inCube] at h
    obtain ⟨a, hax⟩ := Int.eq_ofNat_of_zero_le h.1
    obtain ⟨b, hby⟩ := Int.eq_ofNat_of_zero_le h.2.2.1
    obtain ⟨m, hmz⟩ := Int.eq_ofNat_of_zero_le h.2.2.2.2.1
    simp only [cubeCoords]
    refine List.mem_flatMap.mpr ⟨a, List.mem_range.mpr (by omega), ?_⟩
    refine List.mem_flatMap.mpr ⟨b, List.mem_range.mpr (by omega), ?_⟩
    refine List.mem_map.mpr ⟨m, List.mem_range.mpr (by omega), ?_⟩
    rw [hax, hby, hmz]

theorem dictLookup_cubeDict (n : Nat) (c : Coord) :
    dictLookup (cubeDict n) c = if inCube n c then some (SitId.loc c) else none := by
  have key : ∀ (l : List Coord), dictLookup (l.map fun a => (a, SitId.loc a)) c =
      if c ∈ l then some (SitId.loc c) else none := by
    intro l
    induction l with
    | nil => simp [dictLookup]
    | cons a rest ih =>
      by_cases hca : c = a
      · subst hca; simp [dictLookup]
      · simp [dictLookup, hca, ih]
  rw [cubeDict, key]
  by_cases h : inCube n c
  · rw [if_pos ((mem_cubeCoords n c).mpr h), if_pos h]
  · rw [if_neg (fun hm => h ((mem_cubeCoords n c).mp hm)), if_neg h]

/-! ## Characterization of `Situation.add` -/

theorem World.setContents_sits_kind (w : World) (s : SitId) (cs : List EId) (t : SitId) :
    ((w.setContents s cs).sits t).kind = (w.sits t).kind := by
  simp only [World.setContents_sits]; split <;> rfl

theorem World.setContents_sits_coordinate (w : World) (s : SitId) (cs : List EId) (t : SitId) :
    ((w.setContents s cs).sits t).coordinate = (w.sits t).coordinate := by
  simp only [World.setContents_sits]; split <;> rfl

theorem World.setContents_sits_contents (w : World) (s : SitId) (cs : List EId) (t : SitId) :
    ((w.setContents s cs).sits t).contents = if t = s then cs else (w.sits t).contents := by
  simp only [World.setContents_sits]; split <;> rfl

theorem Situation.add_cases {w : World} {s : SitId} {e : EId} {w' : World}
    (h : Situation.add w s e = some w') :
    (∃ s0, (w.ents e).situation = some s0 ∧ e ∈ (w.sits s0).contents ∧
      w' = ((w.setContents s0 (((w.sits s0).contents).erase e)).setContents s
          ((((w.setContents s0 (((w.sits s0).contents).erase e)).sits s).contents) ++ [e])).setEntSit
          e (some s)) ∨
    ((w.ents e).situation = none ∧
      w' = (w.setContents s (((w.sits s).contents) ++ [e])).setEntSit e (some s)) := by
  cases hsit : (w.ents e).situation with
  | none =>
    right
    refine ⟨rfl, ?_⟩
    simp only [Situation.add, hsit, Option.bind_eq_bind, Option.some_bind] at h
    exact (Option.some_inj.mp h).symm
  | some s0 =>
    left
    by_cases hm : e ∈ (w.sits s0).contents
    · refine ⟨s0, rfl, hm, ?_⟩
      simp only [Situation.add, Situation.removeEnt, hsit, if_pos hm, Option.bind_eq_bind,
        Option.some_bind] at h
      exact (Option.some_inj.mp h).symm
    · exfalso
      simp only [Situation.add, Situation.removeEnt, hsit, if_neg hm, Option.bind_eq_bind,
        Option.none_bind] at h
      exact Option.noConfusion h

theorem Situation.add_succeeds {w : World} {s : SitId} {e : EId}
    (h : ExclusivelyPlaced w e) : ∃ w', Situation.add w s e = some w' := by
  cases hsit : (w.ents e).situation with
  | none =>
    refine ⟨(w.setContents s (((w.sits s).contents) ++ [e])).setEntSit e (some s), ?_⟩
    simp only [Situation.add, hsit, Option.bind_eq_bind, Option.some_bind]
  | some s0 =>
    have hm : e ∈ (w.sits s0).contents :=
      List.count_pos_iff.mp (by have h1 := (h.1 s0 hsit).1; omega)
    refine ⟨((w.setContents s0 (((w.sits s0).contents).erase e)).setContents s
      ((((w.setContents s0 (((w.sits s0).contents).erase e)).sits s).contents) ++ [e])).setEntSit
      e (some s), ?_⟩
    simp only [Situation.add, Situation.removeEnt, hsit, if_pos hm, Option.bind_eq_bind,
      Option.some_bind]

theorem Situation.add_frames {w : World} {s : SitId} {e : EId} {w' : World}
    (h : Situation.add w s e = some w') :
    w'.dict = w.dict ∧ w'.size = w.size ∧ w'.heroId = w.heroId ∧
    w'.treasureId = w.treasureId ∧ w'.registry = w.registry ∧ w'.nextSit = w.nextSit ∧
    w'.rand = w.rand ∧ w'.rk = w.rk := by
  rcases Situation.add_cases h with ⟨s0, _, _, rfl⟩ | ⟨_, rfl⟩ <;>
    exact ⟨rfl, rfl, rfl, rfl, rfl, rfl, rfl, rfl⟩

theorem Situation.add_ents_ne {w : World} {s : SitId} {e : EId} {w' : World}
    (h : Situation.add w s e = some w') (x : EId) (hx : x ≠ e) :
    w'.ents x = w.ents x := by
  rcases Situation.add_cases h with ⟨s0, _, _, rfl⟩ | ⟨_, rfl⟩ <;> simp [hx]

theorem Situation.add_ents_self {w : World} {s : SitId} {e : EId} {w' : World}
    (h : Situation.add w s e = some w') :
    w'.ents e = { w.ents e with situation := some s } := by
  rcases Situation.add_cases h with ⟨s0, _, _, rfl⟩ | ⟨_, rfl⟩ <;> simp

theorem Situation.add_sits_kind {w : World} {s : SitId} {e : EId} {w' : World}
    (h : Situation.add w s e = some w') (t : SitId) :
    (w'.sits t).kind = (w.sits t).kind := by
  rcases Situation.add_cases h with ⟨s0, _, _, rfl⟩ | ⟨_, rfl⟩ <;>
    simp only [World.setEntSit_sits, World.setContents_sits_kind]

theorem Situation.add_sits_coordinate {w : World} {s : SitId} {e : EId} {w' : World}
    (h : Situation.add w s e = some w') (t : SitId) :
    (w'.sits t).coordinate = (w.sits t).coordinate := by
  rcases Situation.add_cases h with ⟨s0, _, _, rfl⟩ | ⟨_, rfl⟩ <;>
    simp only [World.setEntSit_sits, World.setContents_sits_coordinate]

theorem Situation.add_contents {w : World} {s : SitId} {e : EId} {w' : World}
    (h : Situation.add w s e = some w') (t : SitId) :
    (∃ s0, (w.ents e).situation = some s0 ∧ e ∈ (w.sits s0).contents ∧
      (w'.sits t).contents =
        (if t = s then
          (if s = s0 then ((w.sits s0).contents).erase e else (w.sits s).contents) ++ [e]
        else if t = s0 then ((w.sits s0).contents).erase e
        else (w.sits t).contents)) ∨
    ((w.ents e).situation = none ∧
      (w'.sits t).contents =
        (if t = s then ((w.sits s).contents) ++ [e] else (w.sits t).contents)) := by
  rcases Situation.add_cases h with ⟨s0, h1, h2, rfl⟩ | ⟨h1, rfl⟩
  · refine Or.inl ⟨s0, h1, h2, ?_⟩
    simp only [World.setEntSit_sits, World.setContents_sits_contents]
  · refine Or.inr ⟨h1, ?_⟩
    simp only [World.setEntSit_sits, World.setContents_sits_contents]

theorem Situation.add_count_ne {w : World} {s : SitId} {e : EId} {w' : World}
    (h : Situation.add w s e = some w') (x : EId) (hx : x ≠ e) (t : SitId) :
    ((w'.sits t).contents).count x = ((w.sits t).contents).count x := by
  rcases Situation.add_contents h t with ⟨s0, h1, h2, hc⟩ | ⟨h1, hc⟩ <;> rw [hc]
  · by_cases hts : t = s
    · subst hts
      by_cases hss0 : t = s0
      · subst hss0
        simp [List.count_append, List.count_erase_of_ne hx, List.count_singleton', Ne.symm hx]
      · simp [if_neg hss0, List.count_append, List.count_singleton', Ne.symm hx]
    · rw [if_neg hts]
      by_cases hts0 : t = s0
      · subst hts0
        simp [List.count_erase_of_ne hx]
      · rw [if_neg hts0]
  · by_cases hts : t = s
    · subst hts
      simp [List.count_append, List.count_singleton', Ne.symm hx]
    · rw [if_neg hts]

theorem Situation.add_count_self {w : World} {s : SitId} {e : EId} {w' : World}
    (hx : ExclusivelyPlaced w e) (h : Situation.add w s e = some w') :
    ((w'.sits s).contents).count e = 1 ∧
    ∀ t, t ≠ s → ((w'.sits t).contents).count e = 0 := by
  constructor
  · rcases Situation.add_contents h s with ⟨s0, h1, h2, hc⟩ | ⟨h1, hc⟩ <;> rw [hc]
    · have hx1 := hx.1 s0 h1
      by_cases hss0 : s = s0
      · subst hss0
        simp [List.count_append, List.count_erase_self, hx1.1]
      · simp [if_neg hss0, List.count_append, hx1.2 s hss0]
    · simp [List.count_append, hx.2 h1 s]
  · intro t hts
    rcases Situation.add_contents h t with ⟨s0, h1, h2, hc⟩ | ⟨h1, hc⟩ <;> rw [hc]
    · have hx1 := hx.1 s0 h1
      rw [if_neg hts]
      by_cases hts0 : t = s0
      · subst hts0
        simp [List.count_erase_self, hx1.1]
      · rw [if_neg hts0]
        exact hx1.2 t hts0
    · rw [if_neg hts]
      exact hx.2 h1 t

theorem ExclusivelyPlaced_add_self {w : World} {s : SitId} {e : EId} {w' : World}
    (hx : ExclusivelyPlaced w e) (h : Situation.add w s e = some w') :
    ExclusivelyPlaced w' e := by
  have hsit : (w'.ents e).situation = some s := by rw [Situation.add_ents_self h]
  refine ⟨fun s' hs' => ?_, fun hn => ?_⟩
  · rw [hsit] at hs'
    obtain rfl := Option.some_inj.mp hs'
    exact Situation.add_count_self hx h
  · rw [hsit] at hn
    exact Option.noConfusion hn

theorem ExclusivelyPlaced_add_other {w : World} {s : SitId} {e : EId} {w' : World}
    (h : Situation.add w s e = some w') (x : EId) (hxe : x ≠ e)
    (hx : ExclusivelyPlaced w x) : ExclusivelyPlaced w' x := by
  refine ⟨fun s1 hs1 => ?_, fun hn => ?_⟩
  · rw [Situation.add_ents_ne h x hxe] at hs1
    have hx1 := hx.1 s1 hs1
    refine ⟨?_, fun t ht => ?_⟩
    · rw [Situation.add_count_ne h x hxe s1]
      exact hx1.1
    · rw [Situation.add_count_ne h x hxe t]
      exact hx1.2 t ht
  · rw [Situation.add_ents_ne h x hxe] at hn
    intro t
    rw [Situation.add_count_ne h x hxe t]
    exact hx.2 hn t

/-! ## Claim C2: placement exclusivity -/

theorem ExclusivelyPlaced_WA_hero : ExclusivelyPlaced WA 0 := by
  constructor
  · intro s hs
    have hse : s = SitId.loc (0, 0, 0) := by
      have : (WA.ents 0).situation = some (SitId.loc (0, 0, 0)) := by
        simp [WA, heroEnt]
      rw [this] at hs
      exact (Option.some_inj.mp hs).symm
    subst hse
    constructor
    · simp [WA, plainRoom]
    · intro t ht
      simp [WA, plainRoom, emptySit, ht, -Prod.mk_zero_zero]
  · intro hn
    simp [WA, heroEnt] at hn

/-- **C2.** For every entity `e` and every sequence of `Situation.add`
(`place`) calls starting from a state in which `e` is exclusively placed,
every call succeeds — including re-adding `e` to the situation it already
occupies — and after each call `e` occurs exactly once in the container of
the last target situation, nowhere else, and `e.situation` points to it. -/
theorem C2_place_exclusivity (w : World) (e : EId) (h : ExclusivelyPlaced w e)
    (L : List SitId) (s : SitId) :
    ∃ w', addSeq w e (L ++ [s]) = some w' ∧ (w'.ents e).situation = some s ∧
      ((w'.sits s).contents).count e = 1 ∧
      ∀ t, t ≠ s → ((w'.sits t).contents).count e = 0 := by
  induction L generalizing w with
  | nil =>
    obtain ⟨w', hw'⟩ := Situation.add_succeeds (s := s) h
    refine ⟨w', by simp [addSeq, hw'], ?_, Situation.add_count_self h hw'⟩
    simp [Situation.add_ents_self hw']
  | cons a rest ih =>
    obtain ⟨w1, hw1⟩ := Situation.add_succeeds (s := a) h
    obtain ⟨w', hrun, hconc⟩ := ih w1 (ExclusivelyPlaced_add_self h hw1)
    refine ⟨w', ?_, hconc⟩
    simpa [addSeq, hw1] using hrun

/-- Witness for C2 at the concrete state `WA`: re-adding the hero to its own
room and then moving it to a fresh situation keeps it exclusively placed. -/
theorem C2_place_exclusivity_witness :
    ∃ w', addSeq WA 0 ([SitId.loc (0, 0, 0)] ++ [SitId.term 5]) = some w' ∧
      (w'.ents 0).situation = some (SitId.term 5) ∧
      ((w'.sits (SitId.term 5)).contents).count 0 = 1 ∧
      ∀ t, t ≠ SitId.term 5 → ((w'.sits t).contents).count 0 = 0 :=
  C2_place_exclusivity WA 0 ExclusivelyPlaced_WA_hero [SitId.loc (0, 0, 0)] (SitId.term 5)

/-! ## Claim C8: a hazard acts at most once per turn -/

/-- **C8.** Within one turn, calling a hazard's `act()` twice has the same
effect on the game state as calling it once: the second call observes the
`acted` flag set by the first and is a no-op, so a hazard acts at most once
per turn even when `move_deathballs` visits it again in a later room. -/
theorem C8_act_idempotent (w : World) (db : EId) :
    (DeathBall.act w db).bind (fun w1 => DeathBall.act w1 db) = DeathBall.act w db := by
  by_cases hact : (w.ents db).acted = true
  · simp [DeathBall.act, hact]
  · cases hmv : DeathBall.move w db with
    | none => simp [DeathBall.act, hact, hmv]
    | some w1 =>
      have h2 : ((w1.setActed db true).ents db).acted = true := by simp
      simp [DeathBall.act, hact, hmv, h2]

/-! ## Claim C9: take succeeds exactly on items present in the room -/

/-- **C9.** `Hero.take(item)` succeeds exactly when the item is in the
container of the hero's situation: then the item is removed from that
container and appended to the hero's inventory, with every other situation
and entity (in particular the item's own `situation` reference) and the
dictionary untouched; otherwise only a message is reported and the state is
returned unchanged. -/
theorem C9_take_characterization (w : World) (s : SitId) (item : EId)
    (hs : (w.ents w.heroId).situation = some s) :
    (item ∈ (w.sits s).contents →
      ∃ w', Hero.take w item = some w' ∧
        (w'.sits s).contents = ((w.sits s).contents).erase item ∧
        (w'.ents w.heroId).inventory = ((w.ents w.heroId).inventory) ++ [item] ∧
        (∀ t, t ≠ s → w'.sits t = w.sits t) ∧
        (∀ x, x ≠ w.heroId → w'.ents x = w.ents x) ∧
        (w'.ents w.heroId).situation = (w.ents w.heroId).situation ∧
        w'.dict = w.dict) ∧
    (item ∉ (w.sits s).contents → Hero.take w item = some w) := by
  constructor
  · intro hm
    refine ⟨(w.setContents s (((w.sits s).contents).erase item)).setInv w.heroId
        (((w.ents w.heroId).inventory) ++ [item]), ?_, ?_, ?_, ?_, ?_, ?_, rfl⟩
    · simp [Hero.take, hs, Situation.contains, hm]
    · simp
    · simp
    · intro t ht
      simp [ht]
    · intro x hx
      simp [hx]
    · simp
  · intro hm
    simp [Hero.take, hs, Situation.contains, hm]

/-- Witness for C9 at the concrete state `WB`: taking the treasure from the
hero's room succeeds with exactly the described effect, and taking an absent
entity (id 7) changes nothing. -/
theorem C9_take_characterization_witness :
    ((2 : EId) ∈ (WB.sits (SitId.loc (1, 0, 0))).contents →
      ∃ w', Hero.take WB 2 = some w' ∧
        (w'.sits (SitId.loc (1, 0, 0))).contents =
          ((WB.sits (SitId.loc (1, 0, 0))).contents).erase 2 ∧
        (w'.ents WB.heroId).inventory = ((WB.ents WB.heroId).inventory) ++ [2] ∧
        (∀ t, t ≠ SitId.loc (1, 0, 0) → w'.sits t = WB.sits t) ∧
        (∀ x, x ≠ WB.heroId → w'.ents x = WB.ents x) ∧
        (w'.ents WB.heroId).situation = (WB.ents WB.heroId).situation ∧
        w'.dict = WB.dict) ∧
    ((2 : EId) ∉ (WB.sits (SitId.loc (1, 0, 0))).contents →
      Hero.take WB 2 = some WB) :=
  C9_take_characterization WB (SitId.loc (1, 0, 0)) 2 (by simp [WB, heroEnt])

/-! ## Claims C4 and C5: the perception scan -/

theorem perceptCoord_ne_sentinel {n : Nat} {loc : Coord} (hloc : inCube n loc)
    (dir : Dir) (dist : Int) : perceptCoord loc dir dist ≠ (-1, -1, -1) := by
  obtain ⟨x, y, z⟩ := loc
  simp only [inCube] at hloc
  intro hsent
  cases dir <;>
    simp [perceptCoord, Dir.axisIndex, Dir.signedDistance, Prod.mk.injEq] at hsent <;>
    omega

theorem treasureAdjective_one (r : Nat) :
    treasureAdjective 1 r = "bright" ∨ treasureAdjective 1 r = "strong" := by
  unfold treasureAdjective
  by_cases hr : r % 2 = 0 <;> simp [hr]

theorem treasureAdjective_two (r : Nat) :
    treasureAdjective 2 r = "pale" ∨ treasureAdjective 2 r = "faint" := by
  unfold treasureAdjective
  by_cases hr : r % 2 = 0 <;> simp [hr]

theorem treasure_west_zero (w : World) (r : Nat) (y z : Int) :
    Room.describe_treasure_at w r (0, y, z) Dir.w 1 = [] := by
  have hpcw : perceptCoord (0, y, z) Dir.w 1 = (-1, y, z) := by
    simp [perceptCoord, Dir.axisIndex, Dir.signedDistance]
  unfold Room.describe_treasure_at
  rw [hpcw]
  cases hl : dictLookup w.dict (-1, y, z) with
  | none => simp [hl]
  | some room => simp [hl, coordGet, Dir.axisIndex]

theorem deathballs_west_zero (w : World) (y z : Int) :
    Room.describe_deathballs_at w (0, y, z) Dir.w 1 = [] := by
  have hpcw : perceptCoord (0, y, z) Dir.w 1 = (-1, y, z) := by
    simp [perceptCoord, Dir.axisIndex, Dir.signedDistance]
  unfold Room.describe_deathballs_at
  rw [hpcw]
  cases hl : dictLookup w.dict (-1, y, z) with
  | none => simp [hl]
  | some room => simp [hl, coordGet, Dir.axisIndex]

/-- **C4.** From a room at `(x, y, z)`: a treasure room one step east produces
one "east" percept line with a distance-1 adjective from "bright"/"strong";
two steps east, one line with a distance-2 adjective from "pale"/"faint";
looking west from `x = 0` produces nothing because of the lower-bound guard
(for every state and every oracle value, so in-range lookups in the other
directions are unaffected); hazard percepts use the distance-1 adjective
"strong" and the distance-2 adjective "pale", which belong to the same
distance-wise adjective families. -/
theorem C4_perception_falloff :
    (∀ (w : World) (r : Nat) (x y z : Int) (s : SitId) (t : EId), 0 ≤ x + 1 →
      dictLookup w.dict (x + 1, y, z) = some s →
      Situation.get_entities w s EKind.treasure = [t] →
      ∃ adj, (adj = "bright" ∨ adj = "strong") ∧
        Room.describe_treasure_at w r (x, y, z) Dir.e 1 =
          [glowLine adj ((w.ents t).color) Dir.e]) ∧
    (∀ (w : World) (r : Nat) (x y z : Int) (s : SitId) (t : EId), 0 ≤ x + 2 →
      dictLookup w.dict (x + 2, y, z) = some s →
      Situation.get_entities w s EKind.treasure = [t] →
      ∃ adj, (adj = "pale" ∨ adj = "faint") ∧
        Room.describe_treasure_at w r (x, y, z) Dir.e 2 =
          [glowLine adj ((w.ents t).color) Dir.e]) ∧
    (∀ (w : World) (r : Nat) (y z : Int),
      Room.describe_treasure_at w r (0, y, z) Dir.w 1 = []) ∧
    (∀ (w : World) (x y z : Int) (s : SitId) (b : EId), 0 ≤ x + 1 →
      dictLookup w.dict (x + 1, y, z) = some s →
      Situation.get_entities w s EKind.deathBall = [b] →
      Room.describe_deathballs_at w (x, y, z) Dir.e 1 =
        [glowLine "strong" ((w.ents b).color) Dir.e]) ∧
    (∀ (w : World) (x y z : Int) (s : SitId) (b : EId), 0 ≤ x + 2 →
      dictLookup w.dict (x + 2, y, z) = some s →
      Situation.get_entities w s EKind.deathBall = [b] →
      Room.describe_deathballs_at w (x, y, z) Dir.e 2 =
        [glowLine "pale" ((w.ents b).color) Dir.e]) ∧
    (∀ (w : World) (y z : Int),
      Room.describe_deathballs_at w (0, y, z) Dir.w 1 = []) ∧
    ("strong" = "bright" ∨ "strong" = "strong") ∧
    ("pale" = "pale" ∨ "pale" = "faint") := by
  have hpc1 : ∀ x y z : Int, perceptCoord (x, y, z) Dir.e 1 = (x + 1, y, z) := by
    intro x y z
    simp [perceptCoord, Dir.axisIndex, Dir.signedDistance]
  have hpc2 : ∀ x y z : Int, perceptCoord (x, y, z) Dir.e 2 = (x + 2, y, z) := by
    intro x y z
    simp [perceptCoord, Dir.axisIndex, Dir.signedDistance]
  refine ⟨?_, ?_, ?_, ?_, ?_, ?_, Or.inr rfl, Or.inl rfl⟩
  · intro w r x y z s t h0 hlk hget
    refine ⟨treasureAdjective 1 r, treasureAdjective_one r, ?_⟩
    simp [Room.describe_treasure_at, hpc1, hlk, hget, coordGet, Dir.axisIndex, h0]
  · intro w r x y z s t h0 hlk hget
    refine ⟨treasureAdjective 2 r, treasureAdjective_two r, ?_⟩
    simp [Room.describe_treasure_at, hpc2, hlk, hget, coordGet, Dir.axisIndex, h0]
  · intro w r y z
    exact treasure_west_zero w r y z
  · intro w x y z s b h0 hlk hget
    simp [Room.describe_deathballs_at, hpc1, hlk, hget, coordGet, Dir.axisIndex, h0,
      deathballAdjective]
  · intro w x y z s b h0 hlk hget
    simp [Room.describe_deathballs_at, hpc2, hlk, hget, coordGet, Dir.axisIndex, h0,
      deathballAdjective]
  · intro w y z
    exact deathballs_west_zero w y z

/-- Witness for C4 at the concrete state `WB` (treasure in the room at
`(1, 0, 0)`, hazard in the room at `(0, 0, 0)`). -/
theorem C4_perception_falloff_witness :
    (∃ adj, (adj = "bright" ∨ adj = "strong") ∧
      Room.describe_treasure_at WB 0 (0, 0, 0) Dir.e 1 =
        [glowLine adj ((WB.ents 2).color) Dir.e]) ∧
    (∃ adj, (adj = "pale" ∨ adj = "faint") ∧
      Room.describe_treasure_at WB 1 (-1, 0, 0) Dir.e 2 =
        [glowLine adj ((WB.ents 2).color) Dir.e]) ∧
    Room.describe_treasure_at WB 0 (0, 0, 0) Dir.w 1 = [] ∧
    Room.describe_deathballs_at WB (-1, 0, 0) Dir.e 1 =
      [glowLine "strong" ((WB.ents 1).color) Dir.e] ∧
    Room.describe_deathballs_at WB (-2, 0, 0) Dir.e 2 =
      [glowLine "pale" ((WB.ents 1).color) Dir.e] := by
  obtain ⟨h1, h2, h3, h4, h5, _, _⟩ := C4_perception_falloff
  refine ⟨h1 WB 0 0 0 0 (SitId.loc (1, 0, 0)) 2 (by decide) (by decide) ?_,
    h2 WB 1 (-1) 0 0 (SitId.loc (1, 0, 0)) 2 (by decide) (by decide) ?_,
    h3 WB 0 0 0,
    h4 WB (-1) 0 0 (SitId.loc (0, 0, 0)) 1 (by decide) (by decide) ?_,
    h5 WB (-2) 0 0 (SitId.loc (0, 0, 0)) 1 (by decide) (by decide) ?_⟩ <;>
    simp [Situation.get_entities, WB, plainRoom, heroEnt, defaultEntity]

/-- **C5.** A percept coordinate outside `[0, N)` on any axis never surfaces
an error: under the key-set invariant the probe returns the empty percept
list (the Python KeyError is caught, and negative coordinates are
additionally stopped by the guard), and the twelve direction/distance probes
of a scan are all evaluated — a suppressed west probe from `x = 0` does not
prevent the later "below" probe of the same scan from reporting. -/
theorem C5_lookup_miss_is_silent :
    (∀ (w : World) (r : Nat) (loc : Coord) (dir : Dir) (dist : Int),
      inCube w.size loc →
      (∀ k, k ∈ dictKeys w → inCube w.size k ∨ k = (-1, -1, -1)) →
      ¬ inCube w.size (perceptCoord loc dir dist) →
      Room.describe_treasure_at w r loc dir dist = [] ∧
      Room.describe_deathballs_at w loc dir dist = []) ∧
    (∀ (w : World) (y z : Int) (sd : SitId) (t : EId),
      inCube w.size (0, y, z) →
      dictLookup w.dict (0, y, z + 1) = some sd →
      Situation.get_entities w sd EKind.treasure = [t] →
      Room.describe_treasure_at w (w.rand (w.rk + 3)) (0, y, z) Dir.w 1 = [] ∧
      ∃ adj, (adj = "bright" ∨ adj = "strong") ∧
        glowLine adj ((w.ents t).color) Dir.d ∈ Room.treasureScanFrom w (0, y, z)) := by
  constructor
  · intro w r loc dir dist hloc hkeys hpc
    have hnotmem : perceptCoord loc dir dist ∉ dictKeys w := by
      intro hmem
      rcases hkeys _ hmem with hcube | hsent
      · exact hpc hcube
      · exact perceptCoord_ne_sentinel hloc dir dist hsent
    have hnone : dictLookup w.dict (perceptCoord loc dir dist) = none := by
      cases hl : dictLookup w.dict (perceptCoord loc dir dist) with
      | none => rfl
      | some s =>
        exact absurd ((dictLookup_isSome_iff_mem_keys _ _).mp (by rw [hl]; rfl)) hnotmem
    constructor
    · simp [Room.describe_treasure_at, hnone]
    · simp [Room.describe_deathballs_at, hnone]
  · intro w y z sd t hloc hlk hget
    refine ⟨treasure_west_zero w _ y z, treasureAdjective 1 (w.rand (w.rk + 5)),
      treasureAdjective_one _, ?_⟩
    have hz : (0 : Int) ≤ z + 1 := by
      simp only [inCube] at hloc
      omega
    have hpcd : perceptCoord (0, y, z) Dir.d 1 = (0, y, z + 1) := by
      simp [perceptCoord, Dir.axisIndex, Dir.signedDistance]
    have hcontrib : Room.describe_treasure_at w (w.rand (w.rk + 5)) (0, y, z) Dir.d 1 =
        [glowLine (treasureAdjective 1 (w.rand (w.rk + 5))) ((w.ents t).color) Dir.d] := by
      simp [Room.describe_treasure_at, hpcd, hlk, hget, coordGet, Dir.axisIndex, hz]
    unfold Room.treasureScanFrom
    refine List.mem_flatMap.mpr ⟨(5, (1, Dir.d)), by decide, ?_⟩
    rw [show ((5, (1, Dir.d)) : Nat × Int × Dir).1 = 5 from rfl]
    simp only
    rw [hcontrib]
    exact List.mem_singleton.mpr rfl

/-- Witness for C5 at the concrete state `WD`: the west probe from the origin
is silent, yet the later "below" probe of the same scan still reports the
treasure at `(0, 0, 1)`. -/
theorem C5_lookup_miss_is_silent_witness :
    (Room.describe_treasure_at WD 0 (0, 0, 0) Dir.w 1 = [] ∧
     Room.describe_deathballs_at WD (0, 0, 0) Dir.w 1 = []) ∧
    (Room.describe_treasure_at WD (WD.rand (WD.rk + 3)) (0, 0, 0) Dir.w 1 = [] ∧
     ∃ adj, (adj = "bright" ∨ adj = "strong") ∧
       glowLine adj ((WD.ents 2).color) Dir.d ∈ Room.treasureScanFrom WD (0, 0, 0)) := by
  obtain ⟨h1, h2⟩ := C5_lookup_miss_is_silent
  exact ⟨h1 WD 0 (0, 0, 0) Dir.w 1 (by decide) (by decide) (by decide),
    h2 WD 0 0 (SitId.loc (0, 0, 1)) 2 (by decide) (by decide) (by decide)⟩

/-! ## `allocTerm` lemmas and invariant preservation for the primitives -/

@[simp] theorem World.allocTerm_fst (w : World) (k : SitKind) :
    (w.allocTerm k).1 = SitId.term w.nextSit := rfl

@[simp] theorem World.allocTerm_sits (w : World) (k : SitKind) (t : SitId) :
    (w.allocTerm k).2.sits t =
      if t = SitId.term w.nextSit then { contents := [], kind := k, coordinate := none }
      else w.sits t := rfl

@[simp] theorem World.allocTerm_ents (w : World) (k : SitKind) :
    (w.allocTerm k).2.ents = w.ents := rfl

@[simp] theorem World.allocTerm_dict (w : World) (k : SitKind) :
    (w.allocTerm k).2.dict = w.dict := rfl

@[simp] theorem World.allocTerm_size (w : World) (k : SitKind) :
    (w.allocTerm k).2.size = w.size := rfl

@[simp] theorem World.allocTerm_heroId (w : World) (k : SitKind) :
    (w.allocTerm k).2.heroId = w.heroId := rfl

@[simp] theorem World.allocTerm_treasureId (w : World) (k : SitKind) :
    (w.allocTerm k).2.treasureId = w.treasureId := rfl

@[simp] theorem World.allocTerm_registry (w : World) (k : SitKind) :
    (w.allocTerm k).2.registry = w.registry := rfl

@[simp] theorem World.allocTerm_nextSit (w : World) (k : SitKind) :
    (w.allocTerm k).2.nextSit = w.nextSit + 1 := rfl

@[simp] theorem World.allocTerm_rand (w : World) (k : SitKind) :
    (w.allocTerm k).2.rand = w.rand := rfl

@[simp] theorem World.allocTerm_rk (w : World) (k : SitKind) :
    (w.allocTerm k).2.rk = w.rk := rfl

theorem Situation.add_ents_fields {w : World} {s : SitId} {e : EId} {w' : World}
    (h : Situation.add w s e = some w') (x : EId) :
    (w'.ents x).kind = (w.ents x).kind ∧ (w'.ents x).acted = (w.ents x).acted ∧
    (w'.ents x).inventory = (w.ents x).inventory ∧ (w'.ents x).color = (w.ents x).color := by
  by_cases hx : x = e
  · subst hx
    rw [Situation.add_ents_self h]
    exact ⟨rfl, rfl, rfl, rfl⟩
  · rw [Situation.add_ents_ne h x hx]
    exact ⟨rfl, rfl, rfl, rfl⟩

theorem ExclusivelyPlaced_allocTerm {w : World} {e : EId} (k : SitKind)
    (hx : ExclusivelyPlaced w e)
    (hfresh : ∀ n, (w.ents e).situation = some (SitId.term n) → n < w.nextSit) :
    ExclusivelyPlaced (w.allocTerm k).2 e := by
  constructor
  · intro s hs
    rw [World.allocTerm_ents] at hs
    obtain ⟨h1, h2⟩ := hx.1 s hs
    have hsne : s ≠ SitId.term w.nextSit := by
      intro hcon
      subst hcon
      exact absurd (hfresh _ hs) (by omega)
    refine ⟨?_, fun t ht => ?_⟩
    · simp [hsne, h1]
    · by_cases htn : t = SitId.term w.nextSit
      · subst htn
        simp
      · simp [htn, h2 t ht]
  · intro hn
    rw [World.allocTerm_ents] at hn
    intro t
    by_cases htn : t = SitId.term w.nextSit
    · subst htn
      simp
    · simp [htn, hx.2 hn t]

theorem inCube_fst_nonneg {n : Nat} {c : Coord} (h : inCube n c) : 0 ≤ c.1 := h.1

theorem sentinel_not_inCube (n : Nat) : ¬ inCube n ((-1 : Int), (-1 : Int), (-1 : Int)) := by
  intro h
  have := h.1
  omega

theorem cube_key_ne_sentinel {n : Nat} {c : Coord} (h : inCube n c) :
    c ≠ ((-1 : Int), (-1 : Int), (-1 : Int)) := by
  intro hcon
  rw [hcon] at h
  exact sentinel_not_inCube n h

theorem GInv_allocTerm {w : World} (hG : GInv w) (k : SitKind) :
    GInv (w.allocTerm k).2 := by
  constructor
  · simpa using hG.sizePos
  · intro c hc
    obtain ⟨s, lt, h1, h2, h3⟩ := hG.cubeKeys c (by simpa using hc)
    have hsne : s ≠ SitId.term w.nextSit := by
      intro hcon
      subst hcon
      exact absurd (hG.dictFresh c _ h1) (by omega)
    exact ⟨s, lt, by simpa using h1, by simp [hsne, h2], by simp [hsne, h3]⟩
  · intro c s c2 h1 h2
    rw [World.allocTerm_dict] at h1
    have hsne : s ≠ SitId.term w.nextSit := by
      intro hcon
      subst hcon
      exact absurd (hG.dictFresh c _ h1) (by omega)
    rw [World.allocTerm_sits, if_neg hsne] at h2
    simpa using hG.dictLocOK c s c2 h1 h2
  · intro c n h1
    rw [World.allocTerm_dict] at h1
    have := hG.dictFresh c n h1
    simp
    omega
  · intro e n h1
    rw [World.allocTerm_ents] at h1
    have := hG.entFresh e n h1
    simp
    omega
  · simpa using hG.heroKind
  · intro e hk2
    rw [World.allocTerm_ents] at hk2
    simpa using hG.heroUnique e hk2
  · simpa using hG.treasureKind
  · exact ExclusivelyPlaced_allocTerm k hG.heroSync (hG.entFresh w.heroId)
  · intro e hk2
    rw [World.allocTerm_ents] at hk2
    exact ExclusivelyPlaced_allocTerm k (hG.dbSync e hk2) (hG.entFresh e)
  · intro s c h1 h2
    rw [World.allocTerm_ents] at h1
    have hsne : s ≠ SitId.term w.nextSit := by
      intro hcon
      subst hcon
      exact absurd (hG.entFresh _ _ h1) (by omega)
    rw [World.allocTerm_sits, if_neg hsne] at h2
    simpa using hG.heroLoc s c h1 h2
  · intro e s hk2 h1
    rw [World.allocTerm_ents] at hk2 h1
    have hsne : s ≠ SitId.term w.nextSit := by
      intro hcon
      subst hcon
      exact absurd (hG.entFresh _ _ h1) (by omega)
    obtain ⟨c, hc1, hc2⟩ := hG.dbLoc e s hk2 h1
    exact ⟨c, by simp [hsne, hc1], by simpa using hc2⟩
  · intro e he
    rw [World.allocTerm_ents] at he ⊢
    simpa using hG.invKinds e he

theorem GInv_dictSet_sentinel {v : World} (hG : GInv v) (n : Nat) (hn : n < v.nextSit)
    (hcoord : (v.sits (SitId.term n)).coordinate = none) :
    GInv { v with dict := dictSet v.dict (-1, -1, -1) (SitId.term n) } := by
  have hlk : ∀ c, dictLookup (dictSet v.dict (-1, -1, -1) (SitId.term n)) c =
      if c = ((-1 : Int), (-1 : Int), (-1 : Int)) then some (SitId.term n)
      else dictLookup v.dict c := fun c => dictLookup_dictSet v.dict _ c _
  refine ⟨hG.sizePos, ?_, ?_, ?_, hG.entFresh, hG.heroKind, hG.heroUnique, hG.treasureKind,
    hG.heroSync, hG.dbSync, hG.heroLoc, hG.dbLoc, hG.invKinds⟩
  · intro c hc
    obtain ⟨s, lt, h1, h2, h3⟩ := hG.cubeKeys c hc
    refine ⟨s, lt, ?_, h2, h3⟩
    have hres : dictLookup (dictSet v.dict (-1, -1, -1) (SitId.term n)) c = some s := by
      rw [hlk, if_neg (cube_key_ne_sentinel hc)]
      exact h1
    exact hres
  · intro c s c2 h1 h2
    have h1a : dictLookup (dictSet v.dict (-1, -1, -1) (SitId.term n)) c = some s := h1
    rw [hlk] at h1a
    by_cases hc : c = ((-1 : Int), (-1 : Int), (-1 : Int))
    · rw [if_pos hc] at h1a
      obtain rfl := Option.some_inj.mp h1a
      have h2a : (v.sits (SitId.term n)).coordinate = some c2 := h2
      rw [hcoord] at h2a
      exact Option.noConfusion h2a
    · rw [if_neg hc] at h1a
      exact hG.dictLocOK c s c2 h1a h2
  · intro c m h1
    have h1a : dictLookup (dictSet v.dict (-1, -1, -1) (SitId.term n)) c =
        some (SitId.term m) := h1
    rw [hlk] at h1a
    by_cases hc : c = ((-1 : Int), (-1 : Int), (-1 : Int))
    · rw [if_pos hc] at h1a
      have hnm := Option.some_inj.mp h1a
      injection hnm with hnm
      show m < v.nextSit
      omega
    · rw [if_neg hc] at h1a
      exact hG.dictFresh c m h1a

theorem GInv_add {v : World} {s : SitId} {e : EId} {v' : World} (hG : GInv v)
    (h : Situation.add v s e = some v')
    (he : e = v.heroId ∨ (v.ents e).kind = EKind.deathBall)
    (hfr : ∀ n, s = SitId.term n → n < v.nextSit)
    (hco : ∀ c, (v.sits s).coordinate = some c → inCube v.size c)
    (hdb : (v.ents e).kind = EKind.deathBall →
      ∃ c, (v.sits s).coordinate = some c ∧ inCube v.size c) :
    GInv v' := by
  obtain ⟨hdict, hsize, hhero, htre, hreg, hnext, hrand, hrk⟩ := Situation.add_frames h
  have hkind : ∀ x, (v'.ents x).kind = (v.ents x).kind :=
    fun x => (Situation.add_ents_fields h x).1
  have hsitne : ∀ x, x ≠ e → (v'.ents x).situation = (v.ents x).situation := by
    intro x hx
    rw [Situation.add_ents_ne h x hx]
  have hExcl : ExclusivelyPlaced v e := by
    rcases he with rfl | hk
    · exact hG.heroSync
    · exact hG.dbSync e hk
  have hne_hero_db : e ≠ v.heroId → (v.ents e).kind = EKind.deathBall := by
    intro hne
    rcases he with rfl | hk
    · exact absurd rfl hne
    · exact hk
  refine ⟨?_, ?_, ?_, ?_, ?_, ?_, ?_, ?_, ?_, ?_, ?_, ?_, ?_⟩
  · rw [hsize]; exact hG.sizePos
  · intro c hc
    rw [hsize] at hc
    obtain ⟨t, lt, h1, h2, h3⟩ := hG.cubeKeys c hc
    exact ⟨t, lt, by rw [hdict]; exact h1,
      by rw [Situation.add_sits_coordinate h]; exact h2,
      by rw [Situation.add_sits_kind h]; exact h3⟩
  · intro c t c2 h1 h2
    rw [hdict] at h1
    rw [Situation.add_sits_coordinate h] at h2
    rw [hsize]
    exact hG.dictLocOK c t c2 h1 h2
  · intro c n h1
    rw [hdict] at h1
    rw [hnext]
    exact hG.dictFresh c n h1
  · intro x n h1
    rw [hnext]
    by_cases hx : x = e
    · subst hx
      rw [Situation.add_ents_self h] at h1
      simp only at h1
      obtain hsn := Option.some_inj.mp h1
      exact hfr n hsn
    · rw [hsitne x hx] at h1
      exact hG.entFresh x n h1
  · rw [hhero, hkind]
    exact hG.heroKind
  · intro x hk
    rw [hkind] at hk
    rw [hhero]
    exact hG.heroUnique x hk
  · rw [htre, hkind]
    exact hG.treasureKind
  · rw [hhero]
    by_cases hx : v.heroId = e
    · subst hx
      exact ExclusivelyPlaced_add_self hExcl h
    · exact ExclusivelyPlaced_add_other h _ hx hG.heroSync
  · intro x hk
    rw [hkind] at hk
    by_cases hx : x = e
    · subst hx
      exact ExclusivelyPlaced_add_self hExcl h
    · exact ExclusivelyPlaced_add_other h _ hx (hG.dbSync x hk)
  · intro t c h1 h2
    rw [hhero] at h1
    rw [Situation.add_sits_coordinate h] at h2
    rw [hsize]
    by_cases hx : v.heroId = e
    · rw [hx] at h1
      rw [Situation.add_ents_self h] at h1
      simp only at h1
      obtain rfl := Option.some_inj.mp h1
      exact hco c h2
    · rw [hsitne _ hx] at h1
      exact hG.heroLoc t c h1 h2
  · intro x t hk h1
    rw [hkind] at hk
    rw [hsize]
    by_cases hx : x = e
    · subst hx
      rw [Situation.add_ents_self h] at h1
      simp only at h1
      obtain rfl := Option.some_inj.mp h1
      obtain ⟨c, hc1, hc2⟩ := hdb hk
      exact ⟨c, by rw [Situation.add_sits_coordinate h]; exact hc1, hc2⟩
    · rw [hsitne x hx] at h1
      obtain ⟨c, hc1, hc2⟩ := hG.dbLoc x t hk h1
      exact ⟨c, by rw [Situation.add_sits_coordinate h]; exact hc1, hc2⟩
  · intro x hx
    rw [hhero, (Situation.add_ents_fields h v.heroId).2.2.1] at hx
    rw [hkind]
    exact hG.invKinds x hx

theorem World.killHero_def (w : World) (color : String) :
    w.killHero color = (Situation.add (w.allocTerm (SitKind.death (killReason color))).2
        (SitId.term w.nextSit) w.heroId).bind
      (fun wb => some { wb with dict := dictSet wb.dict (-1, -1, -1) (SitId.term w.nextSit) }) :=
  rfl

theorem World.killHero_spec {w : World} (hG : GInv w) (color : String) :
    ∃ w', w.killHero color = some w' ∧ GInv w' ∧
      (w'.ents w.heroId).situation = some (SitId.term w.nextSit) ∧
      (w'.sits (SitId.term w.nextSit)).kind = SitKind.death (killReason color) ∧
      (∀ x, x ≠ w.heroId → w'.ents x = w.ents x) ∧
      (w'.ents w.heroId).kind = (w.ents w.heroId).kind ∧
      (w'.ents w.heroId).inventory = (w.ents w.heroId).inventory ∧
      (w'.ents w.heroId).acted = (w.ents w.heroId).acted ∧
      (∀ t, t ≠ SitId.term w.nextSit →
        (w'.sits t).kind = (w.sits t).kind ∧
        (w'.sits t).coordinate = (w.sits t).coordinate) ∧
      (∀ x, x ≠ w.heroId → ∀ t, ((w'.sits t).contents).count x =
        (if t = SitId.term w.nextSit then 0 else ((w.sits t).contents).count x)) ∧
      w'.dict = dictSet w.dict (-1, -1, -1) (SitId.term w.nextSit) ∧
      w'.size = w.size ∧ w'.heroId = w.heroId ∧ w'.treasureId = w.treasureId ∧
      w'.registry = w.registry ∧ w'.nextSit = w.nextSit + 1 ∧
      w'.rand = w.rand ∧ w'.rk = w.rk := by
  have hGN : GInv (w.allocTerm (SitKind.death (killReason color))).2 := GInv_allocTerm hG _
  obtain ⟨wb, hwb⟩ := Situation.add_succeeds
    (s := SitId.term w.nextSit) (e := w.heroId) hGN.heroSync
  obtain ⟨hbdict, hbsize, hbhero, hbtre, hbreg, hbnext, hbrand, hbrk⟩ := Situation.add_frames hwb
  have hGb : GInv wb := by
    refine GInv_add hGN hwb (Or.inl rfl) ?_ ?_ ?_
    · intro n hn
      injection hn with hn
      simp [World.allocTerm_nextSit]
      omega
    · intro c hc
      simp at hc
    · intro hk
      have := hGN.heroKind
      rw [show (w.allocTerm (SitKind.death (killReason color))).2.heroId = w.heroId from rfl]
        at this
      rw [this] at hk
      exact EKind.noConfusion hk
  have hcoordb : (wb.sits (SitId.term w.nextSit)).coordinate = none := by
    rw [Situation.add_sits_coordinate hwb]
    simp
  refine ⟨{ wb with dict := dictSet wb.dict (-1, -1, -1) (SitId.term w.nextSit) }, ?_, ?_,
    ?_, ?_, ?_, ?_, ?_, ?_, ?_, ?_, ?_, ?_, ?_, ?_, ?_, ?_, ?_, ?_⟩
  · rw [World.killHero_def, hwb]
    rfl
  · have hGf := GInv_dictSet_sentinel hGb w.nextSit (by rw [hbnext]; simp) hcoordb
    exact hGf
  · show (wb.ents w.heroId).situation = some (SitId.term w.nextSit)
    rw [Situation.add_ents_self hwb]
  · show (wb.sits (SitId.term w.nextSit)).kind = SitKind.death (killReason color)
    rw [Situation.add_sits_kind hwb]
    simp
  · intro x hx
    show wb.ents x = w.ents x
    rw [Situation.add_ents_ne hwb x hx]
    rfl
  · show (wb.ents w.heroId).kind = (w.ents w.heroId).kind
    exact (Situation.add_ents_fields hwb w.heroId).1
  · show (wb.ents w.heroId).inventory = (w.ents w.heroId).inventory
    exact (Situation.add_ents_fields hwb w.heroId).2.2.1
  · show (wb.ents w.heroId).acted = (w.ents w.heroId).acted
    exact (Situation.add_ents_fields hwb w.heroId).2.1
  · intro t ht
    constructor
    · show (wb.sits t).kind = (w.sits t).kind
      rw [Situation.add_sits_kind hwb]
      simp [ht]
    · show (wb.sits t).coordinate = (w.sits t).coordinate
      rw [Situation.add_sits_coordinate hwb]
      simp [ht]
  · intro x hx t
    show ((wb.sits t).contents).count x = _
    rw [Situation.add_count_ne hwb x hx t]
    by_cases htn : t = SitId.term w.nextSit
    · subst htn
      simp
    · simp [htn]
  · show dictSet wb.dict (-1, -1, -1) (SitId.term w.nextSit) = _
    rw [hbdict]
    rfl
  · show wb.size = w.size
    rw [hbsize]
    rfl
  · show wb.heroId = w.heroId
    rw [hbhero]
    rfl
  · show wb.treasureId = w.treasureId
    rw [hbtre]
    rfl
  · show wb.registry = w.registry
    rw [hbreg]
    rfl
  · show wb.nextSit = w.nextSit + 1
    rw [hbnext]
    rfl
  · show wb.rand = w.rand
    rw [hbrand]
    rfl
  · show wb.rk = w.rk
    rw [hbrk]
    rfl

theorem DeathBall.move_cases {v : World} {db : EId} {v' : World}
    (h : DeathBall.move v db = some v') :
    (∃ room, (v.ents db).situation = some room ∧
      Situation.contains v room v.heroId = true ∧
      World.killHero v ((v.ents db).color) = some v') ∨
    (∃ room, (v.ents db).situation = some room ∧
      Situation.contains v room v.heroId = false ∧
      v' = { v with rk := v.rk + 1 }) ∨
    (∃ room tgt s, (v.ents db).situation = some room ∧
      Situation.contains v room v.heroId = false ∧
      dictLookup v.dict tgt = some s ∧
      Situation.add { v with rk := v.rk + 1 } s db = some v' ∧
      (inCube v.size (Entity.get_location v db) → inCube v.size tgt)) := by
  cases hsit : (v.ents db).situation with
  | none =>
    rw [DeathBall.move, hsit] at h
    exact Option.noConfusion h
  | some room =>
    rw [DeathBall.move, hsit] at h
    simp only [Option.bind_eq_bind, Option.some_bind] at h
    by_cases hcon : Situation.contains v room v.heroId
    · rw [if_pos hcon] at h
      exact Or.inl ⟨room, rfl, by simp [hcon], h⟩
    · rw [if_neg hcon] at h
      rcases hgl : Entity.get_location v db with ⟨x, y, z⟩
      rw [hgl] at h
      simp only [World.draw] at h
      have hcf : Situation.contains v room v.heroId = false := by simp [hcon]
      by_cases hd0 : v.rand v.rk % 6 = 0
      · rw [if_pos hd0] at h
        by_cases hy : (1 : Int) ≤ y
        · rw [if_pos hy] at h
          cases hl : dictLookup v.dict (x, y - 1, z) with
          | none => rw [hl] at h; exact Option.noConfusion h
          | some s =>
            rw [hl] at h
            refine Or.inr (Or.inr ⟨room, (x, y - 1, z), s, rfl, hcf, hl, h, ?_⟩)
            intro hic
            obtain ⟨h1, h2, h3, h4, h5, h6⟩ := hic
            exact ⟨by simpa using h1, by simpa using h2, by simp at h3 ⊢; omega,
                by simp at h4 ⊢; omega, by simpa using h5, by simpa using h6⟩
        · rw [if_neg hy] at h
          exact Or.inr (Or.inl ⟨room, rfl, hcf, (Option.some_inj.mp h).symm⟩)
      · rw [if_neg hd0] at h
        by_cases hd1 : v.rand v.rk % 6 = 1
        · rw [if_pos hd1] at h
          by_cases hx : x < (v.size : Int) - 1
          · rw [if_pos hx] at h
            cases hl : dictLookup v.dict (x + 1, y, z) with
            | none => rw [hl] at h; exact Option.noConfusion h
            | some s =>
              rw [hl] at h
              refine Or.inr (Or.inr ⟨room, (x + 1, y, z), s, rfl, hcf, hl, h, ?_⟩)
              intro hic
              obtain ⟨h1, h2, h3, h4, h5, h6⟩ := hic
              exact ⟨by simp at h1 ⊢; omega, by simp at h2 ⊢; omega, by simpa using h3,
                  by simpa using h4, by simpa using h5, by simpa using h6⟩
          · rw [if_neg hx] at h
            exact Or.inr (Or.inl ⟨room, rfl, hcf, (Option.some_inj.mp h).symm⟩)
        · rw [if_neg hd1] at h
          by_cases hd2 : v.rand v.rk % 6 = 2
          · rw [if_pos hd2] at h
            by_cases hy : y < (v.size : Int) - 1
            · rw [if_pos hy] at h
              cases hl : dictLookup v.dict (x, y + 1, z) with
              | none => rw [hl] at h; exact Option.noConfusion h
              | some s =>
                rw [hl] at h
                refine Or.inr (Or.inr ⟨room, (x, y + 1, z), s, rfl, hcf, hl, h, ?_⟩)
                intro hic
                obtain ⟨h1, h2, h3, h4, h5, h6⟩ := hic
                exact ⟨by simpa using h1, by simpa using h2, by simp at h3 ⊢; omega,
                    by simp at h4 ⊢; omega, by simpa using h5, by simpa using h6⟩
            · rw [if_neg hy] at h
              exact Or.inr (Or.inl ⟨room, rfl, hcf, (Option.some_inj.mp h).symm⟩)
          · rw [if_neg hd2] at h
            by_cases hd3 : v.rand v.rk % 6 = 3
            · rw [if_pos hd3] at h
              by_cases hx : (1 : Int) ≤ x
              · rw [if_pos hx] at h
                cases hl : dictLookup v.dict (x - 1, y, z) with
                | none => rw [hl] at h; exact Option.noConfusion h
                | some s =>
                  rw [hl] at h
                  refine Or.inr (Or.inr ⟨room, (x - 1, y, z), s, rfl, hcf, hl, h, ?_⟩)
                  intro hic
                  obtain ⟨h1, h2, h3, h4, h5, h6⟩ := hic
                  exact ⟨by simp at h1 ⊢; omega, by simp at h2 ⊢; omega,
                      by simpa using h3, by simpa using h4, by simpa using h5,
                      by simpa using h6⟩
              · rw [if_neg hx] at h
                exact Or.inr (Or.inl ⟨room, rfl, hcf, (Option.some_inj.mp h).symm⟩)
            · rw [if_neg hd3] at h
              by_cases hd4 : v.rand v.rk % 6 = 4
              · rw [if_pos hd4] at h
                by_cases hz : z < (v.size : Int) - 1
                · rw [if_pos hz] at h
                  cases hl : dictLookup v.dict (x, y, z + 1) with
                  | none => rw [hl] at h; exact Option.noConfusion h
                  | some s =>
                    rw [hl] at h
                    refine Or.inr (Or.inr ⟨room, (x, y, z + 1), s, rfl, hcf, hl, h, ?_⟩)
                    intro hic
                    obtain ⟨h1, h2, h3, h4, h5, h6⟩ := hic
                    exact ⟨by simpa using h1, by simpa using h2, by simpa using h3,
                        by simpa using h4, by simp at h5 ⊢; omega, by simp at h6 ⊢; omega⟩
                · rw [if_neg hz] at h
                  exact Or.inr (Or.inl ⟨room, rfl, hcf, (Option.some_inj.mp h).symm⟩)
              · rw [if_neg hd4] at h
                by_cases hz : (1 : Int) ≤ z
                · rw [if_pos hz] at h
                  cases hl : dictLookup v.dict (x, y, z - 1) with
                  | none => rw [hl] at h; exact Option.noConfusion h
                  | some s =>
                    rw [hl] at h
                    refine Or.inr (Or.inr ⟨room, (x, y, z - 1), s, rfl, hcf, hl, h, ?_⟩)
                    intro hic
                    obtain ⟨h1, h2, h3, h4, h5, h6⟩ := hic
                    exact ⟨by simpa using h1, by simpa using h2, by simpa using h3,
                        by simpa using h4, by simp at h5 ⊢; omega, by simp at h6 ⊢; omega⟩
                · rw [if_neg hz] at h
                  exact Or.inr (Or.inl ⟨room, rfl, hcf, (Option.some_inj.mp h).symm⟩)

theorem DeathBall.act_cases {v : World} {db : EId} {v' : World}
    (h : DeathBall.act v db = some v') :
    ((v.ents db).acted = true ∧ v' = v) ∨
    ((v.ents db).acted = false ∧
      ∃ vm, DeathBall.move v db = some vm ∧ v' = vm.setActed db true) := by
  by_cases hact : (v.ents db).acted = true
  · rw [DeathBall.act, if_pos hact] at h
    exact Or.inl ⟨hact, (Option.some_inj.mp h).symm⟩
  · rw [DeathBall.act, if_neg hact] at h
    cases hmv : DeathBall.move v db with
    | none =>
      rw [hmv] at h
      exact Option.noConfusion h
    | some vm =>
      rw [hmv] at h
      simp only [Option.bind_eq_bind, Option.some_bind] at h
      exact Or.inr ⟨by simpa using hact, vm, rfl, (Option.some_inj.mp h).symm⟩

theorem GInv_setRk {w : World} (hG : GInv w) (k : Nat) : GInv { w with rk := k } :=
  ⟨hG.sizePos, hG.cubeKeys, hG.dictLocOK, hG.dictFresh, hG.entFresh, hG.heroKind,
    hG.heroUnique, hG.treasureKind, hG.heroSync, hG.dbSync, hG.heroLoc, hG.dbLoc, hG.invKinds⟩

theorem World.setActed_ents_situation (w : World) (e : EId) (b : Bool) (x : EId) :
    ((w.setActed e b).ents x).situation = (w.ents x).situation := by
  by_cases hx : x = e <;> simp [hx]

theorem World.setActed_ents_kind (w : World) (e : EId) (b : Bool) (x : EId) :
    ((w.setActed e b).ents x).kind = (w.ents x).kind := by
  by_cases hx : x = e <;> simp [hx]

theorem World.setActed_ents_inventory (w : World) (e : EId) (b : Bool) (x : EId) :
    ((w.setActed e b).ents x).inventory = (w.ents x).inventory := by
  by_cases hx : x = e <;> simp [hx]

theorem ExclusivelyPlaced_setActed {w : World} {x : EId} (e : EId) (b : Bool)
    (hx : ExclusivelyPlaced w x) : ExclusivelyPlaced (w.setActed e b) x := by
  constructor
  · intro s hs
    rw [World.setActed_ents_situation] at hs
    obtain ⟨h1, h2⟩ := hx.1 s hs
    exact ⟨h1, h2⟩
  · intro hn
    rw [World.setActed_ents_situation] at hn
    exact hx.2 hn

theorem GInv_setActed {w : World} (hG : GInv w) (e : EId) (b : Bool) :
    GInv (w.setActed e b) := by
  refine ⟨hG.sizePos, hG.cubeKeys, hG.dictLocOK, hG.dictFresh, ?_, ?_, ?_, ?_, ?_, ?_, ?_,
    ?_, ?_⟩
  · intro x n h1
    rw [World.setActed_ents_situation] at h1
    exact hG.entFresh x n h1
  · rw [show (w.setActed e b).heroId = w.heroId from rfl, World.setActed_ents_kind]
    exact hG.heroKind
  · intro x hk
    rw [World.setActed_ents_kind] at hk
    exact hG.heroUnique x hk
  · rw [show (w.setActed e b).treasureId = w.treasureId from rfl, World.setActed_ents_kind]
    exact hG.treasureKind
  · exact ExclusivelyPlaced_setActed e b hG.heroSync
  · intro x hk
    rw [World.setActed_ents_kind] at hk
    exact ExclusivelyPlaced_setActed e b (hG.dbSync x hk)
  · intro s c h1 h2
    rw [show (w.setActed e b).heroId = w.heroId from rfl,
      World.setActed_ents_situation] at h1
    exact hG.heroLoc s c h1 h2
  · intro x s hk h1
    rw [World.setActed_ents_kind] at hk
    rw [World.setActed_ents_situation] at h1
    exact hG.dbLoc x s hk h1
  · intro x hxm
    rw [show (w.setActed e b).heroId = w.heroId from rfl,
      World.setActed_ents_inventory] at hxm
    have hx1 := hG.invKinds x hxm
    constructor
    · show ((w.setActed e b).ents x).kind ≠ EKind.hero
      rw [World.setActed_ents_kind]
      exact hx1.1
    · show ((w.setActed e b).ents x).kind ≠ EKind.deathBall
      rw [World.setActed_ents_kind]
      exact hx1.2

theorem GInv_move {v : World} {db : EId} {v' : World} (hG : GInv v)
    (hk : (v.ents db).kind = EKind.deathBall) (h : DeathBall.move v db = some v') :
    GInv v' := by
  rcases DeathBall.move_cases h with ⟨room, hsit, hcon, hkill⟩ | ⟨room, hsit, hcon, rfl⟩ |
    ⟨room, tgt, s, hsit, hcon, hlk, hadd, hbound⟩
  · obtain ⟨w2, hw2, hGw2, _⟩ := World.killHero_spec hG ((v.ents db).color)
    rw [hkill] at hw2
    obtain rfl := Option.some_inj.mp hw2
    exact hGw2
  · exact GInv_setRk hG _
  · obtain ⟨c, hc1, hc2⟩ := hG.dbLoc db room hk hsit
    have hgl : Entity.get_location v db = c := by
      simp only [Entity.get_location, hsit, hc1]
    have htgt : inCube v.size tgt := hbound (by rw [hgl]; exact hc2)
    obtain ⟨s2, lt, hl2, hco2, hk2⟩ := hG.cubeKeys tgt htgt
    rw [hlk] at hl2
    obtain rfl := Option.some_inj.mp hl2
    have hGr : GInv { v with rk := v.rk + 1 } := GInv_setRk hG _
    refine GInv_add hGr hadd (Or.inr hk) ?_ ?_ ?_
    · intro n hn
      subst hn
      exact hG.dictFresh tgt n hlk
    · intro c2 hc2a
      have : c2 = tgt := by
        rw [show ({ v with rk := v.rk + 1 } : World).sits = v.sits from rfl] at hc2a
        rw [hco2] at hc2a
        exact (Option.some_inj.mp hc2a).symm
      subst this
      exact htgt
    · intro _
      exact ⟨tgt, hco2, htgt⟩

theorem GInv_act {v : World} {db : EId} {v' : World} (hG : GInv v)
    (hk : (v.ents db).kind = EKind.deathBall) (h : DeathBall.act v db = some v') :
    GInv v' := by
  rcases DeathBall.act_cases h with ⟨_, rfl⟩ | ⟨_, vm, hmv, rfl⟩
  · exact hG
  · exact GInv_setActed (GInv_move hG hk hmv) db true

theorem actLoop_inv (I : World → Prop)
    (hstep : ∀ v e v', I v → (v.ents e).kind = EKind.deathBall →
      DeathBall.act v e = some v' → I v') :
    ∀ (fuel : Nat) (v : World) (s : SitId) (i : Nat) (v' : World),
      I v → World.actLoop v s i fuel = some v' → I v' := by
  intro fuel
  induction fuel with
  | zero =>
    intro v s i v' hI h
    rw [World.actLoop] at h
    exact (Option.some_inj.mp h) ▸ hI
  | succ n ih =>
    intro v s i v' hI h
    rw [World.actLoop] at h
    by_cases hlt : i < ((v.sits s).contents).length
    · rw [dif_pos hlt] at h
      by_cases hkind :
          (v.ents (((v.sits s).contents).get ⟨i, hlt⟩)).kind = EKind.deathBall
      · rw [if_pos hkind] at h
        cases hact : DeathBall.act v (((v.sits s).contents).get ⟨i, hlt⟩) with
        | none =>
          rw [hact] at h
          exact Option.noConfusion h
        | some v1 =>
          rw [hact] at h
          exact ih v1 s (i + 1) v' (hstep v _ v1 hI hkind hact) h
      · rw [if_neg hkind] at h
        exact ih v s (i + 1) v' hI h
    · rw [dif_neg hlt] at h
      exact (Option.some_inj.mp h) ▸ hI

theorem foldlM_inv {α : Type} (f : World → α → Option World) (I : World → Prop)
    (hstep : ∀ v a v', I v → f v a = some v' → I v') :
    ∀ (l : List α) (v v' : World), I v → l.foldlM f v = some v' → I v' := by
  intro l
  induction l with
  | nil =>
    intro v v' hI h
    simp only [List.foldlM_nil] at h
    exact (Option.some_inj.mp h) ▸ hI
  | cons a rest ih =>
    intro v v' hI h
    rw [List.foldlM_cons] at h
    cases hf : f v a with
    | none =>
      rw [hf] at h
      exact Option.noConfusion h
    | some v1 =>
      rw [hf] at h
      simp only [Option.bind_eq_bind, Option.some_bind] at h
      exact ih v1 v' (hstep v a v1 hI hf) h

theorem move_deathballs_inv (I : World → Prop)
    (hstep : ∀ v e v', I v → (v.ents e).kind = EKind.deathBall →
      DeathBall.act v e = some v' → I v')
    {v v' : World} (hI : I v) (h : World.move_deathballs v = some v') : I v' := by
  rw [World.move_deathballs] at h
  refine foldlM_inv _ I ?_ (cubeCoords v.size) v v' hI h
  intro u c u' hIu hf
  cases hl : dictLookup u.dict c with
  | none =>
    rw [hl] at hf
    exact Option.noConfusion hf
  | some room =>
    rw [hl] at hf
    exact actLoop_inv I hstep _ u room 0 u' hIu hf

theorem ExclusivelyPlaced_of_eq {r w : World} {e : EId} (hsits : r.sits = w.sits)
    (hsit : (r.ents e).situation = (w.ents e).situation)
    (hx : ExclusivelyPlaced w e) : ExclusivelyPlaced r e := by
  constructor
  · intro s hs
    rw [hsit] at hs
    obtain ⟨h1, h2⟩ := hx.1 s hs
    rw [hsits]
    exact ⟨h1, h2⟩
  · intro hn
    rw [hsit] at hn
    intro t
    rw [hsits]
    exact hx.2 hn t

theorem resync_fold_spec (hid : EId) (sigma : Option SitId) :
    ∀ (l : List EId) (acc : World), acc.heroId = hid → (acc.ents hid).situation = sigma →
      ∃ r, l.foldl (fun a it => a.setEntSit it ((a.ents a.heroId).situation)) acc = r ∧
        r.sits = acc.sits ∧ r.dict = acc.dict ∧ r.size = acc.size ∧
        r.heroId = acc.heroId ∧ r.treasureId = acc.treasureId ∧
        r.registry = acc.registry ∧ r.nextSit = acc.nextSit ∧
        r.rand = acc.rand ∧ r.rk = acc.rk ∧
        r.ents hid = acc.ents hid ∧
        (∀ x, x ∉ l → r.ents x = acc.ents x) ∧
        (∀ x, x ∈ l → (r.ents x).situation = sigma) ∧
        (∀ x, (r.ents x).kind = (acc.ents x).kind ∧ (r.ents x).acted = (acc.ents x).acted ∧
          (r.ents x).inventory = (acc.ents x).inventory ∧
          (r.ents x).color = (acc.ents x).color) := by
  intro l
  induction l with
  | nil =>
    intro acc hhid hsig
    exact ⟨acc, rfl, rfl, rfl, rfl, rfl, rfl, rfl, rfl, rfl, rfl, rfl,
      fun x hx => rfl, fun x hx => absurd hx (List.not_mem_nil x),
      fun x => ⟨rfl, rfl, rfl, rfl⟩⟩
  | cons it rest ih =>
    intro acc hhid hsig
    have hval : (acc.ents acc.heroId).situation = sigma := by rw [hhid, hsig]
    have hhid1 : (acc.setEntSit it ((acc.ents acc.heroId).situation)).heroId = hid := hhid
    have hsig1 :
        ((acc.setEntSit it ((acc.ents acc.heroId).situation)).ents hid).situation = sigma := by
      by_cases hx : hid = it
      · simp [hx, hval]
      · simp [hx, hsig]
    obtain ⟨r, hr, h1, h2, h3, h4, h5, h6, h7, h8, h9, h10, h11, h12, h13⟩ :=
      ih (acc.setEntSit it ((acc.ents acc.heroId).situation)) hhid1 hsig1
    have hents1 : (acc.setEntSit it ((acc.ents acc.heroId).situation)).ents hid =
        acc.ents hid := by
      by_cases hx : hid = it
      · subst hx
        show (if hid = hid then
            { acc.ents hid with situation := (acc.ents acc.heroId).situation }
          else acc.ents hid) = acc.ents hid
        rw [if_pos rfl, hval.trans hsig.symm]
      · simp [hx]
    refine ⟨r, by rw [List.foldl_cons]; exact hr, h1, h2, h3, h4, h5, h6, h7, h8, h9,
      by rw [h10, hents1], ?_, ?_, ?_⟩
    · intro x hx
      have hx1 : x ≠ it := fun hc => hx (hc ▸ List.mem_cons_self it rest)
      have hx2 : x ∉ rest := fun hc => hx (List.mem_cons_of_mem it hc)
      rw [h11 x hx2]
      simp [hx1]
    · intro x hx
      by_cases hx2 : x ∈ rest
      · exact h12 x hx2
      · have hx1 : x = it := by
          rcases List.mem_cons.mp hx with h | h
          · exact h
          · exact absurd h hx2
        subst hx1
        rw [h11 x hx2]
        simp [hval]
    · intro x
      obtain ⟨k1, k2, k3, k4⟩ := h13 x
      by_cases hx : x = it
      · subst hx
        refine ⟨by rw [k1]; simp, by rw [k2]; simp, by rw [k3]; simp, by rw [k4]; simp⟩
      · refine ⟨by rw [k1]; simp [hx], by rw [k2]; simp [hx], by rw [k3]; simp [hx],
          by rw [k4]; simp [hx]⟩

theorem resyncInventory_spec (w : World) :
    ∃ r, World.resyncInventory w = r ∧
      r.sits = w.sits ∧ r.dict = w.dict ∧ r.size = w.size ∧
      r.heroId = w.heroId ∧ r.treasureId = w.treasureId ∧
      r.registry = w.registry ∧ r.nextSit = w.nextSit ∧
      r.rand = w.rand ∧ r.rk = w.rk ∧
      r.ents w.heroId = w.ents w.heroId ∧
      (∀ x, x ∉ (w.ents w.heroId).inventory → r.ents x = w.ents x) ∧
      (∀ x, x ∈ (w.ents w.heroId).inventory →
        (r.ents x).situation = (w.ents w.heroId).situation) ∧
      (∀ x, (r.ents x).kind = (w.ents x).kind ∧ (r.ents x).acted = (w.ents x).acted ∧
        (r.ents x).inventory = (w.ents x).inventory ∧
        (r.ents x).color = (w.ents x).color) :=
  resync_fold_spec w.heroId ((w.ents w.heroId).situation)
    ((w.ents w.heroId).inventory) w rfl rfl

theorem reset_fold_spec :
    ∀ (l : List EId) (acc : World),
      ∃ r, l.foldl (fun a e => a.setActed e false) acc = r ∧
        r.sits = acc.sits ∧ r.dict = acc.dict ∧ r.size = acc.size ∧
        r.heroId = acc.heroId ∧ r.treasureId = acc.treasureId ∧
        r.registry = acc.registry ∧ r.nextSit = acc.nextSit ∧
        r.rand = acc.rand ∧ r.rk = acc.rk ∧
        (∀ x, (r.ents x).situation = (acc.ents x).situation ∧
          (r.ents x).kind = (acc.ents x).kind ∧
          (r.ents x).inventory = (acc.ents x).inventory ∧
          (r.ents x).color = (acc.ents x).color) := by
  intro l
  induction l with
  | nil =>
    intro acc
    exact ⟨acc, rfl, rfl, rfl, rfl, rfl, rfl, rfl, rfl, rfl, rfl, fun x => ⟨rfl, rfl, rfl, rfl⟩⟩
  | cons a rest ih =>
    intro acc
    obtain ⟨r, hr, h1, h2, h3, h4, h5, h6, h7, h8, h9, h10⟩ := ih (acc.setActed a false)
    refine ⟨r, by rw [List.foldl_cons]; exact hr, h1, h2, h3, h4, h5, h6, h7, h8, h9, ?_⟩
    intro x
    obtain ⟨k1, k2, k3, k4⟩ := h10 x
    refine ⟨?_, ?_, ?_, ?_⟩
    · rw [k1, World.setActed_ents_situation]
    · rw [k2, World.setActed_ents_kind]
    · rw [k3, World.setActed_ents_inventory]
    · rw [k4]
      by_cases hx : x = a <;> simp [hx]

theorem resetActed_spec (w : World) :
    ∃ r, World.resetActed w = r ∧
      r.sits = w.sits ∧ r.dict = w.dict ∧ r.size = w.size ∧
      r.heroId = w.heroId ∧ r.treasureId = w.treasureId ∧
      r.registry = w.registry ∧ r.nextSit = w.nextSit ∧
      r.rand = w.rand ∧ r.rk = w.rk ∧
      (∀ x, (r.ents x).situation = (w.ents x).situation ∧
        (r.ents x).kind = (w.ents x).kind ∧
        (r.ents x).inventory = (w.ents x).inventory ∧
        (r.ents x).color = (w.ents x).color) :=
  reset_fold_spec w.registry w

theorem GInv_resyncInventory {w : World} (hG : GInv w) : GInv (World.resyncInventory w) := by
  obtain ⟨r, hr, h1, h2, h3, h4, h5, h6, h7, h8, h9, h10, h11, h12, h13⟩ :=
    resyncInventory_spec w
  rw [hr]
  have hkind : ∀ x, (r.ents x).kind = (w.ents x).kind := fun x => (h13 x).1
  refine ⟨?_, ?_, ?_, ?_, ?_, ?_, ?_, ?_, ?_, ?_, ?_, ?_, ?_⟩
  · rw [h3]; exact hG.sizePos
  · intro c hc
    rw [h3] at hc
    obtain ⟨s, lt, k1, k2, k3⟩ := hG.cubeKeys c hc
    exact ⟨s, lt, by rw [h2]; exact k1, by rw [h1]; exact k2, by rw [h1]; exact k3⟩
  · intro c s c2 k1 k2
    rw [h2] at k1
    rw [h1] at k2
    rw [h3]
    exact hG.dictLocOK c s c2 k1 k2
  · intro c n k1
    rw [h2] at k1
    rw [h7]
    exact hG.dictFresh c n k1
  · intro x n k1
    rw [h7]
    by_cases hx : x ∈ (w.ents w.heroId).inventory
    · rw [h12 x hx] at k1
      exact hG.entFresh w.heroId n k1
    · rw [h11 x hx] at k1
      exact hG.entFresh x n k1
  · rw [h4, h10]
    exact hG.heroKind
  · intro x hk
    rw [hkind] at hk
    rw [h4]
    exact hG.heroUnique x hk
  · rw [h5, hkind]
    exact hG.treasureKind
  · rw [h4]
    exact ExclusivelyPlaced_of_eq h1 (by rw [h10]) hG.heroSync
  · intro x hk
    rw [hkind] at hk
    have hx : x ∉ (w.ents w.heroId).inventory := fun hc => (hG.invKinds x hc).2 hk
    exact ExclusivelyPlaced_of_eq h1 (by rw [h11 x hx]) (hG.dbSync x hk)
  · intro s c k1 k2
    rw [h4, h10] at k1
    rw [h1] at k2
    rw [h3]
    exact hG.heroLoc s c k1 k2
  · intro x s hk k1
    rw [hkind] at hk
    have hx : x ∉ (w.ents w.heroId).inventory := fun hc => (hG.invKinds x hc).2 hk
    rw [h11 x hx] at k1
    rw [h3]
    obtain ⟨c, hc1, hc2⟩ := hG.dbLoc x s hk k1
    exact ⟨c, by rw [h1]; exact hc1, hc2⟩
  · intro x hx
    rw [h4, h10] at hx
    have hx1 := hG.invKinds x hx
    exact ⟨by rw [hkind]; exact hx1.1, by rw [hkind]; exact hx1.2⟩

theorem GInv_resetActed {w : World} (hG : GInv w) : GInv (World.resetActed w) := by
  obtain ⟨r, hr, h1, h2, h3, h4, h5, h6, h7, h8, h9, h10⟩ := resetActed_spec w
  rw [hr]
  have hkind : ∀ x, (r.ents x).kind = (w.ents x).kind := fun x => (h10 x).2.1
  have hsit : ∀ x, (r.ents x).situation = (w.ents x).situation := fun x => (h10 x).1
  refine ⟨?_, ?_, ?_, ?_, ?_, ?_, ?_, ?_, ?_, ?_, ?_, ?_, ?_⟩
  · rw [h3]; exact hG.sizePos
  · intro c hc
    rw [h3] at hc
    obtain ⟨s, lt, k1, k2, k3⟩ := hG.cubeKeys c hc
    exact ⟨s, lt, by rw [h2]; exact k1, by rw [h1]; exact k2, by rw [h1]; exact k3⟩
  · intro c s c2 k1 k2
    rw [h2] at k1
    rw [h1] at k2
    rw [h3]
    exact hG.dictLocOK c s c2 k1 k2
  · intro c n k1
    rw [h2] at k1
    rw [h7]
    exact hG.dictFresh c n k1
  · intro x n k1
    rw [hsit] at k1
    rw [h7]
    exact hG.entFresh x n k1
  · rw [h4, hkind]
    exact hG.heroKind
  · intro x hk
    rw [hkind] at hk
    rw [h4]
    exact hG.heroUnique x hk
  · rw [h5, hkind]
    exact hG.treasureKind
  · rw [h4]
    exact ExclusivelyPlaced_of_eq h1 (hsit w.heroId) hG.heroSync
  · intro x hk
    rw [hkind] at hk
    exact ExclusivelyPlaced_of_eq h1 (hsit x) (hG.dbSync x hk)
  · intro s c k1 k2
    rw [h4, hsit] at k1
    rw [h1] at k2
    rw [h3]
    exact hG.heroLoc s c k1 k2
  · intro x s hk k1
    rw [hkind] at hk
    rw [hsit] at k1
    rw [h3]
    obtain ⟨c, hc1, hc2⟩ := hG.dbLoc x s hk k1
    exact ⟨c, by rw [h1]; exact hc1, hc2⟩
  · intro x hx
    rw [h4, (h10 w.heroId).2.2.1] at hx
    have hx1 := hG.invKinds x hx
    exact ⟨by rw [hkind]; exact hx1.1, by rw [hkind]; exact hx1.2⟩

theorem updateTail_false {w3 : World} (h : Victory.achieved w3 = some false) :
    World.updateTail w3 = some (World.resetActed w3) := by
  unfold World.updateTail
  rw [h]
  rfl

theorem updateTail_true_eq (w3 : World) (h : Victory.achieved w3 = some true) :
    World.updateTail w3 =
      (Situation.add { (w3.allocTerm (SitKind.victory "You escaped with the treasure.")).2 with
          dict := dictSet
            (w3.allocTerm (SitKind.victory "You escaped with the treasure.")).2.dict
            (-1, -1, -1) (SitId.term w3.nextSit) }
        (SitId.term w3.nextSit) w3.heroId).bind (fun w4 => some w4.resetActed) := by
  unfold World.updateTail
  rw [h]
  rfl

theorem updateTail_true {w3 : World} (hG3 : GInv w3)
    (h : Victory.achieved w3 = some true) :
    ∃ w', World.updateTail w3 = some w' ∧ GInv w' ∧
      (w'.ents w3.heroId).situation = some (SitId.term w3.nextSit) ∧
      (w'.sits (SitId.term w3.nextSit)).kind =
        SitKind.victory "You escaped with the treasure." := by
  have hGN : GInv (w3.allocTerm (SitKind.victory "You escaped with the treasure.")).2 :=
    GInv_allocTerm hG3 _
  have hGv : GInv { (w3.allocTerm (SitKind.victory "You escaped with the treasure.")).2 with
      dict := dictSet (w3.allocTerm (SitKind.victory "You escaped with the treasure.")).2.dict
        (-1, -1, -1) (SitId.term w3.nextSit) } := by
    refine GInv_dictSet_sentinel hGN w3.nextSit ?_ ?_
    · simp
    · simp
  obtain ⟨wb, hwb⟩ := Situation.add_succeeds (s := SitId.term w3.nextSit) (e := w3.heroId)
    hGv.heroSync
  have hGb : GInv wb := by
    refine GInv_add hGv hwb (Or.inl rfl) ?_ ?_ ?_
    · intro n hn
      injection hn with hn
      show n < w3.nextSit + 1
      omega
    · intro c hc
      simp at hc
    · intro hk
      have hh := hGv.heroKind
      rw [show ({ (w3.allocTerm (SitKind.victory "You escaped with the treasure.")).2 with
        dict := dictSet (w3.allocTerm (SitKind.victory "You escaped with the treasure.")).2.dict
          (-1, -1, -1) (SitId.term w3.nextSit) } : World).heroId = w3.heroId from rfl] at hh
      rw [hh] at hk
      exact EKind.noConfusion hk
  obtain ⟨r, hr, k1, k2, k3, k4, k5, k6, k7, k8, k9, k10⟩ := resetActed_spec wb
  refine ⟨r, ?_, by rw [← hr]; exact GInv_resetActed hGb, ?_, ?_⟩
  · rw [updateTail_true_eq w3 h, hwb]
    simp only [Option.bind_eq_bind, Option.some_bind]
    rw [hr]
  · rw [(k10 w3.heroId).1]
    show (wb.ents w3.heroId).situation = some (SitId.term w3.nextSit)
    rw [Situation.add_ents_self hwb]
  · rw [k1]
    show (wb.sits (SitId.term w3.nextSit)).kind = _
    rw [Situation.add_sits_kind hwb]
    simp

theorem Excl_mem_iff {w : World} {e : EId} {s : SitId} (hx : ExclusivelyPlaced w e)
    (hs : (w.ents e).situation = some s) :
    ∀ t, e ∈ (w.sits t).contents ↔ t = s := by
  intro t
  constructor
  · intro hmem
    by_contra hne
    have h0 := (hx.1 s hs).2 t hne
    have h1 := List.count_pos_iff.mpr hmem
    omega
  · intro ht
    subst ht
    have h1 := (hx.1 t hs).1
    exact List.count_pos_iff.mp (by omega)

theorem db_sit_of_mem {v : World} {e : EId} {r : SitId} (hG : GInv v)
    (hk : (v.ents e).kind = EKind.deathBall) (hmem : e ∈ (v.sits r).contents) :
    (v.ents e).situation = some r := by
  have hx := hG.dbSync e hk
  cases hsv : (v.ents e).situation with
  | none =>
    have h0 := hx.2 hsv r
    have h1 := List.count_pos_iff.mpr hmem
    omega
  | some r2 =>
    have heq : r = r2 := (Excl_mem_iff hx hsv r).mp hmem
    rw [heq]

theorem origin_inCube {n : Nat} (h : 0 < n) : inCube n (0, 0, 0) := by
  simp only [inCube]
  refine ⟨le_refl 0, ?_, le_refl 0, ?_, le_refl 0, ?_⟩ <;> exact_mod_cast h

theorem move_branch_some {v : World} {e : EId} (hG : GInv v)
    (hke : (v.ents e).kind = EKind.deathBall) (tgt : Coord)
    (htgt : inCube v.size tgt) :
    ∃ u, (match dictLookup ({ v with rk := v.rk + 1 } : World).dict tgt with
      | some s => Situation.add { v with rk := v.rk + 1 } s e
      | none => none) = some u := by
  obtain ⟨s2, lt, hl2, _, _⟩ := hG.cubeKeys tgt htgt
  rw [show ({ v with rk := v.rk + 1 } : World).dict = v.dict from rfl, hl2]
  exact Situation.add_succeeds (hG.dbSync e hke)

theorem DeathBall.act_succeeds {v : World} {e : EId} {r : SitId} (hG : GInv v)
    (hk : (v.ents e).kind = EKind.deathBall) (hmem : e ∈ (v.sits r).contents) :
    ∃ v', DeathBall.act v e = some v' := by
  by_cases hacted : (v.ents e).acted = true
  · exact ⟨v, by rw [DeathBall.act, if_pos hacted]⟩
  · have hsit : (v.ents e).situation = some r := db_sit_of_mem hG hk hmem
    have hmove : ∃ vm, DeathBall.move v e = some vm := by
      rw [DeathBall.move, hsit]
      simp only [Option.bind_eq_bind, Option.some_bind]
      by_cases hcon : Situation.contains v r v.heroId
      · rw [if_pos hcon]
        obtain ⟨wk, hwk, _⟩ := World.killHero_spec hG ((v.ents e).color)
        exact ⟨wk, hwk⟩
      · rw [if_neg hcon]
        obtain ⟨c, hc1, hc2⟩ := hG.dbLoc e r hk hsit
        obtain ⟨x, y, z⟩ := c
        have hgl : Entity.get_location v e = (x, y, z) := by
          simp only [Entity.get_location, hsit, hc1]
        rw [hgl]
        simp only [World.draw]
        obtain ⟨b1, b2, b3, b4, b5, b6⟩ := hc2
        simp only at b1 b2 b3 b4 b5 b6
        by_cases hd0 : v.rand v.rk % 6 = 0
        · rw [if_pos hd0]
          by_cases hy : (1 : Int) ≤ y
          · rw [if_pos hy]
            exact move_branch_some hG hk (x, y - 1, z) (by unfold inCube; dsimp only; omega)
          · rw [if_neg hy]
            exact ⟨_, rfl⟩
        · rw [if_neg hd0]
          by_cases hd1 : v.rand v.rk % 6 = 1
          · rw [if_pos hd1]
            by_cases hx1 : x < (v.size : Int) - 1
            · rw [if_pos hx1]
              exact move_branch_some hG hk (x + 1, y, z) (by unfold inCube; dsimp only; omega)
            · rw [if_neg hx1]
              exact ⟨_, rfl⟩
          · rw [if_neg hd1]
            by_cases hd2 : v.rand v.rk % 6 = 2
            · rw [if_pos hd2]
              by_cases hy : y < (v.size : Int) - 1
              · rw [if_pos hy]
                exact move_branch_some hG hk (x, y + 1, z) (by unfold inCube; dsimp only; omega)
              · rw [if_neg hy]
                exact ⟨_, rfl⟩
            · rw [if_neg hd2]
              by_cases hd3 : v.rand v.rk % 6 = 3
              · rw [if_pos hd3]
                by_cases hx1 : (1 : Int) ≤ x
                · rw [if_pos hx1]
                  exact move_branch_some hG hk (x - 1, y, z) (by unfold inCube; dsimp only; omega)
                · rw [if_neg hx1]
                  exact ⟨_, rfl⟩
              · rw [if_neg hd3]
                by_cases hd4 : v.rand v.rk % 6 = 4
                · rw [if_pos hd4]
                  by_cases hz : z < (v.size : Int) - 1
                  · rw [if_pos hz]
                    exact move_branch_some hG hk (x, y, z + 1) (by unfold inCube; dsimp only; omega)
                  · rw [if_neg hz]
                    exact ⟨_, rfl⟩
                · rw [if_neg hd4]
                  by_cases hz : (1 : Int) ≤ z
                  · rw [if_pos hz]
                    exact move_branch_some hG hk (x, y, z - 1) (by unfold inCube; dsimp only; omega)
                  · rw [if_neg hz]
                    exact ⟨_, rfl⟩
    obtain ⟨vm, hmv⟩ := hmove
    refine ⟨vm.setActed e true, ?_⟩
    rw [DeathBall.act, if_neg hacted, hmv]
    rfl

theorem DeathBall.act_frames {v : World} {e : EId} {v' : World} (hG : GInv v)
    (hk : (v.ents e).kind = EKind.deathBall) (h : DeathBall.act v e = some v') :
    v'.size = v.size ∧ v'.heroId = v.heroId ∧ v'.treasureId = v.treasureId ∧
    v'.registry = v.registry := by
  rcases DeathBall.act_cases h with ⟨_, rfl⟩ | ⟨_, vm, hmv, rfl⟩
  · exact ⟨rfl, rfl, rfl, rfl⟩
  · have hfr : vm.size = v.size ∧ vm.heroId = v.heroId ∧ vm.treasureId = v.treasureId ∧
        vm.registry = v.registry := by
      rcases DeathBall.move_cases hmv with ⟨room, hsit, hcon, hkill⟩ | ⟨room, hsit, hcon, rfl⟩ |
        ⟨room, tgt, s, hsit, hcon, hlk2, hadd, hbound⟩
      · obtain ⟨wk, hwk, _, _, _, _, _, _, _, _, _, _, q1, q2, q3, q4, _⟩ :=
          World.killHero_spec hG ((v.ents e).color)
        rw [hkill] at hwk
        obtain rfl := Option.some_inj.mp hwk
        exact ⟨q1, q2, q3, q4⟩
      · exact ⟨rfl, rfl, rfl, rfl⟩
      · obtain ⟨_, q1, q2, q3, q4, _⟩ := Situation.add_frames hadd
        exact ⟨q1, q2, q3, q4⟩
    exact ⟨hfr.1, hfr.2.1, hfr.2.2.1, hfr.2.2.2⟩

theorem actLoop_ok (N : Nat) :
    ∀ (fuel : Nat) (v : World) (s : SitId) (i : Nat), GInv v → v.size = N →
      ∃ v', World.actLoop v s i fuel = some v' ∧ GInv v' ∧ v'.size = N := by
  intro fuel
  induction fuel with
  | zero =>
    intro v s i hG hN
    exact ⟨v, by rw [World.actLoop], hG, hN⟩
  | succ n ih =>
    intro v s i hG hN
    by_cases hlt : i < ((v.sits s).contents).length
    · by_cases hkind : (v.ents (((v.sits s).contents).get ⟨i, hlt⟩)).kind = EKind.deathBall
      · obtain ⟨v1, hact⟩ := DeathBall.act_succeeds (r := s) hG hkind
          (List.get_mem ((v.sits s).contents) i hlt)
        have hG1 : GInv v1 := GInv_act hG hkind hact
        have hN1 : v1.size = N := by
          rw [(DeathBall.act_frames hG hkind hact).1, hN]
        obtain ⟨v', hv', hG', hN'⟩ := ih v1 s (i + 1) hG1 hN1
        refine ⟨v', ?_, hG', hN'⟩
        rw [World.actLoop, dif_pos hlt, if_pos hkind, hact]
        exact hv'
      · obtain ⟨v', hv', hG', hN'⟩ := ih v s (i + 1) hG hN
        refine ⟨v', ?_, hG', hN'⟩
        rw [World.actLoop, dif_pos hlt, if_neg hkind]
        exact hv'
    · exact ⟨v, by rw [World.actLoop, dif_neg hlt], hG, hN⟩

theorem move_deathballs_ok {v : World} (hG : GInv v) :
    ∃ v', World.move_deathballs v = some v' ∧ GInv v' := by
  rw [World.move_deathballs]
  have key : ∀ (l : List Coord), (∀ c ∈ l, inCube v.size c) →
      ∀ (u : World), GInv u → u.size = v.size →
      ∃ u', (l.foldlM (fun acc c =>
        match dictLookup acc.dict c with
        | some room => World.actLoop acc room 0 (((acc.sits room).contents).length)
        | none => none) u) = some u' ∧ GInv u' ∧ u'.size = v.size := by
    intro l
    induction l with
    | nil =>
      intro _ u hGu hNu
      exact ⟨u, rfl, hGu, hNu⟩
    | cons c rest ih =>
      intro hcl u hGu hNu
      have hc : inCube u.size c := by
        rw [hNu]
        exact hcl c (List.mem_cons_self c rest)
      obtain ⟨room, lt, hl, _, _⟩ := hGu.cubeKeys c hc
      obtain ⟨u1, hu1, hGu1, hNu1⟩ := actLoop_ok v.size (((u.sits room).contents).length)
        u room 0 hGu hNu
      obtain ⟨u', hu', hGu', hNu'⟩ := ih (fun c2 hc2 => hcl c2 (List.mem_cons_of_mem c hc2))
        u1 hGu1 hNu1
      refine ⟨u', ?_, hGu', hNu'⟩
      rw [List.foldlM_cons, hl]
      rw [show (match some room with
        | some room => World.actLoop u room 0 (((u.sits room).contents).length)
        | none => none) = World.actLoop u room 0 (((u.sits room).contents).length) from rfl]
      rw [hu1]
      simp only [Option.bind_eq_bind, Option.some_bind]
      exact hu'
  exact (key (cubeCoords v.size) (fun c hc => (mem_cubeCoords v.size c).mp hc) v hG rfl).imp
    (fun v' hv' => ⟨hv'.1, hv'.2.1⟩)

theorem World.update_eq_of {w : World} {sid : SitId} {loc : Coord} {sd : SitId}
    (hsid : (w.ents w.heroId).situation = some sid)
    (hloc : (w.sits sid).coordinate = some loc)
    (hlk : dictLookup w.dict loc = some sd) :
    World.update w =
      ((match Situation.get_entities w sd EKind.deathBall with
        | [] => some w
        | d :: _ => World.killHero w ((w.ents d).color)).bind fun w1 =>
        (World.move_deathballs w1).bind fun w2 =>
          World.updateTail (World.resyncInventory w2)) := by
  unfold World.update
  rw [hsid]
  simp only [Option.bind_eq_bind, Option.some_bind]
  rw [hloc]
  simp only [Option.some_bind]
  rw [hlk]
  simp only [Option.some_bind]
  cases Situation.get_entities w sd EKind.deathBall <;> rfl

theorem contains_type_hero_iff {w3 : World} (hG3 : GInv w3) {σ : SitId}
    (hsit : (w3.ents w3.heroId).situation = some σ) (r0 : SitId) :
    Situation.contains_type w3 r0 EKind.hero = true ↔ r0 = σ := by
  rw [Situation.contains_type, List.any_eq_true]
  constructor
  · rintro ⟨e, hmem, he⟩
    have he2 : e = w3.heroId := hG3.heroUnique e (by simpa using he)
    subst he2
    exact (Excl_mem_iff hG3.heroSync hsit r0).mp hmem
  · intro h
    exact ⟨w3.heroId, (Excl_mem_iff hG3.heroSync hsit r0).mpr h, by simp [hG3.heroKind]⟩

theorem achieved_spec {w3 : World} (hG3 : GInv w3) {σ : SitId}
    (hsit : (w3.ents w3.heroId).situation = some σ) {r0 : SitId}
    (hl0 : dictLookup w3.dict (0, 0, 0) = some r0) :
    Victory.achieved w3 = some (decide (r0 = σ) &&
      decide (w3.treasureId ∈ (w3.ents w3.heroId).inventory)) := by
  rw [Victory.achieved, hl0]
  dsimp only
  by_cases hr : r0 = σ
  · rw [if_pos ((contains_type_hero_iff hG3 hsit r0).mpr hr)]
    simp [hr]
  · rw [if_neg (fun hct => hr ((contains_type_hero_iff hG3 hsit r0).mp hct))]
    simp [hr]

/-- **C1 (amended).** If the dictionary room at the hero's coordinate contains
a hazard at the start of `World.update`, the turn ends in the terminal dead
state: the hero is relocated into a fresh `Death` situation whose reason
names the first such hazard's color.  The inventory re-synchronization step
is **not** skipped: it still runs and re-points every inventory item's
situation at the `Death` situation. -/
theorem C1_colocated_hazard_kills (w : World) (hG : GInv w) (sid : SitId) (loc : Coord)
    (sd : SitId) (d : EId) (ds : List EId)
    (hsid : (w.ents w.heroId).situation = some sid)
    (hloc : (w.sits sid).coordinate = some loc)
    (hlk : dictLookup w.dict loc = some sd)
    (hdbs : Situation.get_entities w sd EKind.deathBall = d :: ds) :
    ∃ w', World.update w = some w' ∧ GInv w' ∧
      (w'.ents w.heroId).situation = some (SitId.term w.nextSit) ∧
      (w'.sits (SitId.term w.nextSit)).kind =
        SitKind.death (killReason ((w.ents d).color)) ∧
      (∀ it, it ∈ (w.ents w.heroId).inventory →
        (w'.ents it).situation = some (SitId.term w.nextSit)) := by
  obtain ⟨w1, hk1, hG1, j1, j2, j3, j4, j5, j6, j7, j8, j9, j10, j11, j12, j13, j14, j15,
    j16⟩ := World.killHero_spec hG ((w.ents d).color)
  have hherokind : (w.ents w.heroId).kind = EKind.hero := hG.heroKind
  -- the invariant carried through the hazard-movement loop
  have hstep : ∀ v e v',
      (GInv v ∧ v.heroId = w.heroId ∧
        (v.ents w.heroId).situation = some (SitId.term w.nextSit) ∧
        (v.sits (SitId.term w.nextSit)).kind =
          SitKind.death (killReason ((w.ents d).color)) ∧
        (v.ents w.heroId).inventory = (w.ents w.heroId).inventory ∧
        (∀ e2, (v.ents e2).kind = EKind.deathBall →
          (v.ents e2).situation ≠ some (SitId.term w.nextSit))) →
      (v.ents e).kind = EKind.deathBall → DeathBall.act v e = some v' →
      (GInv v' ∧ v'.heroId = w.heroId ∧
        (v'.ents w.heroId).situation = some (SitId.term w.nextSit) ∧
        (v'.sits (SitId.term w.nextSit)).kind =
          SitKind.death (killReason ((w.ents d).color)) ∧
        (v'.ents w.heroId).inventory = (w.ents w.heroId).inventory ∧
        (∀ e2, (v'.ents e2).kind = EKind.deathBall →
          (v'.ents e2).situation ≠ some (SitId.term w.nextSit))) := by
    intro v e v' hIv hke hact
    obtain ⟨hGv, hvh, hvs, hvk, hvi, hvn⟩ := hIv
    have hGv' : GInv v' := GInv_act hGv hke hact
    have hedb : e ≠ w.heroId := by
      intro hcon
      have hh := hGv.heroKind
      rw [hvh, ← hcon] at hh
      rw [hh] at hke
      exact EKind.noConfusion hke
    rcases DeathBall.act_cases hact with ⟨_, rfl⟩ | ⟨hacted, vm, hmv, rfl⟩
    · exact ⟨hGv, hvh, hvs, hvk, hvi, hvn⟩
    · rcases DeathBall.move_cases hmv with ⟨room, hsit, hcon, hkill⟩ |
        ⟨room, hsit, hcon, rfl⟩ | ⟨room, tgt, s, hsit, hcon, hlk2, hadd, hbound⟩
      · exfalso
        have hmem : v.heroId ∈ (v.sits room).contents := by
          simpa [Situation.contains] using hcon
        have hsv : (v.ents v.heroId).situation = some (SitId.term w.nextSit) := by
          rw [hvh]
          exact hvs
        have hroom : room = SitId.term w.nextSit :=
          (Excl_mem_iff hGv.heroSync hsv room).mp hmem
        rw [hroom] at hsit
        exact hvn e hke hsit
      · refine ⟨hGv', hvh, ?_, hvk, ?_, ?_⟩
        · rw [World.setActed_ents_situation]
          exact hvs
        · rw [World.setActed_ents_inventory]
          exact hvi
        · intro e2 hk2
          rw [World.setActed_ents_kind] at hk2
          rw [World.setActed_ents_situation]
          exact hvn e2 hk2
      · -- the ball moved into a cube room `s`
        obtain ⟨c, hc1, hc2⟩ := hGv.dbLoc e room hke hsit
        have hgl : Entity.get_location v e = c := by
          simp only [Entity.get_location, hsit, hc1]
        have htgt : inCube v.size tgt := hbound (by rw [hgl]; exact hc2)
        obtain ⟨s2, lt2, hl2, hco2, hk2⟩ := hGv.cubeKeys tgt htgt
        rw [hlk2] at hl2
        obtain rfl := Option.some_inj.mp hl2
        have hsne : s ≠ SitId.term w.nextSit := by
          intro hcon2
          rw [hcon2, hvk] at hk2
          exact SitKind.noConfusion hk2
        refine ⟨hGv', ?_, ?_, ?_, ?_, ?_⟩
        · rw [show (vm.setActed e true).heroId = vm.heroId from rfl,
            (Situation.add_frames hadd).2.2.1]
          exact hvh
        · rw [World.setActed_ents_situation, Situation.add_ents_ne hadd _ (Ne.symm hedb)]
          exact hvs
        · rw [show (vm.setActed e true).sits = vm.sits from rfl,
            Situation.add_sits_kind hadd]
          exact hvk
        · rw [World.setActed_ents_inventory,
            (Situation.add_ents_fields hadd w.heroId).2.2.1]
          exact hvi
        · intro e2 hk2b
          rw [World.setActed_ents_kind] at hk2b
          rw [World.setActed_ents_situation]
          by_cases he2 : e2 = e
          · subst he2
            rw [Situation.add_ents_self hadd]
            simp only
            intro hcon2
            exact hsne (Option.some_inj.mp hcon2)
          · rw [Situation.add_ents_ne hadd _ he2] at hk2b ⊢
            exact hvn e2 hk2b
  have hI1 : GInv w1 ∧ w1.heroId = w.heroId ∧
      (w1.ents w.heroId).situation = some (SitId.term w.nextSit) ∧
      (w1.sits (SitId.term w.nextSit)).kind =
        SitKind.death (killReason ((w.ents d).color)) ∧
      (w1.ents w.heroId).inventory = (w.ents w.heroId).inventory ∧
      (∀ e2, (w1.ents e2).kind = EKind.deathBall →
        (w1.ents e2).situation ≠ some (SitId.term w.nextSit)) := by
    refine ⟨hG1, j11, j1, j2, j5, ?_⟩
    intro e2 hk2 hcon
    by_cases he2 : e2 = w.heroId
    · subst he2
      rw [j4, hherokind] at hk2
      exact EKind.noConfusion hk2
    · rw [j3 e2 he2] at hk2 hcon
      have := hG.entFresh e2 w.nextSit hcon
      omega
  obtain ⟨w2, hw2, hGw2⟩ := move_deathballs_ok hG1
  have hI2 := move_deathballs_inv _ hstep hI1 hw2
  obtain ⟨hG2, hi1, hi2, hi3, hi4, hi5⟩ := hI2
  obtain ⟨w3, hw3, r1, r2, r3, r4, r5, r6, r7, r8, r9, r10, r11, r12, r13⟩ :=
    resyncInventory_spec w2
  have hG3 : GInv w3 := by
    rw [← hw3]
    exact GInv_resyncInventory hG2
  have hsit3 : (w3.ents w3.heroId).situation = some (SitId.term w.nextSit) := by
    have r10a := r10
    rw [hi1] at r10a
    rw [r4, hi1, r10a]
    exact hi2
  obtain ⟨r0, lt0, hl0, hcoord0, hkind0⟩ := hG3.cubeKeys (0, 0, 0)
    (origin_inCube hG3.sizePos)
  have hr0ne : r0 ≠ SitId.term w.nextSit := by
    intro hcon
    rw [hcon] at hkind0
    have hk3 : (w3.sits (SitId.term w.nextSit)).kind =
        SitKind.death (killReason ((w.ents d).color)) := by
      rw [r1]
      exact hi3
    rw [hk3] at hkind0
    exact SitKind.noConfusion hkind0
  have hfalse : Victory.achieved w3 = some false := by
    rw [achieved_spec hG3 hsit3 hl0]
    simp [hr0ne]
  obtain ⟨wf, hwf, f1, f2, f3, f4, f5, f6, f7, f8, f9, f10⟩ := resetActed_spec w3
  refine ⟨wf, ?_, ?_, ?_, ?_, ?_⟩
  · rw [World.update_eq_of hsid hloc hlk, hdbs]
    rw [show (match d :: ds with
      | [] => some w
      | d :: _ => World.killHero w ((w.ents d).color)) =
        World.killHero w ((w.ents d).color) from rfl]
    rw [hk1]
    simp only [Option.bind_eq_bind, Option.some_bind]
    rw [hw2]
    simp only [Option.some_bind]
    rw [hw3, updateTail_false hfalse, hwf]
  · rw [← hwf]
    exact GInv_resetActed hG3
  · rw [(f10 w.heroId).1]
    rw [r4, hi1] at hsit3
    exact hsit3
  · rw [f1, r1]
    exact hi3
  · intro it hit
    rw [(f10 it).1]
    have hit2 : it ∈ (w2.ents w2.heroId).inventory := by
      rw [hi1, hi4]
      exact hit
    have := r12 it hit2
    rw [this]
    rw [hi1]
    exact hi2

/-! ## The invariant at the concrete states -/

theorem inCube_size_one {c : Coord} (h : inCube 1 c) : c = (0, 0, 0) := by
  obtain ⟨x, y, z⟩ := c
  unfold inCube at h
  dsimp only at h
  have hx : x = 0 := by omega
  have hy : y = 0 := by omega
  have hz : z = 0 := by omega
  subst hx
  subst hy
  subst hz
  rfl

theorem ExclusivelyPlaced_WA_ball : ExclusivelyPlaced WA 1 := by
  constructor
  · intro s hs
    have hse : s = SitId.loc (0, 0, 0) := by
      have h0 : (WA.ents 1).situation = some (SitId.loc (0, 0, 0)) := by
        simp [WA, defaultEntity]
      rw [h0] at hs
      exact (Option.some_inj.mp hs).symm
    subst hse
    constructor
    · simp [WA, plainRoom]
    · intro t ht
      simp [WA, plainRoom, emptySit, ht, -Prod.mk_zero_zero]
  · intro hn
    simp [WA, defaultEntity] at hn

theorem GInv_WA : GInv WA := by
  refine ⟨?_, ?_, ?_, ?_, ?_, ?_, ?_, ?_, ExclusivelyPlaced_WA_hero, ?_, ?_, ?_, ?_⟩
  · decide
  · intro c hc
    have hc1 : inCube 1 c := hc
    obtain rfl := inCube_size_one hc1
    refine ⟨SitId.loc (0, 0, 0), "dungeon room", ?_, ?_, ?_⟩
    · decide
    · simp [WA, plainRoom]
    · simp [WA, plainRoom]
  · intro c s c2 h1 h2
    rw [show WA.dict = cubeDict 1 from rfl, dictLookup_cubeDict] at h1
    by_cases hc : inCube 1 c
    · rw [if_pos hc] at h1
      obtain rfl := Option.some_inj.mp h1
      obtain rfl := inCube_size_one hc
      have hco : (WA.sits (SitId.loc (0, 0, 0))).coordinate = some (0, 0, 0) := by
        simp [WA, plainRoom]
      rw [hco] at h2
      obtain rfl := Option.some_inj.mp h2
      decide
    · rw [if_neg hc] at h1
      exact Option.noConfusion h1
  · intro c n h1
    rw [show WA.dict = cubeDict 1 from rfl, dictLookup_cubeDict] at h1
    by_cases hc : inCube 1 c
    · rw [if_pos hc] at h1
      exact SitId.noConfusion (Option.some_inj.mp h1)
    · rw [if_neg hc] at h1
      exact Option.noConfusion h1
  · intro e n h1
    by_cases h0 : e = 0
    · rw [h0] at h1
      simp [WA, heroEnt] at h1
    by_cases he1 : e = 1
    · rw [he1] at h1
      simp [WA, defaultEntity] at h1
    by_cases he2 : e = 2
    · rw [he2] at h1
      simp [WA, defaultEntity] at h1
    · simp [WA, h0, he1, he2, defaultEntity] at h1
  · decide
  · intro e hk
    by_cases h0 : e = 0
    · exact h0
    exfalso
    by_cases he1 : e = 1
    · rw [he1] at hk
      simp [WA, defaultEntity] at hk
    by_cases he2 : e = 2
    · rw [he2] at hk
      simp [WA, defaultEntity] at hk
    · simp [WA, h0, he1, he2, defaultEntity] at hk
  · decide
  · intro e hk
    by_cases h0 : e = 0
    · rw [h0] at hk
      simp [WA, heroEnt] at hk
    by_cases he1 : e = 1
    · rw [he1]
      exact ExclusivelyPlaced_WA_ball
    by_cases he2 : e = 2
    · rw [he2] at hk
      simp [WA, defaultEntity] at hk
    · simp [WA, h0, he1, he2, defaultEntity] at hk
  · intro s c h1 h2
    have h0 : (WA.ents WA.heroId).situation = some (SitId.loc (0, 0, 0)) := by
      simp [WA, heroEnt]
    rw [h0] at h1
    obtain rfl := Option.some_inj.mp h1
    have hco : (WA.sits (SitId.loc (0, 0, 0))).coordinate = some (0, 0, 0) := by
      simp [WA, plainRoom]
    rw [hco] at h2
    obtain rfl := Option.some_inj.mp h2
    decide
  · intro e s hk h1
    by_cases h0 : e = 0
    · rw [h0] at hk
      simp [WA, heroEnt] at hk
    by_cases he1 : e = 1
    · rw [he1] at h1
      have hs1 : (WA.ents 1).situation = some (SitId.loc (0, 0, 0)) := by
        simp [WA, defaultEntity]
      rw [hs1] at h1
      obtain rfl := Option.some_inj.mp h1
      refine ⟨(0, 0, 0), ?_, by decide⟩
      simp [WA, plainRoom]
    by_cases he2 : e = 2
    · rw [he2] at hk
      simp [WA, defaultEntity] at hk
    · simp [WA, h0, he1, he2, defaultEntity] at hk
  · intro e he
    have hi : (WA.ents WA.heroId).inventory = [2] := by simp [WA, heroEnt]
    rw [hi] at he
    have h2 : e = 2 := by simpa using he
    rw [h2]
    exact ⟨by decide, by decide⟩

theorem ExclusivelyPlaced_WC_hero : ExclusivelyPlaced WC 0 := by
  constructor
  · intro s hs
    have hse : s = SitId.loc (0, 0, 0) := by
      have h0 : (WC.ents 0).situation = some (SitId.loc (0, 0, 0)) := by
        simp [WC, heroEnt]
      rw [h0] at hs
      exact (Option.some_inj.mp hs).symm
    subst hse
    constructor
    · simp [WC, plainRoom]
    · intro t ht
      simp [WC, plainRoom, emptySit, ht, -Prod.mk_zero_zero]
  · intro hn
    simp [WC, heroEnt] at hn

theorem GInv_WC : GInv WC := by
  refine ⟨?_, ?_, ?_, ?_, ?_, ?_, ?_, ?_, ExclusivelyPlaced_WC_hero, ?_, ?_, ?_, ?_⟩
  · decide
  · intro c hc
    have hc1 : inCube 1 c := hc
    obtain rfl := inCube_size_one hc1
    refine ⟨SitId.loc (0, 0, 0), "dungeon room", ?_, ?_, ?_⟩
    · decide
    · simp [WC, plainRoom]
    · simp [WC, plainRoom]
  · intro c s c2 h1 h2
    rw [show WC.dict = cubeDict 1 from rfl, dictLookup_cubeDict] at h1
    by_cases hc : inCube 1 c
    · rw [if_pos hc] at h1
      obtain rfl := Option.some_inj.mp h1
      obtain rfl := inCube_size_one hc
      have hco : (WC.sits (SitId.loc (0, 0, 0))).coordinate = some (0, 0, 0) := by
        simp [WC, plainRoom]
      rw [hco] at h2
      obtain rfl := Option.some_inj.mp h2
      decide
    · rw [if_neg hc] at h1
      exact Option.noConfusion h1
  · intro c n h1
    rw [show WC.dict = cubeDict 1 from rfl, dictLookup_cubeDict] at h1
    by_cases hc : inCube 1 c
    · rw [if_pos hc] at h1
      exact SitId.noConfusion (Option.some_inj.mp h1)
    · rw [if_neg hc] at h1
      exact Option.noConfusion h1
  · intro e n h1
    by_cases h0 : e = 0
    · rw [h0] at h1
      simp [WC, heroEnt] at h1
    by_cases he2 : e = 2
    · rw [he2] at h1
      simp [WC, defaultEntity] at h1
    · simp [WC, h0, he2, defaultEntity] at h1
  · decide
  · intro e hk
    by_cases h0 : e = 0
    · exact h0
    exfalso
    by_cases he2 : e = 2
    · rw [he2] at hk
      simp [WC, defaultEntity] at hk
    · simp [WC, h0, he2, defaultEntity] at hk
  · decide
  · intro e hk
    exfalso
    by_cases h0 : e = 0
    · rw [h0] at hk
      simp [WC, heroEnt] at hk
    by_cases he2 : e = 2
    · rw [he2] at hk
      simp [WC, defaultEntity] at hk
    · simp [WC, h0, he2, defaultEntity] at hk
  · intro s c h1 h2
    have h0 : (WC.ents WC.heroId).situation = some (SitId.loc (0, 0, 0)) := by
      simp [WC, heroEnt]
    rw [h0] at h1
    obtain rfl := Option.some_inj.mp h1
    have hco : (WC.sits (SitId.loc (0, 0, 0))).coordinate = some (0, 0, 0) := by
      simp [WC, plainRoom]
    rw [hco] at h2
    obtain rfl := Option.some_inj.mp h2
    decide
  · intro e s hk h1
    exfalso
    by_cases h0 : e = 0
    · rw [h0] at hk
      simp [WC, heroEnt] at hk
    by_cases he2 : e = 2
    · rw [he2] at hk
      simp [WC, defaultEntity] at hk
    · simp [WC, h0, he2, defaultEntity] at hk
  · intro e he
    have hi : (WC.ents WC.heroId).inventory = [2] := by simp [WC, heroEnt]
    rw [hi] at he
    have h2 : e = 2 := by simpa using he
    rw [h2]
    exact ⟨by decide, by decide⟩

theorem WB_sits_eq (t : SitId) :
    WB.sits t =
      if t = SitId.loc (0, 0, 0) then plainRoom (0, 0, 0) [1]
      else if t = SitId.loc (1, 0, 0) then plainRoom (1, 0, 0) [0, 2]
      else match t with
        | SitId.loc c => if inCube 2 c then plainRoom c [] else emptySit
        | SitId.term _ => emptySit := rfl

theorem WB_sits_room {c : Coord} (h : inCube 2 c) :
    (WB.sits (SitId.loc c)).kind = SitKind.room "dungeon room" ∧
    (WB.sits (SitId.loc c)).coordinate = some c := by
  by_cases h0 : c = (0, 0, 0)
  · rw [h0]
    exact ⟨rfl, rfl⟩
  by_cases h1 : c = (1, 0, 0)
  · rw [h1]
    exact ⟨rfl, rfl⟩
  · have hne0 : SitId.loc c ≠ SitId.loc (0, 0, 0) := by
      intro hcon
      exact h0 (SitId.loc.inj hcon)
    have hne1 : SitId.loc c ≠ SitId.loc (1, 0, 0) := by
      intro hcon
      exact h1 (SitId.loc.inj hcon)
    have key : WB.sits (SitId.loc c) = if inCube 2 c then plainRoom c [] else emptySit := by
      rw [WB_sits_eq, if_neg hne0, if_neg hne1]
    rw [key, if_pos h]
    exact ⟨rfl, rfl⟩

theorem WB_contents (t : SitId) :
    (WB.sits t).contents =
      if t = SitId.loc (0, 0, 0) then [1]
      else if t = SitId.loc (1, 0, 0) then [0, 2]
      else [] := by
  by_cases h0 : t = SitId.loc (0, 0, 0)
  · rw [h0]
    rfl
  by_cases h1 : t = SitId.loc (1, 0, 0)
  · rw [h1]
    rfl
  · rw [WB_sits_eq]
    simp only [if_neg h0, if_neg h1]
    cases t with
    | loc c =>
      show (if inCube 2 c then plainRoom c [] else emptySit).contents = []
      by_cases hic : inCube 2 c
      · rw [if_pos hic]
        rfl
      · rw [if_neg hic]
        rfl
    | term n => rfl

theorem ExclusivelyPlaced_WB_hero : ExclusivelyPlaced WB 0 := by
  constructor
  · intro s hs
    have hse : s = SitId.loc (1, 0, 0) := by
      have h0 : (WB.ents 0).situation = some (SitId.loc (1, 0, 0)) := by
        simp [WB, heroEnt]
      rw [h0] at hs
      exact (Option.some_inj.mp hs).symm
    subst hse
    constructor
    · rw [WB_contents]
      rfl
    · intro t ht
      rw [WB_contents]
      by_cases h0 : t = SitId.loc (0, 0, 0)
      · rw [if_pos h0]
        rfl
      · rw [if_neg h0, if_neg ht]
        rfl
  · intro hn
    simp [WB, heroEnt] at hn

theorem ExclusivelyPlaced_WB_ball : ExclusivelyPlaced WB 1 := by
  constructor
  · intro s hs
    have hse : s = SitId.loc (0, 0, 0) := by
      have h0 : (WB.ents 1).situation = some (SitId.loc (0, 0, 0)) := by
        simp [WB, defaultEntity]
      rw [h0] at hs
      exact (Option.some_inj.mp hs).symm
    subst hse
    constructor
    · rw [WB_contents]
      rfl
    · intro t ht
      rw [WB_contents]
      by_cases h1 : t = SitId.loc (1, 0, 0)
      · rw [if_neg ht, if_pos h1]
        rfl
      · rw [if_neg ht, if_neg h1]
        rfl
  · intro hn
    simp [WB, defaultEntity] at hn

theorem GInv_WB : GInv WB := by
  refine ⟨?_, ?_, ?_, ?_, ?_, ?_, ?_, ?_, ExclusivelyPlaced_WB_hero, ?_, ?_, ?_, ?_⟩
  · decide
  · intro c hc
    have hc2 : inCube 2 c := hc
    refine ⟨SitId.loc c, "dungeon room", ?_, (WB_sits_room hc2).2, (WB_sits_room hc2).1⟩
    rw [show WB.dict = cubeDict 2 from rfl, dictLookup_cubeDict, if_pos hc2]
  · intro c s c2 h1 h2
    rw [show WB.dict = cubeDict 2 from rfl, dictLookup_cubeDict] at h1
    by_cases hc : inCube 2 c
    · rw [if_pos hc] at h1
      obtain rfl := Option.some_inj.mp h1
      rw [(WB_sits_room hc).2] at h2
      obtain rfl := Option.some_inj.mp h2
      exact hc
    · rw [if_neg hc] at h1
      exact Option.noConfusion h1
  · intro c n h1
    rw [show WB.dict = cubeDict 2 from rfl, dictLookup_cubeDict] at h1
    by_cases hc : inCube 2 c
    · rw [if_pos hc] at h1
      exact SitId.noConfusion (Option.some_inj.mp h1)
    · rw [if_neg hc] at h1
      exact Option.noConfusion h1
  · intro e n h1
    by_cases h0 : e = 0
    · rw [h0] at h1
      simp [WB, heroEnt] at h1
    by_cases he1 : e = 1
    · rw [he1] at h1
      simp [WB, defaultEntity] at h1
    by_cases he2 : e = 2
    · rw [he2] at h1
      simp [WB, defaultEntity] at h1
    · simp [WB, h0, he1, he2, defaultEntity] at h1
  · decide
  · intro e hk
    by_cases h0 : e = 0
    · exact h0
    exfalso
    by_cases he1 : e = 1
    · rw [he1] at hk
      simp [WB, defaultEntity] at hk
    by_cases he2 : e = 2
    · rw [he2] at hk
      simp [WB, defaultEntity] at hk
    · simp [WB, h0, he1, he2, defaultEntity] at hk
  · decide
  · intro e hk
    by_cases h0 : e = 0
    · rw [h0] at hk
      simp [WB, heroEnt] at hk
    by_cases he1 : e = 1
    · rw [he1]
      exact ExclusivelyPlaced_WB_ball
    by_cases he2 : e = 2
    · rw [he2] at hk
      simp [WB, defaultEntity] at hk
    · simp [WB, h0, he1, he2, defaultEntity] at hk
  · intro s c h1 h2
    have h0 : (WB.ents WB.heroId).situation = some (SitId.loc (1, 0, 0)) := by
      simp [WB, heroEnt]
    rw [h0] at h1
    obtain rfl := Option.some_inj.mp h1
    have hco : (WB.sits (SitId.loc (1, 0, 0))).coordinate = some (1, 0, 0) := rfl
    rw [hco] at h2
    obtain rfl := Option.some_inj.mp h2
    decide
  · intro e s hk h1
    by_cases h0 : e = 0
    · rw [h0] at hk
      simp [WB, heroEnt] at hk
    by_cases he1 : e = 1
    · rw [he1] at h1
      have hs1 : (WB.ents 1).situation = some (SitId.loc (0, 0, 0)) := by
        simp [WB, defaultEntity]
      rw [hs1] at h1
      obtain rfl := Option.some_inj.mp h1
      exact ⟨(0, 0, 0), rfl, by decide⟩
    by_cases he2 : e = 2
    · rw [he2] at hk
      simp [WB, defaultEntity] at hk
    · simp [WB, h0, he1, he2, defaultEntity] at hk
  · intro e he
    have hi : (WB.ents WB.heroId).inventory = [] := rfl
    rw [hi] at he
    simp at he

theorem WE_sits_eq (t : SitId) :
    WE.sits t =
      if t = SitId.loc (1, 0, 0) then plainRoom (1, 0, 0) [0, 2]
      else match t with
        | SitId.loc c => if inCube 2 c then plainRoom c [] else emptySit
        | SitId.term _ => emptySit := rfl

theorem WE_sits_room {c : Coord} (h : inCube 2 c) :
    (WE.sits (SitId.loc c)).kind = SitKind.room "dungeon room" ∧
    (WE.sits (SitId.loc c)).coordinate = some c := by
  by_cases h1 : c = (1, 0, 0)
  · rw [h1]
    exact ⟨rfl, rfl⟩
  · have hne1 : SitId.loc c ≠ SitId.loc (1, 0, 0) := by
      intro hcon
      exact h1 (SitId.loc.inj hcon)
    have key : WE.sits (SitId.loc c) = if inCube 2 c then plainRoom c [] else emptySit := by
      rw [WE_sits_eq, if_neg hne1]
    rw [key, if_pos h]
    exact ⟨rfl, rfl⟩

theorem WE_contents (t : SitId) :
    (WE.sits t).contents = if t = SitId.loc (1, 0, 0) then [0, 2] else [] := by
  by_cases h1 : t = SitId.loc (1, 0, 0)
  · rw [h1]
    rfl
  · rw [WE_sits_eq]
    simp only [if_neg h1]
    cases t with
    | loc c =>
      show (if inCube 2 c then plainRoom c [] else emptySit).contents = []
      by_cases hic : inCube 2 c
      · rw [if_pos hic]
        rfl
      · rw [if_neg hic]
        rfl
    | term n => rfl

theorem ExclusivelyPlaced_WE_hero : ExclusivelyPlaced WE 0 := by
  constructor
  · intro s hs
    have hse : s = SitId.loc (1, 0, 0) := by
      have h0 : (WE.ents 0).situation = some (SitId.loc (1, 0, 0)) := by
        simp [WE, heroEnt]
      rw [h0] at hs
      exact (Option.some_inj.mp hs).symm
    subst hse
    constructor
    · rw [WE_contents]
      rfl
    · intro t ht
      rw [WE_contents, if_neg ht]
      rfl
  · intro hn
    simp [WE, heroEnt] at hn

theorem GInv_WE : GInv WE := by
  refine ⟨?_, ?_, ?_, ?_, ?_, ?_, ?_, ?_, ExclusivelyPlaced_WE_hero, ?_, ?_, ?_, ?_⟩
  · decide
  · intro c hc
    have hc2 : inCube 2 c := hc
    refine ⟨SitId.loc c, "dungeon room", ?_, (WE_sits_room hc2).2, (WE_sits_room hc2).1⟩
    rw [show WE.dict = cubeDict 2 from rfl, dictLookup_cubeDict, if_pos hc2]
  · intro c s c2 h1 h2
    rw [show WE.dict = cubeDict 2 from rfl, dictLookup_cubeDict] at h1
    by_cases hc : inCube 2 c
    · rw [if_pos hc] at h1
      obtain rfl := Option.some_inj.mp h1
      rw [(WE_sits_room hc).2] at h2
      obtain rfl := Option.some_inj.mp h2
      exact hc
    · rw [if_neg hc] at h1
      exact Option.noConfusion h1
  · intro c n h1
    rw [show WE.dict = cubeDict 2 from rfl, dictLookup_cubeDict] at h1
    by_cases hc : inCube 2 c
    · rw [if_pos hc] at h1
      exact SitId.noConfusion (Option.some_inj.mp h1)
    · rw [if_neg hc] at h1
      exact Option.noConfusion h1
  · intro e n h1
    by_cases h0 : e = 0
    · rw [h0] at h1
      simp [WE, heroEnt] at h1
    by_cases he2 : e = 2
    · rw [he2] at h1
      simp [WE, defaultEntity] at h1
    · simp [WE, h0, he2, defaultEntity] at h1
  · decide
  · intro e hk
    by_cases h0 : e = 0
    · exact h0
    exfalso
    by_cases he2 : e = 2
    · rw [he2] at hk
      simp [WE, defaultEntity] at hk
    · simp [WE, h0, he2, defaultEntity] at hk
  · decide
  · intro e hk
    exfalso
    by_cases h0 : e = 0
    · rw [h0] at hk
      simp [WE, heroEnt] at hk
    by_cases he2 : e = 2
    · rw [he2] at hk
      simp [WE, defaultEntity] at hk
    · simp [WE, h0, he2, defaultEntity] at hk
  · intro s c h1 h2
    have h0 : (WE.ents WE.heroId).situation = some (SitId.loc (1, 0, 0)) := by
      simp [WE, heroEnt]
    rw [h0] at h1
    obtain rfl := Option.some_inj.mp h1
    have hco : (WE.sits (SitId.loc (1, 0, 0))).coordinate = some (1, 0, 0) := rfl
    rw [hco] at h2
    obtain rfl := Option.some_inj.mp h2
    decide
  · intro e s hk h1
    exfalso
    by_cases h0 : e = 0
    · rw [h0] at hk
      simp [WE, heroEnt] at hk
    by_cases he2 : e = 2
    · rw [he2] at hk
      simp [WE, defaultEntity] at hk
    · simp [WE, h0, he2, defaultEntity] at hk
  · intro e he
    have hi : (WE.ents WE.heroId).inventory = [] := rfl
    rw [hi] at he
    simp at he

theorem WE_no_db : ∀ e, (WE.ents e).kind ≠ EKind.deathBall := by
  intro e hk
  by_cases h0 : e = 0
  · rw [h0] at hk
    simp [WE, heroEnt] at hk
  by_cases he2 : e = 2
  · rw [he2] at hk
    simp [WE, defaultEntity] at hk
  · simp [WE, h0, he2, defaultEntity] at hk


/-- Witness for C1 at the concrete state `WA`: the death ball shares the
single room with the hero, so the turn ends in the dead terminal state and
the carried treasure is re-pointed at the `Death` situation. -/
theorem C1_colocated_hazard_kills_witness :
    ∃ w', World.update WA = some w' ∧ GInv w' ∧
      (w'.ents WA.heroId).situation = some (SitId.term WA.nextSit) ∧
      (w'.sits (SitId.term WA.nextSit)).kind =
        SitKind.death (killReason ((WA.ents 1).color)) ∧
      (∀ it, it ∈ (WA.ents WA.heroId).inventory →
        (w'.ents it).situation = some (SitId.term WA.nextSit)) :=
  C1_colocated_hazard_kills WA GInv_WA (SitId.loc (0, 0, 0)) (0, 0, 0)
    (SitId.loc (0, 0, 0)) 1 [] rfl rfl rfl rfl

/-- Counterexample to the claim that the inventory re-synchronization step is
skipped on a death turn: before the update the carried treasure (entity 2)
still points at the room it was taken from, and after the killing update its
`situation` has been re-pointed at the freshly allocated `Death` situation —
step 3 ran. -/
theorem C1_resync_not_skipped_counterexample :
    (WA.ents 2).situation = some (SitId.loc (0, 0, 0)) ∧
    (World.update WA).map (fun w' => (w'.ents 2).situation) =
      some (some (SitId.term 0)) :=
  ⟨rfl, rfl⟩

/-! ## Claim C3: the victory condition -/

/-- **C3.** At the victory-check step of `World.update` (`World.updateTail`),
the session transitions to the terminal victorious state if and only if the
room stored at `(0, 0, 0)` contains the hero and the world's treasure is in
the hero's inventory; otherwise — in particular for a hero in the origin
room without the treasure — the turn continues ordinarily: the situation
heap is unchanged and the hero stays in its current situation. -/
theorem C3_victory_iff (w3 : World) (hG3 : GInv w3) (σ r0 : SitId)
    (hsit : (w3.ents w3.heroId).situation = some σ)
    (hl0 : dictLookup w3.dict (0, 0, 0) = some r0) :
    ((Situation.contains_type w3 r0 EKind.hero = true ∧
        w3.treasureId ∈ (w3.ents w3.heroId).inventory) →
      ∃ w', World.updateTail w3 = some w' ∧ GInv w' ∧
        (w'.ents w3.heroId).situation = some (SitId.term w3.nextSit) ∧
        (w'.sits (SitId.term w3.nextSit)).kind =
          SitKind.victory "You escaped with the treasure.") ∧
    (¬ (Situation.contains_type w3 r0 EKind.hero = true ∧
        w3.treasureId ∈ (w3.ents w3.heroId).inventory) →
      World.updateTail w3 = some (World.resetActed w3) ∧
      ((World.resetActed w3).ents w3.heroId).situation = some σ ∧
      (World.resetActed w3).sits = w3.sits) := by
  have hach := achieved_spec hG3 hsit hl0
  constructor
  · rintro ⟨hct, hmem⟩
    have hr0 : r0 = σ := (contains_type_hero_iff hG3 hsit r0).mp hct
    have htrue : Victory.achieved w3 = some true := by
      rw [hach]
      simp [hr0, hmem]
    exact updateTail_true hG3 htrue
  · intro hnot
    have hfalse : Victory.achieved w3 = some false := by
      rw [hach]
      by_cases hr0 : r0 = σ
      · have hmem : w3.treasureId ∉ (w3.ents w3.heroId).inventory := by
          intro hm
          exact hnot ⟨(contains_type_hero_iff hG3 hsit r0).mpr hr0, hm⟩
        simp [hr0, hmem]
      · simp [hr0]
    obtain ⟨r, hr, f1, f2, f3, f4, f5, f6, f7, f8, f9, f10⟩ := resetActed_spec w3
    refine ⟨updateTail_false hfalse, ?_, ?_⟩
    · rw [hr, (f10 w3.heroId).1]
      exact hsit
    · rw [hr]
      exact f1

/-- Witness for C3 at the concrete state `WC`: the hero stands in the origin
room carrying the treasure, so the first branch applies with both conditions
holding concretely. -/
theorem C3_victory_iff_witness :
    ((Situation.contains_type WC (SitId.loc (0, 0, 0)) EKind.hero = true ∧
        WC.treasureId ∈ (WC.ents WC.heroId).inventory) →
      ∃ w', World.updateTail WC = some w' ∧ GInv w' ∧
        (w'.ents WC.heroId).situation = some (SitId.term WC.nextSit) ∧
        (w'.sits (SitId.term WC.nextSit)).kind =
          SitKind.victory "You escaped with the treasure.") ∧
    (¬ (Situation.contains_type WC (SitId.loc (0, 0, 0)) EKind.hero = true ∧
        WC.treasureId ∈ (WC.ents WC.heroId).inventory) →
      World.updateTail WC = some (World.resetActed WC) ∧
      ((World.resetActed WC).ents WC.heroId).situation = some (SitId.loc (0, 0, 0)) ∧
      (World.resetActed WC).sits = WC.sits) :=
  C3_victory_iff WC GInv_WC (SitId.loc (0, 0, 0)) (SitId.loc (0, 0, 0)) rfl rfl

/-! ## Claim C6: every placement stays inside the cube -/

theorem GInv_add_dict {w : World} {c : Coord} {s : SitId} {w' : World} (hG : GInv w)
    (hl : dictLookup w.dict c = some s)
    (hadd : Situation.add w s w.heroId = some w') : GInv w' := by
  refine GInv_add hG hadd (Or.inl rfl) ?_ ?_ ?_
  · intro n hn
    subst hn
    exact hG.dictFresh c n hl
  · intro c2 hc2
    exact hG.dictLocOK c s c2 hl hc2
  · intro hk
    rw [hG.heroKind] at hk
    exact EKind.noConfusion hk

theorem GInv_killHero_of {w w1 : World} (hG : GInv w) {c : String}
    (h : w.killHero c = some w1) : GInv w1 := by
  obtain ⟨w2, hw2, hG2, _⟩ := World.killHero_spec hG c
  rw [hw2] at h
  exact (Option.some_inj.mp h) ▸ hG2

theorem GInv_move_deathballs_of {w w2 : World} (hG : GInv w)
    (h : World.move_deathballs w = some w2) : GInv w2 :=
  move_deathballs_inv GInv (fun _ _ _ hI hk hact => GInv_act hI hk hact) hG h

theorem GInv_updateTail {w3 w' : World} (hG3 : GInv w3)
    (h : World.updateTail w3 = some w') : GInv w' := by
  cases hv : Victory.achieved w3 with
  | none =>
    rw [World.updateTail, hv] at h
    exact Option.noConfusion h
  | some b =>
    cases b with
    | false =>
      rw [updateTail_false hv] at h
      exact (Option.some_inj.mp h) ▸ GInv_resetActed hG3
    | true =>
      obtain ⟨w4, hw4, hG4, _, _⟩ := updateTail_true hG3 hv
      rw [hw4] at h
      exact (Option.some_inj.mp h) ▸ hG4

theorem World.update_chain {w w' : World} (h : World.update w = some w') :
    ∃ w1 w2, (w1 = w ∨ ∃ c, w.killHero c = some w1) ∧
      World.move_deathballs w1 = some w2 ∧
      World.updateTail (World.resyncInventory w2) = some w' := by
  cases hsit : (w.ents w.heroId).situation with
  | none =>
    rw [World.update, hsit] at h
    exact Option.noConfusion h
  | some sid =>
    cases hloc : (w.sits sid).coordinate with
    | none =>
      rw [World.update, hsit] at h
      simp only [Option.bind_eq_bind, Option.some_bind] at h
      rw [hloc] at h
      exact Option.noConfusion h
    | some loc =>
      cases hlk : dictLookup w.dict loc with
      | none =>
        rw [World.update, hsit] at h
        simp only [Option.bind_eq_bind, Option.some_bind] at h
        rw [hloc] at h
        simp only [Option.some_bind] at h
        rw [hlk] at h
        exact Option.noConfusion h
      | some sd =>
        rw [World.update_eq_of hsit hloc hlk] at h
        cases hdb : Situation.get_entities w sd EKind.deathBall with
        | nil =>
          rw [hdb] at h
          have h2 : (World.move_deathballs w).bind (fun w2 =>
              World.updateTail (World.resyncInventory w2)) = some w' := h
          cases hmv : World.move_deathballs w with
          | none =>
            rw [hmv] at h2
            exact Option.noConfusion h2
          | some w2 =>
            rw [hmv] at h2
            simp only [Option.some_bind] at h2
            exact ⟨w, w2, Or.inl rfl, hmv, h2⟩
        | cons d ds =>
          rw [hdb] at h
          have h2 : (w.killHero ((w.ents d).color)).bind (fun w1 =>
              (World.move_deathballs w1).bind fun w2 =>
                World.updateTail (World.resyncInventory w2)) = some w' := h
          cases hk : w.killHero ((w.ents d).color) with
          | none =>
            rw [hk] at h2
            exact Option.noConfusion h2
          | some w1 =>
            rw [hk] at h2
            simp only [Option.some_bind] at h2
            cases hmv : World.move_deathballs w1 with
            | none =>
              rw [hmv] at h2
              exact Option.noConfusion h2
            | some w2 =>
              rw [hmv] at h2
              simp only [Option.some_bind] at h2
              exact ⟨w1, w2, Or.inr ⟨_, hk⟩, hmv, h2⟩

theorem GInv_update {w w' : World} (hG : GInv w) (h : World.update w = some w') :
    GInv w' := by
  obtain ⟨w1, w2, h1, hmv, ht⟩ := World.update_chain h
  have hG1 : GInv w1 := by
    rcases h1 with rfl | ⟨c, hk⟩
    · exact hG
    · exact GInv_killHero_of hG hk
  exact GInv_updateTail (GInv_resyncInventory (GInv_move_deathballs_of hG1 hmv)) ht

theorem go_north_spec {w w' : World} (hG : GInv w) (h : Hero.go_north w = some w') :
    GInv w' ∧ w'.dict = w.dict := by
  rw [Hero.go_north] at h
  rcases hgl : Entity.get_location w w.heroId with ⟨x, y, z⟩
  rw [hgl] at h
  dsimp only at h
  by_cases hy : (0 : Int) ≤ y - 1
  · rw [if_pos hy] at h
    cases hl : dictLookup w.dict (x, y - 1, z) with
    | none =>
      rw [hl] at h
      exact Option.noConfusion h
    | some s =>
      rw [hl] at h
      exact ⟨GInv_add_dict hG hl h, (Situation.add_frames h).1⟩
  · rw [if_neg hy] at h
    exact (Option.some_inj.mp h) ▸ ⟨hG, rfl⟩

theorem go_east_spec {w w' : World} (hG : GInv w) (h : Hero.go_east w = some w') :
    GInv w' ∧ w'.dict = w.dict := by
  rw [Hero.go_east] at h
  rcases hgl : Entity.get_location w w.heroId with ⟨x, y, z⟩
  rw [hgl] at h
  dsimp only at h
  by_cases hx : x + 1 < (w.size : Int)
  · rw [if_pos hx] at h
    cases hl : dictLookup w.dict (x + 1, y, z) with
    | none =>
      rw [hl] at h
      exact Option.noConfusion h
    | some s =>
      rw [hl] at h
      exact ⟨GInv_add_dict hG hl h, (Situation.add_frames h).1⟩
  · rw [if_neg hx] at h
    exact (Option.some_inj.mp h) ▸ ⟨hG, rfl⟩

theorem go_south_spec {w w' : World} (hG : GInv w) (h : Hero.go_south w = some w') :
    GInv w' ∧ w'.dict = w.dict := by
  rw [Hero.go_south] at h
  rcases hgl : Entity.get_location w w.heroId with ⟨x, y, z⟩
  rw [hgl] at h
  dsimp only at h
  by_cases hy : y + 1 < (w.size : Int)
  · rw [if_pos hy] at h
    cases hl : dictLookup w.dict (x, y + 1, z) with
    | none =>
      rw [hl] at h
      exact Option.noConfusion h
    | some s =>
      rw [hl] at h
      exact ⟨GInv_add_dict hG hl h, (Situation.add_frames h).1⟩
  · rw [if_neg hy] at h
    exact (Option.some_inj.mp h) ▸ ⟨hG, rfl⟩

theorem go_west_spec {w w' : World} (hG : GInv w) (h : Hero.go_west w = some w') :
    GInv w' ∧ w'.dict = w.dict := by
  rw [Hero.go_west] at h
  rcases hgl : Entity.get_location w w.heroId with ⟨x, y, z⟩
  rw [hgl] at h
  dsimp only at h
  by_cases hx : (0 : Int) ≤ x - 1
  · rw [if_pos hx] at h
    cases hl : dictLookup w.dict (x - 1, y, z) with
    | none =>
      rw [hl] at h
      exact Option.noConfusion h
    | some s =>
      rw [hl] at h
      exact ⟨GInv_add_dict hG hl h, (Situation.add_frames h).1⟩
  · rw [if_neg hx] at h
    exact (Option.some_inj.mp h) ▸ ⟨hG, rfl⟩

theorem go_down_spec {w w' : World} (hG : GInv w) (h : Hero.go_down w = some w') :
    GInv w' ∧ w'.dict = w.dict := by
  rw [Hero.go_down] at h
  rcases hgl : Entity.get_location w w.heroId with ⟨x, y, z⟩
  rw [hgl] at h
  dsimp only at h
  by_cases hz : z + 1 < (w.size : Int)
  · rw [if_pos hz] at h
    cases hl : dictLookup w.dict (x, y, z + 1) with
    | none =>
      rw [hl] at h
      exact Option.noConfusion h
    | some s =>
      rw [hl] at h
      exact ⟨GInv_add_dict hG hl h, (Situation.add_frames h).1⟩
  · rw [if_neg hz] at h
    exact (Option.some_inj.mp h) ▸ ⟨hG, rfl⟩

theorem go_up_spec {w w' : World} (hG : GInv w) (h : Hero.go_up w = some w') :
    GInv w' ∧ w'.dict = w.dict := by
  rw [Hero.go_up] at h
  rcases hgl : Entity.get_location w w.heroId with ⟨x, y, z⟩
  rw [hgl] at h
  dsimp only at h
  by_cases hz : (0 : Int) ≤ z - 1
  · rw [if_pos hz] at h
    cases hl : dictLookup w.dict (x, y, z - 1) with
    | none =>
      rw [hl] at h
      exact Option.noConfusion h
    | some s =>
      rw [hl] at h
      exact ⟨GInv_add_dict hG hl h, (Situation.add_frames h).1⟩
  · rw [if_neg hz] at h
    exact (Option.some_inj.mp h) ▸ ⟨hG, rfl⟩

theorem GInv_take_core {w : World} {item : EId} {s : SitId} {w' : World} (hG : GInv w)
    (hkh : (w.ents item).kind ≠ EKind.hero)
    (hkd : (w.ents item).kind ≠ EKind.deathBall)
    (hm : item ∈ (w.sits s).contents)
    (hw' : w' = (w.setContents s (((w.sits s).contents).erase item)).setInv w.heroId
      (((w.ents w.heroId).inventory) ++ [item])) :
    GInv w' ∧ w'.dict = w.dict := by
  have hitemhero : item ≠ w.heroId := by
    intro hcon
    exact hkh (by rw [hcon]; exact hG.heroKind)
  have hhid : w'.heroId = w.heroId := by
    rw [hw']
    rfl
  have htid : w'.treasureId = w.treasureId := by
    rw [hw']
    rfl
  have hsco : ∀ t, (w'.sits t).coordinate = (w.sits t).coordinate := by
    intro t
    rw [hw']
    exact World.setContents_sits_coordinate w s _ t
  have hskind : ∀ t, (w'.sits t).kind = (w.sits t).kind := by
    intro t
    rw [hw']
    exact World.setContents_sits_kind w s _ t
  have hents : ∀ x, x ≠ w.heroId → w'.ents x = w.ents x := by
    intro x hx
    rw [hw']
    simp [hx]
  have hhero : w'.ents w.heroId =
      { w.ents w.heroId with inventory := ((w.ents w.heroId).inventory) ++ [item] } := by
    rw [hw']
    simp
  have hkind : ∀ x, (w'.ents x).kind = (w.ents x).kind := by
    intro x
    by_cases hx : x = w.heroId
    · rw [hx, hhero]
    · rw [hents x hx]
  have hsit2 : ∀ x, (w'.ents x).situation = (w.ents x).situation := by
    intro x
    by_cases hx : x = w.heroId
    · rw [hx, hhero]
    · rw [hents x hx]
  have hcount : ∀ x, x ≠ item → ∀ t,
      ((w'.sits t).contents).count x = ((w.sits t).contents).count x := by
    intro x hx t
    rw [hw']
    show (((w.setContents s _).sits t).contents).count x = _
    rw [World.setContents_sits_contents]
    by_cases ht : t = s
    · rw [if_pos ht, ht]
      exact List.count_erase_of_ne hx _
    · rw [if_neg ht]
  have hxfer : ∀ x, x ≠ item → ExclusivelyPlaced w x → ExclusivelyPlaced w' x := by
    intro x hx hE
    constructor
    · intro t hsx
      rw [hsit2 x] at hsx
      obtain ⟨h1, h2⟩ := hE.1 t hsx
      refine ⟨by rw [hcount x hx]; exact h1, ?_⟩
      intro u hu
      rw [hcount x hx]
      exact h2 u hu
    · intro hn
      rw [hsit2 x] at hn
      intro t
      rw [hcount x hx]
      exact hE.2 hn t
  have hsize : w'.size = w.size := by
    rw [hw']
    rfl
  have hdict : w'.dict = w.dict := by
    rw [hw']
    rfl
  refine ⟨⟨by rw [hsize]; exact hG.sizePos, ?_, ?_, ?_, ?_, ?_, ?_, ?_, ?_, ?_, ?_, ?_, ?_⟩,
    hdict⟩
  · intro c hc
    rw [hsize] at hc
    obtain ⟨t, lt, h1, h2, h3⟩ := hG.cubeKeys c hc
    exact ⟨t, lt, by rw [hdict]; exact h1, by rw [hsco]; exact h2, by rw [hskind]; exact h3⟩
  · intro c t c2 h1 h2
    rw [hdict] at h1
    rw [hsco] at h2
    rw [hsize]
    exact hG.dictLocOK c t c2 h1 h2
  · intro c n h1
    rw [hdict] at h1
    rw [show w'.nextSit = w.nextSit from by rw [hw']; rfl]
    exact hG.dictFresh c n h1
  · intro x n h1
    rw [hsit2 x] at h1
    rw [show w'.nextSit = w.nextSit from by rw [hw']; rfl]
    exact hG.entFresh x n h1
  · rw [hhid, hkind]
    exact hG.heroKind
  · intro x hk
    rw [hkind] at hk
    rw [hhid]
    exact hG.heroUnique x hk
  · rw [htid, hkind]
    exact hG.treasureKind
  · rw [hhid]
    exact hxfer w.heroId (Ne.symm hitemhero) hG.heroSync
  · intro x hk
    rw [hkind] at hk
    have hxitem : x ≠ item := by
      intro hcon
      rw [hcon] at hk
      exact hkd hk
    exact hxfer x hxitem (hG.dbSync x hk)
  · intro t c h1 h2
    rw [hhid, hsit2] at h1
    rw [hsco] at h2
    rw [hsize]
    exact hG.heroLoc t c h1 h2
  · intro x t hk h1
    rw [hkind] at hk
    rw [hsit2 x] at h1
    rw [hsize]
    obtain ⟨c, hc1, hc2⟩ := hG.dbLoc x t hk h1
    exact ⟨c, by rw [hsco]; exact hc1, hc2⟩
  · intro x hx
    rw [hhid, hhero] at hx
    simp only [List.mem_append, List.mem_singleton] at hx
    rcases hx with hx | rfl
    · rw [hkind]
      exact hG.invKinds x hx
    · rw [hkind]
      exact ⟨hkh, hkd⟩

theorem GInv_take {w : World} {item : EId} {w' : World} (hG : GInv w)
    (hkh : (w.ents item).kind ≠ EKind.hero)
    (hkd : (w.ents item).kind ≠ EKind.deathBall)
    (h : Hero.take w item = some w') : GInv w' ∧ w'.dict = w.dict := by
  cases hsit : (w.ents w.heroId).situation with
  | none =>
    rw [Hero.take, hsit] at h
    exact Option.noConfusion h
  | some s =>
    by_cases hm : item ∈ (w.sits s).contents
    · have heq : Hero.take w item =
          some ((w.setContents s (((w.sits s).contents).erase item)).setInv w.heroId
            (((w.ents w.heroId).inventory) ++ [item])) := by
        simp [Hero.take, hsit, Situation.contains, hm]
      rw [heq] at h
      exact GInv_take_core hG hkh hkd hm (Option.some_inj.mp h).symm
    · have heq : Hero.take w item = some w := by
        simp [Hero.take, hsit, Situation.contains, hm]
      rw [heq] at h
      exact (Option.some_inj.mp h) ▸ ⟨hG, rfl⟩

theorem GInv_teleport {w : World} {p : Bool × World} (hG : GInv w)
    (h : Situation.handle_hero_action w "teleport" = some p) :
    GInv p.2 ∧ p.2.dict = w.dict := by
  cases hsit : (w.ents w.heroId).situation with
  | none =>
    rw [Situation.handle_hero_action, hsit] at h
    exact Option.noConfusion h
  | some s =>
    rw [Situation.handle_hero_action, hsit] at h
    dsimp only at h
    cases hk : (w.sits s).kind with
    | death r =>
      rw [hk] at h
      exact (Option.some_inj.mp h) ▸ ⟨hG, rfl⟩
    | plain =>
      rw [hk] at h
      exact (Option.some_inj.mp h) ▸ ⟨hG, rfl⟩
    | victory r =>
      rw [hk] at h
      exact (Option.some_inj.mp h) ▸ ⟨hG, rfl⟩
    | room lt =>
      rw [hk] at h
      dsimp only at h
      by_cases hlt : lt = "teleporter" ∧ ("teleport" : String) = "teleport"
      · rw [if_pos hlt] at h
        rcases hrc : w.randomCoordinate with ⟨c, w1⟩
        rw [hrc] at h
        dsimp only at h
        have hG1 : GInv w1 := by
          have h2 : w1 = (w.randomCoordinate).2 := by rw [hrc]
          rw [h2]
          exact GInv_setRk hG (w.rk + 1 + 1 + 1)
        have hd1 : w1.dict = w.dict := by
          have h2 : w1 = (w.randomCoordinate).2 := by rw [hrc]
          rw [h2]
          rfl
        cases hdl : dictLookup w1.dict c with
        | none =>
          rw [hdl] at h
          exact Option.noConfusion h
        | some s2 =>
          rw [hdl] at h
          dsimp only at h
          cases hadd : Situation.add w1 s2 w1.heroId with
          | none =>
            rw [hadd] at h
            simp at h
          | some w2 =>
            rw [hadd] at h
            simp only [Option.map_some'] at h
            obtain rfl := Option.some_inj.mp h
            refine ⟨GInv_add_dict hG1 hdl hadd, ?_⟩
            show w2.dict = w.dict
            rw [(Situation.add_frames hadd).1]
            exact hd1
      · rw [if_neg hlt] at h
        exact (Option.some_inj.mp h) ▸ ⟨hG, rfl⟩

/-! ## Claim C7: evolution of the dictionary key set -/

theorem keysExtend_refl (w : World) : KeysExtendBySentinel w w :=
  ⟨fun _ hk => hk, fun _ hk => Or.inl hk⟩

theorem keysExtend_trans {a b c : World} (h1 : KeysExtendBySentinel a b)
    (h2 : KeysExtendBySentinel b c) : KeysExtendBySentinel a c := by
  refine ⟨fun k hk => h2.1 k (h1.1 k hk), fun k hk => ?_⟩
  rcases h2.2 k hk with hb | hs
  · exact h1.2 k hb
  · exact Or.inr hs

theorem dictKeys_eq_of {a b : World} (h : b.dict = a.dict) : dictKeys b = dictKeys a := by
  rw [dictKeys, dictKeys, h]

theorem keysExtend_of_dict_eq {a b : World} (h : b.dict = a.dict) :
    KeysExtendBySentinel a b := by
  unfold KeysExtendBySentinel
  rw [dictKeys_eq_of h]
  exact ⟨fun _ hk => hk, fun _ hk => Or.inl hk⟩

theorem keysExtend_dictSet_sentinel {a b : World} {s : SitId}
    (h : b.dict = dictSet a.dict (-1, -1, -1) s) : KeysExtendBySentinel a b := by
  unfold KeysExtendBySentinel dictKeys
  rw [h]
  constructor
  · intro k hk
    exact (mem_keys_dictSet a.dict (-1, -1, -1) k s).mpr (Or.inl hk)
  · intro k hk
    exact (mem_keys_dictSet a.dict (-1, -1, -1) k s).mp hk

theorem killHero_dict {w w1 : World} {c : String} (h : w.killHero c = some w1) :
    w1.dict = dictSet w.dict (-1, -1, -1) (SitId.term w.nextSit) := by
  rw [World.killHero_def] at h
  cases hadd : Situation.add (w.allocTerm (SitKind.death (killReason c))).2
      (SitId.term w.nextSit) w.heroId with
  | none =>
    rw [hadd] at h
    exact Option.noConfusion h
  | some wb =>
    rw [hadd] at h
    simp only [Option.bind_eq_bind, Option.some_bind] at h
    obtain rfl := Option.some_inj.mp h
    show dictSet wb.dict (-1, -1, -1) (SitId.term w.nextSit) = _
    rw [(Situation.add_frames hadd).1]
    rfl

theorem keysExtend_act {w0 v v' : World} {db : EId} (hI : KeysExtendBySentinel w0 v)
    (hact : DeathBall.act v db = some v') : KeysExtendBySentinel w0 v' := by
  rcases DeathBall.act_cases hact with ⟨_, rfl⟩ | ⟨_, vm, hmv, rfl⟩
  · exact hI
  · have hvm : KeysExtendBySentinel w0 vm := by
      rcases DeathBall.move_cases hmv with ⟨room, _, _, hkill⟩ | ⟨room, _, _, rfl⟩ |
          ⟨room, tgt, s, _, _, _, hadd, _⟩
      · exact keysExtend_trans hI (keysExtend_dictSet_sentinel (killHero_dict hkill))
      · exact keysExtend_trans hI (keysExtend_of_dict_eq rfl)
      · exact keysExtend_trans hI (keysExtend_of_dict_eq ((Situation.add_frames hadd).1))
    exact keysExtend_trans hvm (keysExtend_of_dict_eq (World.setActed_dict vm db true))

theorem keysExtend_move_deathballs {w1 w2 : World}
    (h : World.move_deathballs w1 = some w2) : KeysExtendBySentinel w1 w2 :=
  move_deathballs_inv (fun v => KeysExtendBySentinel w1 v)
    (fun _ _ _ hI _ hact => keysExtend_act hI hact) (keysExtend_refl w1) h

theorem resyncInventory_dict (w : World) : (World.resyncInventory w).dict = w.dict := by
  obtain ⟨r, hr, _, h2, _⟩ := resyncInventory_spec w
  rw [hr]
  exact h2

theorem resetActed_dict (w : World) : (World.resetActed w).dict = w.dict := by
  obtain ⟨r, hr, _, h2, _⟩ := resetActed_spec w
  rw [hr]
  exact h2

theorem keysExtend_updateTail {w3 w' : World}
    (h : World.updateTail w3 = some w') : KeysExtendBySentinel w3 w' := by
  cases hv : Victory.achieved w3 with
  | none =>
    rw [World.updateTail, hv] at h
    exact Option.noConfusion h
  | some b =>
    cases b with
    | false =>
      rw [updateTail_false hv] at h
      obtain rfl := Option.some_inj.mp h
      exact keysExtend_of_dict_eq (resetActed_dict w3)
    | true =>
      rw [updateTail_true_eq w3 hv] at h
      cases hadd : Situation.add
          { (w3.allocTerm (SitKind.victory "You escaped with the treasure.")).2 with
            dict := dictSet
              (w3.allocTerm (SitKind.victory "You escaped with the treasure.")).2.dict
              (-1, -1, -1) (SitId.term w3.nextSit) }
          (SitId.term w3.nextSit) w3.heroId with
      | none =>
        rw [hadd] at h
        exact Option.noConfusion h
      | some wb =>
        rw [hadd] at h
        simp only [Option.bind_eq_bind, Option.some_bind] at h
        obtain rfl := Option.some_inj.mp h
        have h1 : wb.dict = dictSet w3.dict (-1, -1, -1) (SitId.term w3.nextSit) := by
          rw [(Situation.add_frames hadd).1]
          rfl
        exact keysExtend_trans (keysExtend_dictSet_sentinel h1)
          (keysExtend_of_dict_eq (resetActed_dict wb))

theorem keysExtend_update {w w' : World} (h : World.update w = some w') :
    KeysExtendBySentinel w w' := by
  obtain ⟨w1, w2, h1, hmv, ht⟩ := World.update_chain h
  have k1 : KeysExtendBySentinel w w1 := by
    rcases h1 with rfl | ⟨c, hk⟩
    · exact keysExtend_refl _
    · exact keysExtend_dictSet_sentinel (killHero_dict hk)
  refine keysExtend_trans (keysExtend_trans k1 (keysExtend_move_deathballs hmv)) ?_
  exact keysExtend_trans (keysExtend_of_dict_eq (resyncInventory_dict w2))
    (keysExtend_updateTail ht)

theorem applyOp_inv {w w' : World} (hG : GInv w) (op : Op)
    (h : applyOp w op = some w') : GInv w' ∧ KeysExtendBySentinel w w' := by
  cases op with
  | goNorth =>
    obtain ⟨h1, h2⟩ := go_north_spec hG h
    exact ⟨h1, keysExtend_of_dict_eq h2⟩
  | goEast =>
    obtain ⟨h1, h2⟩ := go_east_spec hG h
    exact ⟨h1, keysExtend_of_dict_eq h2⟩
  | goSouth =>
    obtain ⟨h1, h2⟩ := go_south_spec hG h
    exact ⟨h1, keysExtend_of_dict_eq h2⟩
  | goWest =>
    obtain ⟨h1, h2⟩ := go_west_spec hG h
    exact ⟨h1, keysExtend_of_dict_eq h2⟩
  | goUp =>
    obtain ⟨h1, h2⟩ := go_up_spec hG h
    exact ⟨h1, keysExtend_of_dict_eq h2⟩
  | goDown =>
    obtain ⟨h1, h2⟩ := go_down_spec hG h
    exact ⟨h1, keysExtend_of_dict_eq h2⟩
  | takeTreasure =>
    have hkh : (w.ents w.treasureId).kind ≠ EKind.hero := by
      rw [hG.treasureKind]
      exact fun hcon => EKind.noConfusion hcon
    have hkd : (w.ents w.treasureId).kind ≠ EKind.deathBall := by
      rw [hG.treasureKind]
      exact fun hcon => EKind.noConfusion hcon
    obtain ⟨h1, h2⟩ := GInv_take hG hkh hkd h
    exact ⟨h1, keysExtend_of_dict_eq h2⟩
  | teleport =>
    show GInv w' ∧ _
    cases hha : Situation.handle_hero_action w "teleport" with
    | none =>
      rw [show applyOp w Op.teleport =
        (Situation.handle_hero_action w "teleport").map Prod.snd from rfl, hha] at h
      exact Option.noConfusion h
    | some p =>
      rw [show applyOp w Op.teleport =
        (Situation.handle_hero_action w "teleport").map Prod.snd from rfl, hha] at h
      simp only [Option.map_some'] at h
      obtain rfl := Option.some_inj.mp h
      obtain ⟨h1, h2⟩ := GInv_teleport hG hha
      exact ⟨h1, keysExtend_of_dict_eq h2⟩
  | update =>
    exact ⟨GInv_update hG h, keysExtend_update h⟩

theorem runOps_inv : ∀ (ops : List Op) (w w' : World), GInv w →
    runOps w ops = some w' → GInv w' ∧ KeysExtendBySentinel w w' := by
  intro ops
  induction ops with
  | nil =>
    intro w w' hG h
    rw [runOps] at h
    exact (Option.some_inj.mp h) ▸ ⟨hG, keysExtend_refl w⟩
  | cons op rest ih =>
    intro w w' hG h
    rw [runOps] at h
    cases hap : applyOp w op with
    | none =>
      rw [hap] at h
      exact Option.noConfusion h
    | some w1 =>
      rw [hap] at h
      simp only [Option.bind_eq_bind, Option.some_bind] at h
      obtain ⟨hG1, hk1⟩ := applyOp_inv hG op hap
      obtain ⟨hG', hk'⟩ := ih w1 w' hG1 h
      exact ⟨hG', keysExtend_trans hk1 hk'⟩

/-- **C6.** From any state satisfying the engine invariant, every reachable
state keeps the actor and every hazard at an in-cube coordinate: whenever the
situation of the hero or of a death ball has a coordinate, each axis lies in
`[0, N)`.  Moreover a hazard at `(0, y, z)` that draws "west" keeps its room
(only the random cursor advances), and a hero stepping west past the lower
bound is left in place. -/
theorem C6_bounds (w : World) (hG : GInv w) :
    (∀ ops w', runOps w ops = some w' →
      GInv w' ∧
      (∀ s c, (w'.ents w'.heroId).situation = some s →
        (w'.sits s).coordinate = some c → inCube w'.size c) ∧
      (∀ e s c, (w'.ents e).kind = EKind.deathBall → (w'.ents e).situation = some s →
        (w'.sits s).coordinate = some c → inCube w'.size c)) ∧
    (∀ (v : World) (e : EId) (room : SitId) (y z : Int),
      (v.ents e).situation = some room →
      Situation.contains v room v.heroId = false →
      Entity.get_location v e = (0, y, z) →
      v.rand v.rk % 6 = 3 →
      DeathBall.move v e = some { v with rk := v.rk + 1 }) ∧
    (∀ (v : World) (y z : Int), Entity.get_location v v.heroId = (0, y, z) →
      Hero.go_west v = some v) := by
  refine ⟨?_, ?_, ?_⟩
  · intro ops w' hrun
    obtain ⟨hG', _⟩ := runOps_inv ops w w' hG hrun
    refine ⟨hG', hG'.heroLoc, ?_⟩
    intro e s c hk hs hc
    obtain ⟨c2, hc2, hic⟩ := hG'.dbLoc e s hk hs
    rw [hc2] at hc
    obtain rfl := Option.some_inj.mp hc
    exact hic
  · intro v e room y z hsit hcon hloc hr
    rw [DeathBall.move, hsit]
    simp only [Option.bind_eq_bind, Option.some_bind]
    rw [if_neg (by rw [hcon]; exact Bool.false_ne_true)]
    rw [hloc]
    dsimp only
    simp only [World.draw]
    rw [hr]
    rw [if_neg (by decide : ¬ ((3 : Nat) = 0)), if_neg (by decide : ¬ ((3 : Nat) = 1)),
      if_neg (by decide : ¬ ((3 : Nat) = 2)), if_pos rfl,
      if_neg (by decide : ¬ ((1 : Int) ≤ 0))]
  · intro v y z hloc
    rw [Hero.go_west, hloc]
    dsimp only
    rw [if_neg (by decide : ¬ ((0 : Int) ≤ 0 - 1))]

/-- Witness for C6 at the concrete state `WB` (which has a hazard at
`(0, 0, 0)` and a rigged oracle that always draws "west"). -/
theorem C6_bounds_witness :
    (∀ ops w', runOps WB ops = some w' →
      GInv w' ∧
      (∀ s c, (w'.ents w'.heroId).situation = some s →
        (w'.sits s).coordinate = some c → inCube w'.size c) ∧
      (∀ e s c, (w'.ents e).kind = EKind.deathBall → (w'.ents e).situation = some s →
        (w'.sits s).coordinate = some c → inCube w'.size c)) ∧
    (∀ (v : World) (e : EId) (room : SitId) (y z : Int),
      (v.ents e).situation = some room →
      Situation.contains v room v.heroId = false →
      Entity.get_location v e = (0, y, z) →
      v.rand v.rk % 6 = 3 →
      DeathBall.move v e = some { v with rk := v.rk + 1 }) ∧
    (∀ (v : World) (y z : Int), Entity.get_location v v.heroId = (0, y, z) →
      Hero.go_west v = some v) :=
  C6_bounds WB GInv_WB

/-- **C7 (amended).** The coordinate key set of the dictionary does change
after initialization — but only in one way: no key is ever removed, and the
only key an operation can add is the sentinel `(-1, -1, -1)` (written when a
`Death` or `Victory` situation is stored).  In particular every cube
coordinate remains a key through every operation sequence. -/
theorem C7_keyset_evolution (w : World) (hG : GInv w) (ops : List Op) (w' : World)
    (h : runOps w ops = some w') :
    (∀ k, k ∈ dictKeys w → k ∈ dictKeys w') ∧
    (∀ k, k ∈ dictKeys w' → k ∈ dictKeys w ∨ k = (-1, -1, -1)) ∧
    (∀ c, inCube w.size c → c ∈ dictKeys w') := by
  obtain ⟨_, hk⟩ := runOps_inv ops w w' hG h
  refine ⟨hk.1, hk.2, ?_⟩
  intro c hc
  obtain ⟨s, lt, hl, _, _⟩ := hG.cubeKeys c hc
  refine hk.1 c ?_
  have hs : (dictLookup w.dict c).isSome := by
    rw [hl]
    rfl
  exact (dictLookup_isSome_iff_mem_keys w.dict c).mp hs

/-- Witness for C7: one killing `update` on `WA`, with the resulting state
named by evaluation. -/
theorem C7_keyset_evolution_witness :
    (∀ k, k ∈ dictKeys WA → k ∈ dictKeys ((runOps WA [Op.update]).getD WA)) ∧
    (∀ k, k ∈ dictKeys ((runOps WA [Op.update]).getD WA) →
      k ∈ dictKeys WA ∨ k = (-1, -1, -1)) ∧
    (∀ c, inCube WA.size c → c ∈ dictKeys ((runOps WA [Op.update]).getD WA)) :=
  C7_keyset_evolution WA GInv_WA [Op.update] ((runOps WA [Op.update]).getD WA) rfl

/-- Counterexample to the claim that the key set never changes after
initialization: at `WA` the sentinel key `(-1, -1, -1)` is absent, and one
`World.update` (a death turn) adds it. -/
theorem C7_keyset_changes_counterexample :
    ((-1, -1, -1) : Coord) ∉ dictKeys WA ∧
    (World.update WA).map (fun w' => decide (((-1, -1, -1) : Coord) ∈ dictKeys w')) =
      some true := by
  constructor
  · decide
  · rfl

/-! ## Claim C10: stale item reference between take and update -/

theorem get_entities_nil_of_no_db {v : World}
    (hnd : ∀ e, (v.ents e).kind ≠ EKind.deathBall) (t : SitId) :
    Situation.get_entities v t EKind.deathBall = [] := by
  rw [Situation.get_entities, List.filter_eq_nil_iff]
  intro e _
  simp [hnd e]

theorem actLoop_no_db {v : World} (hnd : ∀ e, (v.ents e).kind ≠ EKind.deathBall)
    (s : SitId) : ∀ (fuel i : Nat), World.actLoop v s i fuel = some v := by
  intro fuel
  induction fuel with
  | zero =>
    intro i
    rw [World.actLoop]
  | succ n ih =>
    intro i
    rw [World.actLoop]
    by_cases hlt : i < ((v.sits s).contents).length
    · rw [dif_pos hlt, if_neg (hnd _)]
      exact ih (i + 1)
    · rw [dif_neg hlt]

theorem move_deathballs_no_db {v : World} (hG : GInv v)
    (hnd : ∀ e, (v.ents e).kind ≠ EKind.deathBall) :
    World.move_deathballs v = some v := by
  rw [World.move_deathballs]
  have key : ∀ (l : List Coord), (∀ c ∈ l, inCube v.size c) →
      l.foldlM (fun acc c =>
        match dictLookup acc.dict c with
        | some room => World.actLoop acc room 0 (((acc.sits room).contents).length)
        | none => none) v = some v := by
    intro l
    induction l with
    | nil =>
      intro _
      rfl
    | cons c rest ih =>
      intro hcl
      obtain ⟨room, lt, hl, _, _⟩ := hG.cubeKeys c (hcl c (List.mem_cons_self c rest))
      rw [List.foldlM_cons, hl]
      rw [show (match some room with
        | some room => World.actLoop v room 0 (((v.sits room).contents).length)
        | none => none) = World.actLoop v room 0 (((v.sits room).contents).length) from rfl]
      rw [actLoop_no_db hnd room _ 0]
      simp only [Option.bind_eq_bind, Option.some_bind]
      exact ih (fun c2 hc2 => hcl c2 (List.mem_cons_of_mem c hc2))
  exact key (cubeCoords v.size) (fun c hc => (mem_cubeCoords v.size c).mp hc)

theorem update_ordinary {v : World} (hG : GInv v) {σ : SitId} {locs : Coord} {sd r0 : SitId}
    (hsit : (v.ents v.heroId).situation = some σ)
    (hnd : ∀ e, (v.ents e).kind ≠ EKind.deathBall)
    (hlocs : (v.sits σ).coordinate = some locs)
    (hlks : dictLookup v.dict locs = some sd)
    (hl0 : dictLookup v.dict (0, 0, 0) = some r0)
    (hr0 : r0 ≠ σ) :
    ∃ w2, World.update v = some w2 ∧
      (∀ it, it ∈ (v.ents v.heroId).inventory → (w2.ents it).situation = some σ) ∧
      (w2.ents w2.heroId).situation = some σ ∧ w2.heroId = v.heroId := by
  have hdbnil : Situation.get_entities v sd EKind.deathBall = [] :=
    get_entities_nil_of_no_db hnd sd
  have h1 : World.update v = World.updateTail (World.resyncInventory v) := by
    rw [World.update_eq_of hsit hlocs hlks, hdbnil]
    show (World.move_deathballs v).bind (fun w2 =>
      World.updateTail (World.resyncInventory w2)) = _
    rw [move_deathballs_no_db hG hnd]
    simp only [Option.some_bind]
  obtain ⟨w3, hw3, r1, r2, r3, r4, r5, r6, r7, r8, r9, r10, r11, r12, r13⟩ :=
    resyncInventory_spec v
  have hG3 : GInv w3 := hw3 ▸ GInv_resyncInventory hG
  have hsit3 : (w3.ents w3.heroId).situation = some σ := by
    rw [r4, r10]
    exact hsit
  have hl03 : dictLookup w3.dict (0, 0, 0) = some r0 := by
    rw [r2]
    exact hl0
  have hfalse : Victory.achieved w3 = some false := by
    rw [achieved_spec hG3 hsit3 hl03]
    simp [hr0]
  obtain ⟨wf, hwf, f1, f2, f3, f4, f5, f6, f7, f8, f9, f10⟩ := resetActed_spec w3
  refine ⟨wf, ?_, ?_, ?_, ?_⟩
  · rw [h1, hw3, updateTail_false hfalse, hwf]
  · intro it hmem
    rw [(f10 it).1, r12 it hmem, hsit]
  · rw [show wf.heroId = v.heroId from by rw [f4, r4], (f10 v.heroId).1, r10]
    exact hsit
  · rw [f4, r4]

/-- **C10.** After a successful `Hero.take`, the item's `situation` still
references the room it was taken from even though that room's contents no
longer include it — the entity-to-situation reference and the
situation-to-entity containment are out of sync for that item; the next
`World.update`'s inventory re-synchronization (step 3) then re-points the
item's `situation` at the hero's current situation.  (Stated for a
hazard-free state whose hero is away from the origin room, so that update is
an ordinary turn.) -/
theorem C10_take_desync_until_update (w : World) (hG : GInv w) (s : SitId) (item : EId)
    (locs : Coord) (sd r0 : SitId)
    (hsit : (w.ents w.heroId).situation = some s)
    (hisit : (w.ents item).situation = some s)
    (hcount : ((w.sits s).contents).count item = 1)
    (hkh : (w.ents item).kind ≠ EKind.hero)
    (hkd : (w.ents item).kind ≠ EKind.deathBall)
    (hnd : ∀ e, (w.ents e).kind ≠ EKind.deathBall)
    (hlocs : (w.sits s).coordinate = some locs)
    (hlks : dictLookup w.dict locs = some sd)
    (hl0 : dictLookup w.dict (0, 0, 0) = some r0)
    (hr0 : r0 ≠ s) :
    ∃ w1, Hero.take w item = some w1 ∧
      (w1.ents item).situation = some s ∧
      item ∉ (w1.sits s).contents ∧
      item ∈ (w1.ents w1.heroId).inventory ∧
      ∃ w2, World.update w1 = some w2 ∧
        (w2.ents item).situation = (w2.ents w2.heroId).situation ∧
        (w2.ents w2.heroId).situation = some s := by
  have hm : item ∈ (w.sits s).contents :=
    List.count_pos_iff.mp (by omega)
  have hitemhero : item ≠ w.heroId := by
    intro hcon
    exact hkh (by rw [hcon]; exact hG.heroKind)
  obtain ⟨W1, hW1⟩ : ∃ u, u = (w.setContents s (((w.sits s).contents).erase item)).setInv
      w.heroId (((w.ents w.heroId).inventory) ++ [item]) := ⟨_, rfl⟩
  have heq : Hero.take w item = some W1 := by
    rw [hW1]
    simp [Hero.take, hsit, Situation.contains, hm]
  obtain ⟨hG1, hd1⟩ := GInv_take_core hG hkh hkd hm hW1
  have hents1 : ∀ x, x ≠ w.heroId → W1.ents x = w.ents x := by
    intro x hx
    rw [hW1]
    simp [hx]
  have hhero1 : W1.ents w.heroId =
      { w.ents w.heroId with inventory := ((w.ents w.heroId).inventory) ++ [item] } := by
    rw [hW1]
    simp
  have hkind1 : ∀ x, (W1.ents x).kind = (w.ents x).kind := by
    intro x
    by_cases hx : x = w.heroId
    · rw [hx, hhero1]
    · rw [hents1 x hx]
  have hhid1 : W1.heroId = w.heroId := by
    rw [hW1]
    rfl
  have hsit1 : (W1.ents W1.heroId).situation = some s := by
    rw [hhid1, hhero1]
    exact hsit
  have hnd1 : ∀ e, (W1.ents e).kind ≠ EKind.deathBall := by
    intro e
    rw [hkind1]
    exact hnd e
  have hlocs1 : (W1.sits s).coordinate = some locs := by
    rw [hW1]
    simp only [World.setInv_sits, World.setContents_sits_coordinate]
    exact hlocs
  have hlks1 : dictLookup W1.dict locs = some sd := by
    rw [hd1]
    exact hlks
  have hl01 : dictLookup W1.dict (0, 0, 0) = some r0 := by
    rw [hd1]
    exact hl0
  have hmem1 : item ∈ (W1.ents W1.heroId).inventory := by
    rw [hhid1, hhero1]
    simp
  refine ⟨W1, heq, ?_, ?_, hmem1, ?_⟩
  · rw [hents1 item hitemhero]
    exact hisit
  · rw [hW1]
    have hc2 : (((w.setContents s (((w.sits s).contents).erase item)).setInv w.heroId
        (((w.ents w.heroId).inventory) ++ [item])).sits s).contents =
        ((w.sits s).contents).erase item := by
      rw [World.setInv_sits, World.setContents_sits_contents, if_pos rfl]
    rw [hc2]
    intro hmem
    have ho := List.count_pos_iff.mpr hmem
    rw [List.count_erase_self, hcount] at ho
    omega
  · obtain ⟨w2, hupd, hres, hs2, hh2⟩ := update_ordinary hG1 hsit1 hnd1 hlocs1 hlks1 hl01 hr0
    refine ⟨w2, hupd, ?_, hs2⟩
    rw [hres item hmem1, hs2]

/-- Witness for C10 at the concrete state `WE`: the hero takes the treasure
from the room at `(1, 0, 0)`; between the take and the following update the
treasure's `situation` still names that room while its contents no longer
hold it, and the update re-syncs the reference. -/
theorem C10_take_desync_until_update_witness :
    ∃ w1, Hero.take WE 2 = some w1 ∧
      (w1.ents 2).situation = some (SitId.loc (1, 0, 0)) ∧
      (2 : EId) ∉ (w1.sits (SitId.loc (1, 0, 0))).contents ∧
      (2 : EId) ∈ (w1.ents w1.heroId).inventory ∧
      ∃ w2, World.update w1 = some w2 ∧
        (w2.ents 2).situation = (w2.ents w2.heroId).situation ∧
        (w2.ents w2.heroId).situation = some (SitId.loc (1, 0, 0)) :=
  C10_take_desync_until_update WE GInv_WE (SitId.loc (1, 0, 0)) 2 (1, 0, 0)
    (SitId.loc (1, 0, 0)) (SitId.loc (0, 0, 0)) rfl rfl (by decide) (by decide) (by decide)
    WE_no_db rfl rfl rfl (by decide)
